import Mathlib

/-!
goverter: the statement synthesizer of `internal/generator` and the `Generate` drivers

A shallow embedding of `src/internal/generator/generator.go` (`toCode`, `BuildBlock`,
`addMethod`, `addOuterMethod`, `Generate`) and of `src/generator/generate.go`
(`BuildSteps`, `Generate`), followed by theorems about them.

Modelling conventions.

* `go/types` values are first-order terms (`Ty`).  A declared (package level) named type is
  the term `Ty.Named path name`; its underlying type is looked up in `TypesInfo.underlying`, so
  that types which refer to themselves (through a pointer, a slice, ...) are ordinary finite
  terms.  A predeclared named type of the universe scope (`error`), whose object has no
  package, is the term `Ty.Predeclared name methods`.
* `types.Type.String()`, the `%#v` rendering of a type and `fmt.Sprintf` of a format without
  operands are library functions; they are the fields `typeString`, `goSyntax` and `sprintf`
  of `TypesInfo`, and every theorem holds for all of them.
* A Go result pair `(value, error)` is a Lean pair whose second component is `none` for a nil
  error.  A nil slice and an empty slice are both `[]`; a nil `jen.Code` is `Code.Nil`.
* A call that can panic has a result of type `Outcome`: it returns or it panics.
* `BuildBlock` recurses through the fields of declared types, so it takes a fuel argument;
  `none` means that the call has no result in the model because the fuel ran out, never an
  error of the program.
* The type `Generator` with its methods and the rules of package `builder` are not among the
  sources.  The methods are parameters of `Generator.Generate` (`Generator.GeneratorOps`, with
  an arbitrary state); the rules Basic and Struct and the table of directives, which the
  converter of example/nested needs, are modelled from the specification in a section of
  their own, and every definition of that section says so.
-/

namespace Goverter

/-! ## go/types -/

/-- The enumeration `types.BasicKind`. -/
inductive BasicKind where
  | Invalid
  | Bool | Int | Int8 | Int16 | Int32 | Int64
  | Uint | Uint8 | Uint16 | Uint32 | Uint64 | Uintptr
  | Float32 | Float64 | Complex64 | Complex128
  | String | UnsafePointer
  | UntypedBool | UntypedInt | UntypedRune | UntypedFloat | UntypedComplex | UntypedString
  | UntypedNil
  deriving DecidableEq, Repr

/-- The implementations of `types.Type`.  A struct is its ordered list of fields
(`Name()`, `Type()`); a basic type carries its kind and its name (`byte` and `uint8` are two
basic types of one kind).  A `*types.Named` is either `Named path name`, a type declared in
the package `path`, or `Predeclared name methods`, a named type of the universe scope such as
`error`: its object has no package (`Obj().Pkg()` is nil) and its underlying type is the
interface with the methods `methods`. -/
inductive Ty where
  | Basic (kind : BasicKind) (name : String)
  | Named (path : String) (name : String)
  | Predeclared (name : String) (methods : List (String × Ty))
  | Struct (fields : List (String × Ty))
  | Pointer (elem : Ty)
  | Slice (elem : Ty)
  | Array (len : Int) (elem : Ty)
  | Map (key : Ty) (elem : Ty)
  | Chan (elem : Ty)
  | Signature (params : List Ty) (results : List Ty)
  | Interface (methods : List (String × Ty))

/-- What the type checker and the library know besides the terms themselves: the underlying
type of every declared named type, the two renderings of a type used in error messages
(`String()` and the verb `%#v`), `FullName()` and `String()` of a method given by its name
and its type, and `sprintf format`, the text that `fmt.Sprintf(format)` and
`fmt.Errorf(format)` produce when they are called with a format and no operand (the verbs of
the format are expanded, so a `%` of the format is not printed as it stands). -/
structure TypesInfo where
  underlying : String → String → Ty
  typeString : Ty → String
  goSyntax : Ty → String
  funcFullName : String → Ty → String
  funcString : String → Ty → String
  sprintf : String → String

/-- The method `Underlying()` of `types.Type`. -/
def Ty.Underlying (w : TypesInfo) : Ty → Ty
  | .Named path name => w.underlying path name
  | .Predeclared _ methods => .Interface methods
  | t => t

/-- A Go call either returns or panics. -/
inductive Outcome (α : Type) where
  | Return (v : α)
  | Panic (msg : String)

/-! ## jennifer (`jen`) -/

/-- The argument of `jen.Lit`: an integer, or a method value such as `cast.Len` (the bound
method itself, not the result of calling it; `result` records what a call would return). -/
inductive Literal where
  | Int (n : Int)
  | MethodValue (name : String) (result : Int)

/-- An item of generated code (`jen.Code`).  `Stmt` is a `*jen.Statement` used as an item,
`Nil` the nil interface value. -/
inductive Code where
  | Nil
  | Id (name : String)
  | Dot (name : String)
  | Op (op : String)
  | Qual (path : String) (name : String)
  | Return
  | Var
  | Func
  | TypeKw
  | Keyword (name : String)
  | Struct (fields : List Code)
  | Params (params : List Code)
  | Block (stmts : List Code)
  | Index (items : List Code)
  | Map (key : Code)
  | Lit (v : Literal)
  | Stmt (items : List Code)

/-- The type `jen.Statement`, a sequence of items. -/
abbrev Statement := List Code

/-- The function `empty` of generator.go: a statement without items. -/
def empty : Statement := []

namespace Statement

/-- `Clone` copies the statement. -/
def Clone (s : Statement) : Statement := s
/-- `Id(name)` appends an identifier. -/
def Id (s : Statement) (name : String) : Statement := s ++ [Code.Id name]
/-- `Dot(name)` appends a selector. -/
def Dot (s : Statement) (name : String) : Statement := s ++ [Code.Dot name]
/-- `Op(op)` appends an operator. -/
def Op (s : Statement) (op : String) : Statement := s ++ [Code.Op op]
/-- `Qual(path, name)` appends a qualified identifier. -/
def Qual (s : Statement) (path name : String) : Statement := s ++ [Code.Qual path name]
/-- `Add(code)` appends the given item. -/
def Add (s : Statement) (c : Code) : Statement := s ++ [c]
/-- `Map(key)` appends `map[key]`. -/
def Map (s : Statement) (key : Code) : Statement := s ++ [Code.Map key]
/-- `Index(items...)` appends a bracketed group. -/
def Index (s : Statement) (items : List Code) : Statement := s ++ [Code.Index items]
/-- `Params(items...)` appends a parenthesised group. -/
def Params (s : Statement) (items : List Code) : Statement := s ++ [Code.Params items]
/-- `Block(stmts...)` appends a braced block. -/
def Block (s : Statement) (stmts : List Code) : Statement := s ++ [Code.Block stmts]
/-- `Struct()` appends a struct type without fields. -/
def Struct (s : Statement) (fields : List Code) : Statement := s ++ [Code.Struct fields]
/-- The type keywords `String()`, `Int()`, ... append the keyword. -/
def Keyword (s : Statement) (name : String) : Statement := s ++ [Code.Keyword name]

end Statement

namespace jen

/-- `jen.Id(name)`. -/
def Id (name : String) : Statement := Statement.Id [] name
/-- `jen.Var()`. -/
def Var : Statement := [Code.Var]
/-- `jen.Return()` without results. -/
def Return : Statement := [Code.Return]

end jen

/-- The header comment, the package name and the top-level declarations of a `jen.File`. -/
structure File where
  name : String
  header : List String
  decls : List Statement

/-- `jen.NewFile(name)`. -/
def NewFile (name : String) : File := ⟨name, [], []⟩

/-- `HeaderComment(text)` adds a comment above the package clause. -/
def File.HeaderComment (f : File) (text : String) : File := { f with header := f.header ++ [text] }

/-- A statement started on the file (`file.Type()...`, `file.Func()...`) and completed by the
chained calls becomes the next top-level declaration. -/
def File.Add (f : File) (decl : Statement) : File := { f with decls := f.decls ++ [decl] }

/-! ## internal/generator/generator.go -/

/-- The function `toCode`: the type expression of `t`, appended to the statement `st`.  In
the case `*types.Named` the call `cast.Obj().Pkg().Path()` dereferences the package of the
type, which is nil for a predeclared type, and the call panics.  The error of the last line
is `fmt.Errorf` of the concatenated text, which is thereby the format. -/
def toCode (w : TypesInfo) : Ty → Statement → Outcome (Code × Option String)
  | .Named path name, st => .Return (.Stmt (st.Qual path name), none)
  | .Predeclared _ _, _ =>
    .Panic "runtime error: invalid memory address or nil pointer dereference"
  | .Map key elem, st =>
    match toCode w key empty with
    | .Panic msg => .Panic msg
    | .Return (k, some err) => .Return (k, some err)
    | .Return (k, none) => toCode w elem (st.Map k)
  | .Slice elem, st => toCode w elem (st.Index [])
  | .Array len elem, st => toCode w elem (st.Index [.Lit (.MethodValue "Len" len)])
  | .Pointer elem, st => toCode w elem (st.Op "*")
  | .Basic .String _, st => .Return (.Stmt (st.Keyword "string"), none)
  | .Basic .Int _, st => .Return (.Stmt (st.Keyword "int"), none)
  | .Basic .Int8 _, st => .Return (.Stmt (st.Keyword "int8"), none)
  | .Basic .Int16 _, st => .Return (.Stmt (st.Keyword "int16"), none)
  | .Basic .Int32 _, st => .Return (.Stmt (st.Keyword "int32"), none)
  | .Basic .Int64 _, st => .Return (.Stmt (st.Keyword "int64"), none)
  | .Basic .Uint _, st => .Return (.Stmt (st.Keyword "uint"), none)
  | .Basic .Uint8 _, st => .Return (.Stmt (st.Keyword "uint8"), none)
  | .Basic .Uint16 _, st => .Return (.Stmt (st.Keyword "uint16"), none)
  | .Basic .Uint32 _, st => .Return (.Stmt (st.Keyword "uint32"), none)
  | .Basic .Uint64 _, st => .Return (.Stmt (st.Keyword "uint64"), none)
  | .Basic .Bool _, st => .Return (.Stmt (st.Keyword "bool"), none)
  | .Basic .Complex128 _, st => .Return (.Stmt (st.Keyword "complex128"), none)
  | .Basic .Complex64 _, st => .Return (.Stmt (st.Keyword "complex64"), none)
  | .Basic .Float32 _, st => .Return (.Stmt (st.Keyword "float32"), none)
  | .Basic .Float64 _, st => .Return (.Stmt (st.Keyword "float64"), none)
  | t, _ => .Return (.Nil, some (w.sprintf ("unsupported type " ++ w.typeString t)))

/-- The map `sourceMethods` of `BuildBlock`, from a field name to the field. -/
abbrev VarMap := List (String × (String × Ty))

/-- The assignment `m[key] = v`: a later entry for a key replaces the earlier one. -/
def VarMap.set (m : VarMap) (key : String) (v : String × Ty) : VarMap :=
  (key, v) :: m.filter (fun e => e.1 != key)

/-- The lookup `v, ok := m[key]`. -/
def VarMap.get? (m : VarMap) (key : String) : Option (String × Ty) :=
  List.lookup key m

/-- The first loop of the struct case: `sourceMethods[m.Name()] = m` for every field of the
source in order. -/
def sourceMethodsOf (usource : List (String × Ty)) : VarMap :=
  usource.foldl (fun m f => m.set f.1 f) []

/-- The second loop of the struct case of `BuildBlock`, over the fields of the target from
`i` on; `rec` is the recursive call of `BuildBlock`.  The result is the early return of the
loop, or the statements accumulated when the loop ends. -/
def buildFields (w : TypesInfo)
    (rec : Statement → Statement → Ty → Ty → Nat → Option (List Code × Option String))
    (input : Statement) (source cast : Ty) (sourceMethods : VarMap) (level : Nat) :
    List (String × Ty) → List Code → Option (List Code × Option String)
  | [], stmt => some (stmt, none)
  | targetField :: rest, stmt =>
    match sourceMethods.get? targetField.1 with
    | none =>
      some ([], some ("source " ++ w.typeString source ++ " does not have a field named "
        ++ targetField.1))
    | some sourceField =>
      match rec (((jen.Id "target").Dot targetField.1).Op "=")
          (input.Clone.Dot sourceField.1) sourceField.2 targetField.2 ((level + 1) % 256) with
      | none => none
      | some (_, some err) =>
        some ([], some (w.typeString cast ++ "." ++ targetField.1 ++ ": " ++ err))
      | some (inner, none) =>
        buildFields w rec input source cast sourceMethods level rest (stmt ++ inner)

/-- The method `BuildBlock`: the statements that convert `input`, of type `source`, to the
type `target` and hand the result to the sink `end`.  The receiver is not used by the body.
`fuel` bounds the depth of the recursion; `level` is the `uint8` counter of the source.  The
case `*types.Named` covers the declared and the predeclared named types; the underlying type
of a predeclared one is an interface, so it takes the `else` branch.  `toCode` is called on a
declared named type only, where it does not panic; a panic would leave the call without a
result. -/
def BuildBlock (w : TypesInfo) : Nat → Statement → Statement → Ty → Ty → Nat →
    Option (List Code × Option String)
  | 0, _, _, _, _, _ => none
  | fuel + 1, endStmt, input, source, target, level =>
    match target with
    | .Named _ _ =>
      match target.Underlying w with
      | .Struct utype =>
        match toCode w target (jen.Var.Id "target") with
        | .Panic _ => none
        | .Return (_, some err) => some ([], some (w.typeString target ++ ": " ++ err))
        | .Return (jenutype, none) =>
          match source.Underlying w with
          | .Struct usource =>
            match buildFields w (BuildBlock w fuel) input source target
                (sourceMethodsOf usource) level utype [jenutype] with
            | none => none
            | some (r, some err) => some (r, some err)
            | some (stmt, none) => some (stmt ++ [.Stmt (endStmt.Clone.Id "target")], none)
          | _ =>
            some ([], some ("cannot convert " ++ w.typeString source ++ " to "
              ++ w.typeString target))
      | ut =>
        some ([], some ("only named struct types are currently supported was "
          ++ w.typeString ut))
    | .Predeclared _ _ =>
      some ([], some ("only named struct types are currently supported was "
        ++ w.typeString (target.Underlying w)))
    | .Basic kind _ =>
      match source with
      | .Basic sourceKind _ =>
        if sourceKind = kind then
          some ([.Stmt (endStmt.Add (.Stmt input))], none)
        else
          some ([], some ("cannot convert " ++ w.typeString source ++ " to "
            ++ w.typeString target))
      | _ =>
        some ([], some ("cannot convert " ++ w.typeString source ++ " to "
          ++ w.typeString target))
    | _ => some ([], some ("cannot handle: " ++ w.goSyntax target))

/-- The struct `generator`; `file` is the file that `g.file` points to. -/
structure generator where
  name : String
  id : String
  file : File
  lookup : List (String × List (String × String))

/-- The method `addMethod`.  The result is the file afterwards and the error, or the panic
of `toCode`. -/
def addMethod (w : TypesInfo) (fuel : Nat) (g : generator) (name : String) (source target : Ty) :
    Option (Outcome (File × Option String)) :=
  match toCode w source (jen.Id "source") with
  | .Panic msg => some (.Panic msg)
  | .Return (_, some err) => some (.Return (g.file, some ("source: " ++ err)))
  | .Return (jenSource, none) =>
    match toCode w target empty with
    | .Panic msg => some (.Panic msg)
    | .Return (_, some err) => some (.Return (g.file, some ("result: " ++ err)))
    | .Return (jenTarget, none) =>
      match BuildBlock w fuel jen.Return (jen.Id "source") source target 0 with
      | none => none
      | some (_, some err) => some (.Return (g.file, some ("body: " ++ err)))
      | some (block, none) =>
        some (.Return (g.file.Add ((((Statement.Params [Code.Func]
          [.Stmt (((jen.Id "c").Op "*").Id g.name)]).Id name).Params [jenSource]).Params
          [jenTarget] |>.Block block), none))

/-- `Tuple.At(i).Type()`; the source calls it only after checking the length. -/
def At (t : List Ty) (i : Nat) : Ty := t.getD i (.Basic .Invalid "invalid type")

/-- The method `addOuterMethod`; `method` is the name and the type of a `*types.Func`. -/
def addOuterMethod (w : TypesInfo) (fuel : Nat) (g : generator) (method : String × Ty) :
    Option (Outcome (File × Option String)) :=
  match method.2 with
  | .Signature params result =>
    if params.length ≠ 1 then
      some (.Return (g.file, some "expected signature to have only one parameter"))
    else if result.length ≠ 1 then
      some (.Return (g.file, some "expected signature to have only one parameter"))
    else
      addMethod w fuel g method.1 (At params 0) (At result 0)
  | t => some (.Return (g.file, some ("expected signature " ++ w.goSyntax t)))

/-- The struct `Config`. -/
structure Config where
  Name : String

/-- What `Generate` reads of an entry of `comments.Mapping`: `convConfig.Config`. -/
structure ConverterConfig where
  Config : Config

/-- The package returned by the importer, through `sources.Scope().Lookup(name)`: the type
of the object of that name, if there is one. -/
structure Package where
  Lookup : String → Option Ty

/-- The loop of `Generate` over the methods of the interface, from method `i` on. -/
def addOuterMethods (w : TypesInfo) (fuel : Nat) (g : generator) :
    List (String × Ty) → Option (Outcome (File × Option String))
  | [] => some (.Return (g.file, none))
  | method :: rest =>
    match addOuterMethod w fuel g method with
    | none => none
    | some (.Panic msg) => some (.Panic msg)
    | some (.Return (file, some err)) =>
      some (.Return (file, some (w.funcFullName method.1 method.2 ++ ": " ++ err)))
    | some (.Return (file, none)) => addOuterMethods w fuel { g with file := file } rest

/-- The loop of `Generate` over `mapping`.  The entries come in the order in which the
`range` statement visits them. -/
def generateConverters (w : TypesInfo) (fuel : Nat) (pattern : String) (sources : Package) :
    List (String × ConverterConfig) → File → Option (Outcome (Option File × Option String))
  | [], file => some (.Return (some file, none))
  | (name, convConfig) :: rest, file =>
    match sources.Lookup name with
    | none => some (.Return (none, some (pattern ++ ": could not find " ++ name)))
    | some obj =>
      let file1 := file.Add ((Statement.Id [Code.TypeKw] convConfig.Config.Name).Struct [])
      let gen : generator :=
        { name := convConfig.Config.Name, file := file1, id := w.typeString obj, lookup := [] }
      match obj.Underlying w with
      | .Interface methods =>
        match addOuterMethods w fuel gen methods with
        | none => none
        | some (.Panic msg) => some (.Panic msg)
        | some (.Return (_, some err)) => some (.Return (none, some err))
        | some (.Return (file2, none)) => generateConverters w fuel pattern sources rest file2
      | _ => some (.Panic "interface conversion: types.Type is not *types.Interface")

/-- The function `Generate` of internal/generator.  `importPkg` is
`importer.For("source", nil).Import`. -/
def Generate (w : TypesInfo) (fuel : Nat) (importPkg : String → Except String Package)
    (pattern : String) (mapping : List (String × ConverterConfig)) (config : Config) :
    Option (Outcome (Option File × Option String)) :=
  match importPkg pattern with
  | .error err => some (.Return (none, some err))
  | .ok sources =>
    let file := (NewFile config.Name).HeaderComment
      "// Code generated by github.com/jmattheis/go-genconv, DO NOT EDIT."
    generateConverters w fuel pattern sources mapping file

/-! ## generator/generate.go -/

namespace Generator

/-- The rules of package `builder` that `BuildSteps` lists. -/
inductive Builder where
  | BasicTargetPointerRule | Pointer | TargetPointer | Basic | Struct | List | Map
  deriving DecidableEq, Repr

/-- The variable `BuildSteps`. -/
def BuildSteps : List Builder :=
  [.BasicTargetPointerRule, .Pointer, .TargetPointer, .Basic, .Struct, .List, .Map]

/-- What `Generate` reads of `converter.Config`; `ε` is the type of `ExtendMethods`. -/
structure ConverterConfig (ε : Type) where
  Name : String
  ExtendMethods : ε

/-- What `Generate` reads of a `comments.Converter`; `μ` is the type of the entries of
`Methods`, and `Methods name` is the entry `converter.Methods[name]` (the zero value when
there is none). -/
structure Converter (ε μ : Type) where
  Name : String
  Config : ConverterConfig ε
  Methods : String → μ

/-- The type `Generator` and its methods are declared outside generate.go; they are taken as
parameters.  `γ` is the state of a `Generator` together with the file it points to: `create`
is the composite literal of `Generate`, `file` the file as the methods left it, and each
method returns the state afterwards and its error. -/
structure GeneratorOps (γ ε μ : Type) where
  create : File → String → γ
  file : γ → File
  parseExtend : γ → Ty → Package → ε → γ × Option String
  registerMethod : γ → String × Ty → μ → γ × Option String
  createMethods : γ → γ × Option String

/-- The loop of `Generate` over the methods of the interface. -/
def registerMethods {γ ε μ : Type} (w : TypesInfo) (ops : GeneratorOps γ ε μ)
    (converter : Converter ε μ) : γ → List (String × Ty) → γ × Option String
  | gen, [] => (gen, none)
  | gen, method :: rest =>
    match ops.registerMethod gen method (converter.Methods method.1) with
    | (gen1, some err) =>
      (gen1, some ("Error while creating converter method:\n    "
        ++ w.funcString method.1 method.2 ++ "\n\n" ++ err))
    | (gen1, none) => registerMethods w ops converter gen1 rest

/-- The loop of `Generate` over `mapping`. -/
def generateConverters {γ ε μ : Type} (w : TypesInfo) (ops : GeneratorOps γ ε μ)
    (pattern : String) (sources : Package) :
    List (Converter ε μ) → File → Outcome (Option File × Option String)
  | [], file => .Return (some file, none)
  | converter :: rest, file =>
    match sources.Lookup converter.Name with
    | none => .Return (none, some (pattern ++ ": could not find " ++ converter.Name))
    | some obj =>
      let file1 := file.Add ((Statement.Id [Code.TypeKw] converter.Config.Name).Struct [])
      let gen := ops.create file1 converter.Config.Name
      match obj.Underlying w with
      | .Interface methods =>
        match ops.parseExtend gen obj sources converter.Config.ExtendMethods with
        | (_, some err) =>
          .Return (none, some ("Error while parsing extend methods: " ++ err))
        | (gen1, none) =>
          match registerMethods w ops converter gen1 methods with
          | (_, some err) => .Return (none, some err)
          | (gen2, none) =>
            match ops.createMethods gen2 with
            | (_, some err) => .Return (none, some err)
            | (gen3, none) => generateConverters w ops pattern sources rest (ops.file gen3)
      | _ => .Panic "interface conversion: types.Type is not *types.Interface"

/-- The function `Generate` of package generator. -/
def Generate {γ ε μ : Type} (w : TypesInfo) (ops : GeneratorOps γ ε μ)
    (importPkg : String → Except String Package) (pattern : String)
    (mapping : List (Converter ε μ)) (config : Config) :
    Outcome (Option File × Option String) :=
  match importPkg pattern with
  | .error err => .Return (none, some err)
  | .ok sources =>
    let file := (NewFile config.Name).HeaderComment
      "// Code generated by github.com/jmattheis/go-genconv, DO NOT EDIT."
    generateConverters w ops pattern sources mapping file

end Generator

/-! ## Execution of the generated statements

The statements that `BuildBlock` emits are declarations `var x T`, assignments `x.f = e` and
`return e`, where `e` is a variable followed by selectors.  They are run as Go runs them,
with one rule of the compiler kept: a name is declared at most once in a block. -/

/-- A run-time value: a value of a basic type, given by its kind and its literal, or a struct
value with its fields in order. -/
inductive Val where
  | Basic (kind : BasicKind) (lit : String)
  | Struct (fields : List (String × Val))

/-- The literal of the zero value of a basic kind. -/
def zeroLit : BasicKind → String
  | .String | .UntypedString => ""
  | .Bool | .UntypedBool => "false"
  | _ => "0"

/-- The zero values of the fields of a struct; `rec` gives the zero value of a type. -/
def zeroFields (rec : Ty → Option Val) : List (String × Ty) → Option (List (String × Val))
  | [] => some []
  | f :: rest =>
    match rec f.2, zeroFields rec rest with
    | some v, some vs => some ((f.1, v) :: vs)
    | _, _ => none

/-- The zero value of a basic type or of a struct type. -/
def zeroValue (w : TypesInfo) : Nat → Ty → Option Val
  | 0, _ => none
  | _ + 1, .Basic kind _ => some (.Basic kind (zeroLit kind))
  | fuel + 1, .Named path name => zeroValue w fuel (w.underlying path name)
  | fuel + 1, .Struct fields => (zeroFields (zeroValue w fuel) fields).map Val.Struct
  | _ + 1, _ => none

/-- The selector `v.f`. -/
def Val.field : Val → String → Option Val
  | .Struct fields, f => List.lookup f fields
  | _, _ => none

/-- The value `v` after the assignment `v.f = x`. -/
def Val.setField : Val → String → Val → Option Val
  | .Struct fields, f, x =>
    if (List.lookup f fields).isSome then
      some (.Struct (fields.map (fun e => if e.1 = f then (e.1, x) else e)))
    else none
  | _, _, _ => none

/-- A statement with the statements it holds as items written out in place, as they are
rendered. -/
def flatten (stmt : List Code) : List Code :=
  stmt.flatMap (fun c => match c with
    | .Stmt items => items
    | c => [c])

/-- The value of a chain of selectors applied to `v`. -/
def selectPath : Val → List Code → Option Val
  | v, [] => some v
  | v, .Dot f :: rest =>
    match v.field f with
    | some x => selectPath x rest
    | none => none
  | _, _ => none

/-- The value of the expression `x.f.g...`. -/
def evalExpr (vars : List (String × Val)) : List Code → Option Val
  | .Id x :: sels =>
    match List.lookup x vars with
    | some v => selectPath v sels
    | none => none
  | _ => none

/-- The type that a type expression emitted by `toCode` for a named type denotes. -/
def typeOfCode : List Code → Option Ty
  | [.Qual path name] => some (.Named path name)
  | _ => none

/-- The effect of one statement: the variables afterwards, or the value returned. -/
inductive Step where
  | Next (vars : List (String × Val))
  | Returned (v : Val)

/-- One statement, run with the variables `vars` of the function block.  `none` when the
statement is rejected or cannot be run; a `var` of a name that the block already declares is
rejected. -/
def execStmt (w : TypesInfo) (fuel : Nat) (vars : List (String × Val)) (stmt : List Code) :
    Option Step :=
  match flatten stmt with
  | .Var :: .Id x :: ty =>
    if (List.lookup x vars).isSome then none
    else
      match typeOfCode ty with
      | some t =>
        match zeroValue w fuel t with
        | some v => some (.Next ((x, v) :: vars))
        | none => none
      | none => none
  | .Return :: expr =>
    match evalExpr vars expr with
    | some v => some (.Returned v)
    | none => none
  | .Id x :: .Dot f :: .Op "=" :: expr =>
    match List.lookup x vars, evalExpr vars expr with
    | some tv, some v =>
      match tv.setField f v with
      | some tv1 => some (.Next ((x, tv1) :: vars.filter (fun e => e.1 != x)))
      | none => none
    | _, _ => none
  | _ => none

/-- The body of a generated function, run from the variables `vars`: the value it returns. -/
def run (w : TypesInfo) (fuel : Nat) : List Code → List (String × Val) → Option Val
  | [], _ => none
  | .Stmt stmt :: rest, vars =>
    match execStmt w fuel vars stmt with
    | some (.Next vars1) => run w fuel rest vars1
    | some (.Returned v) => some v
    | none => none
  | _ :: _, _ => none

/-- The generated conversion applied to the value `s` of the parameter `source`. -/
def convert (w : TypesInfo) (fuel : Nat) (block : List Code) (s : Val) : Option Val :=
  run w fuel block [("source", s)]

/-- The names that the statements of a function body declare with `var`, in order. -/
def declaredIds : List Code → List String
  | [] => []
  | .Stmt stmt :: rest =>
    match flatten stmt with
    | .Var :: .Id x :: _ => x :: declaredIds rest
    | _ => declaredIds rest
  | _ :: rest => declaredIds rest

/-- The declared struct types are well founded: every struct ranks above the types of its
fields.  The type checker only admits such declarations (a struct cannot contain itself by
value), and this bounds the depth of the recursion of `BuildBlock`. -/
def Ranked (w : TypesInfo) (rank : Ty → Nat) : Prop :=
  ∀ path name fields, w.underlying path name = .Struct fields →
    ∀ f ∈ fields, rank f.2 < rank (.Named path name)

/-- The call that `BuildBlock` makes for the field `f` of the target, matched with the field
`sf` of the source: the sink is `target.<f> =`, the input is `input.<sf>`. -/
def fieldCall (rec : Statement → Statement → Ty → Ty → Nat → Option (List Code × Option String))
    (input : Statement) (level : Nat) (f sf : String × Ty) : Option (List Code × Option String) :=
  rec (((jen.Id "target").Dot f.1).Op "=") (input.Clone.Dot sf.1) sf.2 f.2 ((level + 1) % 256)

/-- The fields `fields` of the target are all converted: each of them has a field of its name
in `sm`, and the call made for it returned the statements at its place in `inners`, without
an error. -/
def FieldsDone (rec : Statement → Statement → Ty → Ty → Nat → Option (List Code × Option String))
    (input : Statement) (sm : VarMap) (level : Nat) (fields : List (String × Ty))
    (inners : List (List Code)) : Prop :=
  List.Forall₂ (fun f inner => ∃ sf, sm.get? f.1 = some sf ∧
    fieldCall rec input level f sf = some (inner, none)) fields inners

/-- The error `leaf` with one annotation `<T>.<field>: ` in front for every entry of `path`,
the outermost first. -/
def annotate (w : TypesInfo) (path : List (Ty × String)) (leaf : String) : String :=
  path.foldr (fun a acc => w.typeString a.1 ++ "." ++ a.2 ++ ": " ++ acc) leaf

/-- A failure below nested fields.  `NestedFailure w fuel e i s t l path leaf`: the call
`BuildBlock w fuel e i s t l` reaches, through the fields of `path` (each with the named struct
that declares it, the outermost first), a call of `BuildBlock` that returns the error `leaf`.
At every level the fields declared before the one of the path are converted, so that the
loop arrives at it. -/
inductive NestedFailure (w : TypesInfo) :
    Nat → Statement → Statement → Ty → Ty → Nat → List (Ty × String) → String → Prop
  | leaf (fuel : Nat) (e i : Statement) (s t : Ty) (l : Nat) (c : List Code) (err : String) :
      BuildBlock w fuel e i s t l = some (c, some err) → NestedFailure w fuel e i s t l [] err
  | field (fuel : Nat) (e i : Statement) (s : Ty) (p nm : String) (l : Nat)
      (utype usource pre post : List (String × Ty)) (f sf : String × Ty)
      (inners : List (List Code)) (path : List (Ty × String)) (err : String) :
      w.underlying p nm = .Struct utype → s.Underlying w = .Struct usource →
      utype = pre ++ f :: post →
      FieldsDone (BuildBlock w fuel) i (sourceMethodsOf usource) l pre inners →
      (sourceMethodsOf usource).get? f.1 = some sf →
      NestedFailure w fuel [.Id "target", .Dot f.1, .Op "="] (i ++ [.Dot sf.1]) sf.2 f.2
        ((l + 1) % 256) path err →
      NestedFailure w (fuel + 1) e i s (.Named p nm) l ((.Named p nm, f.1) :: path) err

/-- The converter `name` of the mapping cannot be generated by `Generate` of
internal/generator: it is not found in the package, or `addOuterMethod` returns an error for
one of the methods of its interface (whether it returns an error does not depend on the
generator `g`). -/
def ConverterFails (w : TypesInfo) (fuel : Nat) (sources : Package) (name : String) : Prop :=
  sources.Lookup name = none ∨
    ∃ obj methods m g file err, sources.Lookup name = some obj ∧
      obj.Underlying w = .Interface methods ∧ m ∈ methods ∧
      addOuterMethod w fuel g m = some (.Return (file, some err))

/-- The type is not built on a predeclared named type: `toCode`, which looks through
pointers, slices, arrays and maps, meets none. -/
def Ty.PredeclaredFree : Ty → Bool
  | .Predeclared _ _ => false
  | .Pointer elem => elem.PredeclaredFree
  | .Slice elem => elem.PredeclaredFree
  | .Array _ elem => elem.PredeclaredFree
  | .Map key elem => key.PredeclaredFree && elem.PredeclaredFree
  | _ => true

/-- The generator that `Generate` of internal/generator creates for the converter `entry`,
found as `obj`, on the file `file`, after the declaration of the converter struct. -/
def startOf (w : TypesInfo) (entry : String × ConverterConfig) (obj : Ty) (file : File) :
    generator :=
  { name := entry.2.Config.Name
    file := file.Add ((Statement.Id [Code.TypeKw] entry.2.Config.Name).Struct [])
    id := w.typeString obj, lookup := [] }

/-- The run of the loop of `Generate` of internal/generator over the methods:
`MethodsAdded w fuel g methods file2` when `addOuterMethod` is called for the methods one
after the other, the first call with the generator `g` and each later call on the file that
the call before it left, every call returns without an error, and the last one leaves the
file `file2`. -/
inductive MethodsAdded (w : TypesInfo) (fuel : Nat) :
    generator → List (String × Ty) → File → Prop
  | nil (g : generator) : MethodsAdded w fuel g [] g.file
  | cons (g : generator) (file1 file2 : File) (m : String × Ty) (rest : List (String × Ty)) :
      addOuterMethod w fuel g m = some (.Return (file1, none)) →
      MethodsAdded w fuel { g with file := file1 } rest file2 →
      MethodsAdded w fuel g (m :: rest) file2

/-- The iteration of `Generate` of internal/generator for the entry `entry`, run on the file
`file`, goes through without an error and leaves the file `file2`: the converter is found, it
is an interface, and every method of it is added in the run. -/
def Converted (w : TypesInfo) (fuel : Nat) (sources : Package)
    (entry : String × ConverterConfig) (file file2 : File) : Prop :=
  ∃ obj methods, sources.Lookup entry.1 = some obj ∧ obj.Underlying w = .Interface methods ∧
    MethodsAdded w fuel (startOf w entry obj file) methods file2

/-- The iteration of `Generate` of internal/generator for the entry `entry`, run on the file
`file`, fails with the error `err`: the converter is not found; or it is an interface, the
methods `pre` of it are added in the run, and the call of `addOuterMethod` for the next
method `m`, on the file that they left, returns the error `e`. -/
def FailsWith (w : TypesInfo) (fuel : Nat) (pattern : String) (sources : Package)
    (entry : String × ConverterConfig) (file : File) (err : String) : Prop :=
  (sources.Lookup entry.1 = none ∧ err = pattern ++ ": could not find " ++ entry.1) ∨
    ∃ obj methods pre m post file1 file2 e, sources.Lookup entry.1 = some obj ∧
      obj.Underlying w = .Interface methods ∧ methods = pre ++ m :: post ∧
      MethodsAdded w fuel (startOf w entry obj file) pre file1 ∧
      addOuterMethod w fuel { startOf w entry obj file with file := file1 } m
        = some (.Return (file2, some e)) ∧
      err = w.funcFullName m.1 m.2 ++ ": " ++ e

/-- The run of the loop of `Generate` of internal/generator over the entries `entries`, from
the file `file`: every iteration goes through without an error, each on the file that the one
before it left, and the last one leaves the file `file2`. -/
inductive AllConverted (w : TypesInfo) (fuel : Nat) (sources : Package) :
    File → List (String × ConverterConfig) → File → Prop
  | nil (file : File) : AllConverted w fuel sources file [] file
  | cons (file file1 file2 : File) (entry : String × ConverterConfig)
      (rest : List (String × ConverterConfig)) :
      Converted w fuel sources entry file file1 → AllConverted w fuel sources file1 rest file2 →
      AllConverted w fuel sources file (entry :: rest) file2

namespace Generator

/-- The state of the `Generator` that `Generate` creates for the converter `conv` on the file
`file`, after the declaration of the converter struct. -/
def startOf {γ ε μ : Type} (ops : GeneratorOps γ ε μ) (conv : Converter ε μ) (file : File) : γ :=
  ops.create (file.Add ((Statement.Id [Code.TypeKw] conv.Config.Name).Struct [])) conv.Config.Name

/-- The run of the loop of `Generate` over the methods of a converter:
`Registered ops conv gen methods gen2` when `registerMethod` is called for the methods one
after the other, the first call in the state `gen` and each later call in the state that the
call before it left, every call returns without an error, and the last one leaves the state
`gen2`. -/
inductive Registered {γ ε μ : Type} (ops : GeneratorOps γ ε μ) (conv : Converter ε μ) :
    γ → List (String × Ty) → γ → Prop
  | nil (gen : γ) : Registered ops conv gen [] gen
  | cons (gen gen1 gen2 : γ) (m : String × Ty) (rest : List (String × Ty)) :
      ops.registerMethod gen m (conv.Methods m.1) = (gen1, none) →
      Registered ops conv gen1 rest gen2 → Registered ops conv gen (m :: rest) gen2

/-- The iteration of `Generate` for the converter `conv`, run on the file `file`, goes through
without an error and leaves the file `file2`: the converter is found, it is an interface,
and `parseExtend`, `registerMethod` for every method and `createMethods`, each called in the
state that the call before it left, return without an error. -/
def Converted {γ ε μ : Type} (w : TypesInfo) (ops : GeneratorOps γ ε μ) (sources : Package)
    (conv : Converter ε μ) (file file2 : File) : Prop :=
  ∃ obj methods gen1 gen2 gen3, sources.Lookup conv.Name = some obj ∧
    obj.Underlying w = .Interface methods ∧
    ops.parseExtend (startOf ops conv file) obj sources conv.Config.ExtendMethods
      = (gen1, none) ∧
    Registered ops conv gen1 methods gen2 ∧
    ops.createMethods gen2 = (gen3, none) ∧ file2 = ops.file gen3

/-- The iteration of `Generate` for the converter `conv`, run on the file `file`, fails with
the error `err`: the converter is not found; or it is an interface and the first call that
returns an error, in the state that the calls before it left, is `parseExtend`, or
`registerMethod` for the method `m` after the methods `pre`, or `createMethods` after all
the methods. -/
def FailsWith {γ ε μ : Type} (w : TypesInfo) (ops : GeneratorOps γ ε μ) (pattern : String)
    (sources : Package) (conv : Converter ε μ) (file : File) (err : String) : Prop :=
  (sources.Lookup conv.Name = none ∧ err = pattern ++ ": could not find " ++ conv.Name) ∨
    ∃ obj methods, sources.Lookup conv.Name = some obj ∧
      obj.Underlying w = .Interface methods ∧
      ((∃ gen1 e, ops.parseExtend (startOf ops conv file) obj sources conv.Config.ExtendMethods
            = (gen1, some e) ∧
          err = "Error while parsing extend methods: " ++ e) ∨
        (∃ gen1 gen2 gen3 pre m post e,
          ops.parseExtend (startOf ops conv file) obj sources conv.Config.ExtendMethods
            = (gen1, none) ∧
          methods = pre ++ m :: post ∧ Registered ops conv gen1 pre gen2 ∧
          ops.registerMethod gen2 m (conv.Methods m.1) = (gen3, some e) ∧
          err = "Error while creating converter method:\n    " ++ w.funcString m.1 m.2
            ++ "\n\n" ++ e) ∨
        (∃ gen1 gen2 gen3 e,
          ops.parseExtend (startOf ops conv file) obj sources conv.Config.ExtendMethods
            = (gen1, none) ∧
          Registered ops conv gen1 methods gen2 ∧
          ops.createMethods gen2 = (gen3, some e) ∧ err = e))

/-- The run of the loop of `Generate` over the converters `convs`, from the file `file`:
every iteration goes through without an error, each on the file that the one before it left,
and the last one leaves the file `file2`. -/
inductive AllConverted {γ ε μ : Type} (w : TypesInfo) (ops : GeneratorOps γ ε μ)
    (sources : Package) : File → List (Converter ε μ) → File → Prop
  | nil (file : File) : AllConverted w ops sources file [] file
  | cons (file file1 file2 : File) (conv : Converter ε μ) (rest : List (Converter ε μ)) :
      Converted w ops sources conv file file1 → AllConverted w ops sources file1 rest file2 →
      AllConverted w ops sources file (conv :: rest) file2

end Generator

/-- The file that both functions `Generate` start from. -/
def startFile (config : Config) : File :=
  (NewFile config.Name).HeaderComment
    "// Code generated by github.com/jmattheis/go-genconv, DO NOT EDIT."

/-! ## The types of example/nested -/

namespace Nested

/-- The basic type `string`. -/
def tString : Ty := .Basic .String "string"
/-- The basic type `int`. -/
def tInt : Ty := .Basic .Int "int"

/-- The declarations of example/nested/input1.go, and beside them `Node`, `Tree` and
`Forest` (structs that refer to themselves and to each other through pointers), `Label`
(a named string), the structs `Pair` and `Single`, and `PersonIn`, `AddressIn` and
`StreetIn`, which mirror `Person` except that the street name is an `int`, the
interfaces `Copier` with the method `Copy(Pair) Pair` and `Cloner` with the method
`Clone(Single) Single`, and the struct `Blank` with one field of the blank name. -/
def underlying : String → String → Ty
  | _, "FlatPerson" =>
    .Struct [("Name", tString), ("Age", tInt), ("Street", tString), ("ZipCode", tString)]
  | _, "Person" =>
    .Struct [("Name", tString), ("Age", tInt), ("Address", .Named "nested" "Address")]
  | _, "Address" => .Struct [("StreetInfo", .Named "nested" "StreetInfo"), ("ZipCode", tString)]
  | _, "StreetInfo" => .Struct [("Name", tString)]
  | _, "Converter" =>
    .Interface [("Convert", .Signature [.Named "nested" "FlatPerson"] [.Named "nested" "Person"])]
  | _, "Node" => .Struct [("Value", tInt), ("Next", .Pointer (.Named "nested" "Node"))]
  | _, "Tree" => .Struct [("Children", .Pointer (.Named "nested" "Forest"))]
  | _, "Forest" => .Struct [("First", .Pointer (.Named "nested" "Tree"))]
  | _, "Label" => tString
  | _, "Pair" => .Struct [("A", tString), ("B", tInt)]
  | _, "Single" => .Struct [("A", tInt)]
  | _, "PersonIn" =>
    .Struct [("Name", tString), ("Age", tInt), ("Address", .Named "nested" "AddressIn")]
  | _, "AddressIn" =>
    .Struct [("StreetInfo", .Named "nested" "StreetIn"), ("ZipCode", tString)]
  | _, "StreetIn" => .Struct [("Name", tInt)]
  | _, "Copier" =>
    .Interface [("Copy", .Signature [.Named "nested" "Pair"] [.Named "nested" "Pair"])]
  | _, "Cloner" =>
    .Interface [("Clone", .Signature [.Named "nested" "Single"] [.Named "nested" "Single"])]
  | _, "Blank" => .Struct [("_", tString)]
  | _, _ => .Basic .Invalid "invalid type"

/-- A rendering of the types used in the examples: `String()` of a basic, a named, a
pointer, a slice and a channel type. -/
def typeString : Ty → String
  | .Basic _ name => name
  | .Named path name => path ++ "." ++ name
  | .Pointer elem => "*" ++ typeString elem
  | .Slice elem => "[]" ++ typeString elem
  | .Chan elem => "chan " ++ typeString elem
  | _ => "?"

/-- The type information of the package example/nested; `goSyntax` stands in for the `%#v`
rendering, which prints addresses, and `sprintf` for `fmt.Sprintf` on the texts of the
examples, which have no `%` and are printed as they are. -/
def info : TypesInfo :=
  { underlying := underlying
    typeString := typeString
    goSyntax := fun t => "(" ++ typeString t ++ ")"
    funcFullName := fun name _ => "(nested.Converter)." ++ name
    funcString := fun name _ => "func (nested.Converter)." ++ name
    sprintf := fun format => format }

/-- A rank of the types of the package: a struct ranks above the types of its fields. -/
def rank : Ty → Nat
  | .Named _ name =>
    if name = "Person" ∨ name = "PersonIn" then 3
    else if name = "Address" ∨ name = "AddressIn" then 2
    else 1
  | _ => 0

/-- The scope of the package: the interfaces. -/
def package : Package :=
  { Lookup := fun name =>
      if name = "Converter" then some (.Named "nested" "Converter")
      else if name = "Copier" then some (.Named "nested" "Copier")
      else if name = "Cloner" then some (.Named "nested" "Cloner")
      else none }

/-- An importer that finds the package. -/
def importPkg : String → Except String Package := fun _ => .ok package

/-- A stand-in for the methods of `Generator`, on a state that is the file alone:
`registerMethod` fails for the method `Convert`, the other methods do nothing. -/
def ops : Generator.GeneratorOps File Unit Unit :=
  { create := fun file _ => file
    file := fun gen => gen
    parseExtend := fun gen _ _ _ => (gen, none)
    registerMethod := fun gen m _ =>
      if m.1 = "Convert" then (gen, some "source does not have a field named Address")
      else (gen, none)
    createMethods := fun gen => (gen, none) }

/-- A stand-in for the methods of `Generator` whose result depends on the state: the state
is the file, and `registerMethod` fails once the file holds two declarations, that is for the
second converter of a mapping and not for the first. -/
def statefulOps : Generator.GeneratorOps File Unit Unit :=
  { create := fun file _ => file
    file := fun gen => gen
    parseExtend := fun gen _ _ _ => (gen, none)
    registerMethod := fun gen _ _ =>
      if 2 ≤ gen.decls.length then (gen, some "the file already holds a converter")
      else (gen, none)
    createMethods := fun gen => (gen, none) }

/-- A struct with two fields of the blank name, a `string` and then an `int`. -/
def blankStringInt : Ty := .Struct [("_", tString), ("_", tInt)]

/-- The same two fields in the other order. -/
def blankIntString : Ty := .Struct [("_", tInt), ("_", tString)]

end Nested

/-! ## Predicates and functions used in the statements -/

namespace Generator

/-- The conversion strategies of the rule chain of the specification, by their numbers 1
to 8. -/
inductive Strategy where
  | ExtendLookup | BasicTargetPointerRule | PointerPointer | TargetPointer | BasicBasic
  | Struct | List | Map
  deriving DecidableEq, Repr

/-- The rule chain as the specification orders it. -/
def specRuleChain : List Strategy :=
  [.ExtendLookup, .BasicTargetPointerRule, .PointerPointer, .TargetPointer, .BasicBasic,
    .Struct, .List, .Map]

/-- The strategy of the specification that a rule of `BuildSteps` stands for. -/
def Builder.strategy : Builder → Strategy
  | .BasicTargetPointerRule => .BasicTargetPointerRule
  | .Pointer => .PointerPointer
  | .TargetPointer => .TargetPointer
  | .Basic => .BasicBasic
  | .Struct => .Struct
  | .List => .List
  | .Map => .Map

/-- Modelled from the spec: the dispatch over `BuildSteps`, which is not in generate.go.  The
rules are tried in the order of the list and the first one that applies is taken. -/
def firstMatch (applies : Builder → Bool) : Option Builder :=
  BuildSteps.find? applies

end Generator

/-- The error of `BuildBlock` for a target that is neither a basic type nor a named struct. -/
def unsupportedTargetError (w : TypesInfo) : Ty → String
  | .Named path name =>
    "only named struct types are currently supported was "
      ++ w.typeString (w.underlying path name)
  | .Predeclared _ methods =>
    "only named struct types are currently supported was "
      ++ w.typeString (.Interface methods)
  | t => "cannot handle: " ++ w.goSyntax t

/-- The target is a basic type, or a named type whose underlying type is a struct: the two
cases that `BuildBlock` converts. -/
def HandledTarget (w : TypesInfo) : Ty → Prop
  | .Basic _ _ => True
  | .Named path name => ∃ fields, w.underlying path name = .Struct fields
  | _ => False

/-- The last field of the name `name` in the order of declaration.  Names are unique in a
struct, except the blank name `_`, which any number of fields may bear. -/
def lastField (fields : List (String × Ty)) (name : String) : Option (String × Ty) :=
  fields.reverse.find? (fun g => g.1 == name)

/-- The relation `convertible` as the claim C16 words it: the target is basic and the source
is basic of the same kind; or the target is a named type whose underlying type is a struct,
the underlying type of the source is a struct, `toCode` renders the target, and every field
of the target has a field of its name in the source (`pick` chooses it) whose type is
convertible to the type of the field. -/
inductive Convertible (w : TypesInfo) : Ty → Ty → Prop
  | basic (kind : BasicKind) (sname tname : String) :
      Convertible w (.Basic kind sname) (.Basic kind tname)
  | struct (s : Ty) (p nm : String) (utype usource : List (String × Ty))
      (pick : String × Ty → String × Ty) :
      w.underlying p nm = .Struct utype → s.Underlying w = .Struct usource →
      (∃ c, toCode w (.Named p nm) (jen.Var.Id "target") = .Return (c, none)) →
      (∀ f ∈ utype, pick f ∈ usource ∧ (pick f).1 = f.1) →
      (∀ f ∈ utype, Convertible w (pick f).2 f.2) →
      Convertible w s (.Named p nm)

/-- The relation `convertible` with the source field made precise: the field of the source
that is matched with a field of the target is the last field of that name. -/
inductive ConvertibleLast (w : TypesInfo) : Ty → Ty → Prop
  | basic (kind : BasicKind) (sname tname : String) :
      ConvertibleLast w (.Basic kind sname) (.Basic kind tname)
  | struct (s : Ty) (p nm : String) (utype usource : List (String × Ty))
      (pick : String × Ty → String × Ty) :
      w.underlying p nm = .Struct utype → s.Underlying w = .Struct usource →
      (∃ c, toCode w (.Named p nm) (jen.Var.Id "target") = .Return (c, none)) →
      (∀ f ∈ utype, lastField usource f.1 = some (pick f)) →
      (∀ f ∈ utype, ConvertibleLast w (pick f).2 f.2) →
      ConvertibleLast w s (.Named p nm)

/-- The sixteen basic kinds that `toCode` renders. -/
def renderedKinds : List BasicKind :=
  [.String, .Int, .Int8, .Int16, .Int32, .Int64, .Uint, .Uint8, .Uint16, .Uint32, .Uint64,
    .Bool, .Complex64, .Complex128, .Float32, .Float64]

/-- The types of the claim C19: built from named types, declared or predeclared, and the
sixteen kinds by pointers, slices, arrays and maps. -/
def Supported : Ty → Bool
  | .Named _ _ => true
  | .Predeclared _ _ => true
  | .Basic kind _ => renderedKinds.contains kind
  | .Pointer elem => Supported elem
  | .Slice elem => Supported elem
  | .Array _ elem => Supported elem
  | .Map key elem => Supported key && Supported elem
  | _ => false

/-- The Go keyword of a basic kind, for the sixteen kinds that have one as their type
expression. -/
def kindKeyword : BasicKind → Option String
  | .String => some "string"
  | .Int => some "int"
  | .Int8 => some "int8"
  | .Int16 => some "int16"
  | .Int32 => some "int32"
  | .Int64 => some "int64"
  | .Uint => some "uint"
  | .Uint8 => some "uint8"
  | .Uint16 => some "uint16"
  | .Uint32 => some "uint32"
  | .Uint64 => some "uint64"
  | .Bool => some "bool"
  | .Complex64 => some "complex64"
  | .Complex128 => some "complex128"
  | .Float32 => some "float32"
  | .Float64 => some "float64"
  | _ => none

/-- The type expression of a type as Go writes it, in the items of `jen`: the qualified name
of a declared type, the name of a predeclared type, the keyword of a basic kind, `*E`, `[]E`,
`[n]E` with the length as an integer and `map[K]E`.  This is the expression that the claims
C18 and C20 ask of `toCode`; it is defined from the syntax of Go, not from `toCode`. -/
def typeExpr : Ty → Option (List Code)
  | .Named path name => some [.Qual path name]
  | .Predeclared name _ => some [.Id name]
  | .Basic kind _ => (kindKeyword kind).map (fun k => [.Keyword k])
  | .Pointer elem => (typeExpr elem).map (fun c => .Op "*" :: c)
  | .Slice elem => (typeExpr elem).map (fun c => .Index [] :: c)
  | .Array len elem => (typeExpr elem).map (fun c => .Index [.Lit (.Int len)] :: c)
  | .Map key elem =>
    match typeExpr key, typeExpr elem with
    | some k, some c => some (.Map (.Stmt k) :: c)
    | _, _ => none
  | _ => none

/-- The type is not built on an array type: `toCode`, which looks through pointers, slices,
arrays and maps, meets none. -/
def Ty.ArrayFree : Ty → Bool
  | .Array _ _ => false
  | .Pointer elem => elem.ArrayFree
  | .Slice elem => elem.ArrayFree
  | .Map key elem => key.ArrayFree && elem.ArrayFree
  | _ => true

/-! ## The Struct rule with directives

The rules of package `builder`, the Directive Resolver and the methods of `Generator` are not
part of the sources at hand.  This section models, from the specification, what the
converter of example/nested needs of them: the rules Basic (4.2.5) and Struct (4.2.6) of
the rule chain and the mapping table of the Directive Resolver (4.4). -/

/-- Modelled from the spec: a mapping directive `map <source> <target>` of a converter
method, as the directive parser hands it over: the source path and the target path, each the
list of its field names.  The path `.` is the empty list; a directive with the source path
`.` is a rebase. -/
structure Directive where
  source : List String
  target : List String

/-- Modelled from the spec: the mapping table of the Directive Resolver, keyed by the target
path: the source path of the directive for exactly the target path `path`, if there is one. -/
def Directive.resolve (table : List Directive) (path : List String) : Option (List String) :=
  (table.find? (fun d => d.target == path)).map (fun d => d.source)

/-- Modelled from the spec: one assignment of a synthesized conversion: the leaf at the
target path is read from the source path of the top-level source value. -/
structure Assignment where
  target : List String
  source : List String

/-- Modelled from the spec: the shape found at a path of field names below a shape. -/
def shapeAt (w : TypesInfo) : Ty → List String → Option Ty
  | t, [] => some t
  | t, f :: rest =>
    match t.Underlying w with
    | .Struct fields =>
      match List.lookup f fields with
      | some ft => shapeAt w ft rest
      | none => none
    | _ => none

/-- Modelled from the spec: the path of the source, relative to the source value of the
struct being filled, from which the target field `f` at the target path `tpath` is read: the
source path of the directive for exactly that target path, and without one the field of
the same name. -/
def sourcePathOf (table : List Directive) (tpath : List String) (f : String × Ty) :
    List String :=
  (Directive.resolve table (tpath ++ [f.1])).getD [f.1]

/-- Modelled from the spec: the loop of the Struct rule over the fields of the target, in
the order of declaration.  `source` is the shape of the source value of the struct, found at
`spath` below the top-level source value; `rec` is the rule chain applied to the pair of a
field.  The first error ends the loop. -/
def structFields (w : TypesInfo) (table : List Directive)
    (rec : List String → Ty → List String → Ty → Option (Except String (List Assignment)))
    (tpath : List String) (source : Ty) (spath : List String) :
    List (String × Ty) → Option (Except String (List Assignment))
  | [] => some (.ok [])
  | f :: rest =>
    match shapeAt w source (sourcePathOf table tpath f) with
    | none =>
      match Directive.resolve table (tpath ++ [f.1]) with
      | some _ => some (.error ("InvalidDirective: " ++ ".".intercalate (tpath ++ [f.1])))
      | none => some (.error ("MissingField: " ++ ".".intercalate (tpath ++ [f.1])))
    | some fieldSource =>
      match rec (tpath ++ [f.1]) fieldSource (spath ++ sourcePathOf table tpath f) f.2 with
      | none => none
      | some (.error e) => some (.error e)
      | some (.ok inner) =>
        match structFields w table rec tpath source spath rest with
        | none => none
        | some (.error e) => some (.error e)
        | some (.ok more) => some (.ok (inner ++ more))

/-- Modelled from the spec: the rule chain on the pairs of shapes that the rules Basic and
Struct own.  A basic target of the kind of the basic source is one assignment, the leaf at
`tpath` read from `spath`; other kinds are a `TypeMismatch`.  A named struct target with a
struct source is filled field by field; every intermediate struct of the target is thereby
constructed and only leaves are assigned.  The pairs of the other rules (pointers, lists,
maps, extend functions) are not modelled: the result is `none` for them, as it is when the
fuel, which bounds the depth of the nesting, runs out. -/
def synthesize (w : TypesInfo) (table : List Directive) :
    Nat → List String → Ty → List String → Ty → Option (Except String (List Assignment))
  | 0, _, _, _, _ => none
  | fuel + 1, tpath, source, spath, target =>
    match target with
    | .Basic kind _ =>
      match source with
      | .Basic sourceKind _ =>
        if sourceKind = kind then some (.ok [⟨tpath, spath⟩])
        else some (.error ("TypeMismatch: " ++ ".".intercalate tpath))
      | _ => none
    | .Named path name =>
      match w.underlying path name, source.Underlying w with
      | .Struct fields, .Struct _ =>
        structFields w table (synthesize w table fuel) tpath source spath fields
      | _, _ => none
    | _ => none

/-- The value at a path of field names below a value. -/
def Val.select : Val → List String → Option Val
  | v, [] => some v
  | v, f :: rest =>
    match v.field f with
    | some x => x.select rest
    | none => none

/-- The value `v` after the assignment `v.f1.f2... = x`. -/
def Val.setPath : Val → List String → Val → Option Val
  | _, [], x => some x
  | v, f :: rest, x =>
    match v.field f with
    | some inner =>
      match inner.setPath rest x with
      | some inner1 => v.setField f inner1
      | none => none
    | none => none

/-- Modelled from the spec: the assignments run in order on the target value: each sets the
leaf at its target path to the value at its source path of the source value. -/
def runAssignments (source : Val) : List Assignment → Val → Option Val
  | [], target => some target
  | a :: rest, target =>
    match source.select a.source with
    | some x =>
      match target.setPath a.target x with
      | some target1 => runAssignments source rest target1
      | none => none
    | none => none

/-- Modelled from the spec: the conversion that a list of assignments stands for: the target
value is constructed with all its nested structs (the zero value of the target shape) and
then filled leaf by leaf. -/
def convertWith (w : TypesInfo) (fuel : Nat) (target : Ty) (plan : List Assignment)
    (source : Val) : Option Val :=
  match zeroValue w fuel target with
  | some zero => runAssignments source plan zero
  | none => none

/-- Modelled from the spec: the methods of `Generator` as far as the converter of
example/nested needs them.  The state is the file and the conversions synthesized so far.
`registerMethod` validates the arity of the method and synthesizes its conversion with the
directives of the method, which `Generate` hands over; `parseExtend` finds no extend
function; the code that `createMethods` emits for the conversions is not modelled. -/
def specOps (w : TypesInfo) (fuel : Nat) :
    Generator.GeneratorOps (File × List (String × List Assignment)) Unit (List Directive) :=
  { create := fun file _ => (file, [])
    file := fun gen => gen.1
    parseExtend := fun gen _ _ _ => (gen, none)
    registerMethod := fun gen m table =>
      match m.2 with
      | .Signature [source] [target] =>
        match synthesize w table fuel [] source [] target with
        | some (.ok plan) => ((gen.1, gen.2 ++ [(m.1, plan)]), none)
        | some (.error e) => (gen, some e)
        | none => (gen, some "UnsupportedConversion")
      | _ => (gen, some "InvalidSignature")
    createMethods := fun gen => (gen, none) }

namespace Nested

/-- The directives of the method `Convert` of example/nested/input1.go: `map . Address`,
`map . Address.StreetInfo` and `map Street Address.StreetInfo.Name`. -/
def directives : List Directive :=
  [⟨[], ["Address"]⟩, ⟨[], ["Address", "StreetInfo"]⟩,
    ⟨["Street"], ["Address", "StreetInfo", "Name"]⟩]

/-- The converter of example/nested as the comment parser hands it to `Generate`: the entry
of `Methods` for `Convert` holds its directives, the entry for any other name is empty. -/
def converter : Generator.Converter Unit (List Directive) :=
  { Name := "Converter"
    Config := { Name := "ConverterImpl", ExtendMethods := () }
    Methods := fun name => if name = "Convert" then directives else [] }

/-- A value of `FlatPerson`. -/
def flatPerson (name age street zipCode : String) : Val :=
  .Struct [("Name", .Basic .String name), ("Age", .Basic .Int age),
    ("Street", .Basic .String street), ("ZipCode", .Basic .String zipCode)]

/-- A value of `Person`. -/
def person (name age street zipCode : String) : Val :=
  .Struct [("Name", .Basic .String name), ("Age", .Basic .Int age),
    ("Address", .Struct [("StreetInfo", .Struct [("Name", .Basic .String street)]),
      ("ZipCode", .Basic .String zipCode)])]

end Nested

/-! ## Theorems: the recursion of `BuildBlock` -/

theorem buildFields_mono (w : TypesInfo)
    (rec1 rec2 : Statement → Statement → Ty → Ty → Nat → Option (List Code × Option String))
    (hrec : ∀ e i s t l r, rec1 e i s t l = some r → rec2 e i s t l = some r)
    (input : Statement) (source cast : Ty) (sm : VarMap) (level : Nat)
    (fields : List (String × Ty)) (stmt : List Code) (r : List Code × Option String)
    (h : buildFields w rec1 input source cast sm level fields stmt = some r) :
    buildFields w rec2 input source cast sm level fields stmt = some r := by
  induction fields generalizing stmt with
  | nil => simpa [buildFields] using h
  | cons f rest ih =>
    simp only [buildFields] at h ⊢
    cases hg : sm.get? f.1 with
    | none => simpa [hg] using h
    | some sf =>
      simp only [hg] at h ⊢
      cases h1 : rec1 (((jen.Id "target").Dot f.1).Op "=") (input.Clone.Dot sf.1) sf.2 f.2
          ((level + 1) % 256) with
      | none => simp [h1] at h
      | some r1 =>
        rw [hrec _ _ _ _ _ _ h1]
        rw [h1] at h
        obtain ⟨c1, e1⟩ := r1
        cases e1 with
        | some err => simpa using h
        | none => exact ih _ h

theorem BuildBlock_named_eq (w : TypesInfo) (fuel : Nat) (e i : Statement) (s : Ty)
    (p nm : String) (l : Nat) :
    BuildBlock w (fuel + 1) e i s (.Named p nm) l =
      match w.underlying p nm with
      | .Struct utype =>
        match s.Underlying w with
        | .Struct usource =>
          match buildFields w (BuildBlock w fuel) i s (.Named p nm)
              (sourceMethodsOf usource) l utype [.Stmt [.Var, .Id "target", .Qual p nm]] with
          | none => none
          | some (r, some err) => some (r, some err)
          | some (stmt, none) => some (stmt ++ [.Stmt (e ++ [.Id "target"])], none)
        | _ =>
          some ([], some ("cannot convert " ++ w.typeString s ++ " to "
            ++ w.typeString (.Named p nm)))
      | ut =>
        some ([], some ("only named struct types are currently supported was "
          ++ w.typeString ut)) := by
  simp only [BuildBlock, Ty.Underlying, toCode]
  rfl

theorem BuildBlock_mono (w : TypesInfo) (fuel : Nat) :
    ∀ (e i : Statement) (s t : Ty) (l : Nat) (r : List Code × Option String),
      BuildBlock w fuel e i s t l = some r → BuildBlock w (fuel + 1) e i s t l = some r := by
  induction fuel with
  | zero => intro e i s t l r h; simp [BuildBlock] at h
  | succ n ih =>
    intro e i s t l r h
    cases t with
    | Named p nm =>
      rw [BuildBlock_named_eq] at h ⊢
      split at h <;> try exact h
      split at h <;> try exact h
      rename_i usource hus
      split at h
      · simp at h
      · rename_i r1 err hb
        rw [buildFields_mono w _ _ ih _ _ _ _ _ _ _ _ hb]
        exact h
      · rename_i stmt hb
        rw [buildFields_mono w _ _ ih _ _ _ _ _ _ _ _ hb]
        exact h
    | _ => simpa [BuildBlock] using h

theorem BuildBlock_mono_le (w : TypesInfo) (n m : Nat) (hnm : n ≤ m)
    (e i : Statement) (s t : Ty) (l : Nat) (r : List Code × Option String)
    (h : BuildBlock w n e i s t l = some r) : BuildBlock w m e i s t l = some r := by
  induction hnm with
  | refl => exact h
  | step _ ih => exact BuildBlock_mono w _ _ _ _ _ _ _ ih

theorem buildFields_total (w : TypesInfo)
    (rec1 : Statement → Statement → Ty → Ty → Nat → Option (List Code × Option String))
    (input : Statement) (source cast : Ty) (sm : VarMap) (level : Nat)
    (fields : List (String × Ty))
    (hrec : ∀ f ∈ fields, ∀ e i s l, ∃ r, rec1 e i s f.2 l = some r) (stmt : List Code) :
    ∃ r, buildFields w rec1 input source cast sm level fields stmt = some r := by
  induction fields generalizing stmt with
  | nil => exact ⟨_, rfl⟩
  | cons f rest ih =>
    simp only [buildFields]
    cases hg : sm.get? f.1 with
    | none => exact ⟨_, rfl⟩
    | some sf =>
      obtain ⟨r1, h1⟩ := hrec f (List.mem_cons_self _ _) (((jen.Id "target").Dot f.1).Op "=")
        (input.Clone.Dot sf.1) sf.2 ((level + 1) % 256)
      simp only [h1]
      obtain ⟨c1, e1⟩ := r1
      cases e1 with
      | some err => exact ⟨_, rfl⟩
      | none => exact ih (fun g hg => hrec g (List.mem_cons_of_mem _ hg)) _

theorem BuildBlock_total (w : TypesInfo) (rank : Ty → Nat) (hr : Ranked w rank) (fuel : Nat) :
    ∀ (e i : Statement) (s t : Ty) (l : Nat), rank t < fuel →
      ∃ r, BuildBlock w fuel e i s t l = some r := by
  induction fuel with
  | zero => intro e i s t l h; omega
  | succ n ih =>
    intro e i s t l h
    cases t with
    | Named p nm =>
      rw [BuildBlock_named_eq]
      split
      · rename_i utype hu
        split
        · rename_i usource hus
          obtain ⟨r, hb⟩ := buildFields_total w (BuildBlock w n) i s (Ty.Named p nm)
            (sourceMethodsOf usource) l utype
            (fun f hf e1 i1 s1 l1 => ih e1 i1 s1 f.2 l1 (by have := hr p nm utype hu f hf; omega))
            [.Stmt [.Var, .Id "target", .Qual p nm]]
          rw [hb]
          obtain ⟨c, e1⟩ := r
          cases e1 <;> exact ⟨_, rfl⟩
        · exact ⟨_, rfl⟩
      · exact ⟨_, rfl⟩
    | Basic k nm =>
      simp only [BuildBlock]
      split
      · split <;> exact ⟨_, rfl⟩
      · exact ⟨_, rfl⟩
    | _ => exact ⟨_, rfl⟩

theorem buildFields_err_nil (w : TypesInfo)
    (rec1 : Statement → Statement → Ty → Ty → Nat → Option (List Code × Option String))
    (input : Statement) (source cast : Ty) (sm : VarMap) (level : Nat)
    (fields : List (String × Ty)) (stmt c : List Code) (err : String)
    (h : buildFields w rec1 input source cast sm level fields stmt = some (c, some err)) :
    c = [] := by
  induction fields generalizing stmt with
  | nil => simp [buildFields] at h
  | cons f rest ih =>
    simp only [buildFields] at h
    split at h
    · simp at h; exact h.1
    · split at h
      · simp at h
      · simp at h; exact h.1
      · exact ih _ h

theorem BuildBlock_err_nil (w : TypesInfo) (fuel : Nat) (e i : Statement) (s t : Ty) (l : Nat)
    (c : List Code) (err : String) (h : BuildBlock w fuel e i s t l = some (c, some err)) :
    c = [] := by
  cases fuel with
  | zero => simp [BuildBlock] at h
  | succ n =>
    cases t with
    | Named p nm =>
      rw [BuildBlock_named_eq] at h
      split at h
      · split at h
        · split at h
          · simp at h
          · rename_i hb
            simp at h
            rw [← h.1]
            rw [h.2] at hb
            exact buildFields_err_nil _ _ _ _ _ _ _ _ _ _ _ hb
          · simp at h
        · simp at h; exact h.1
      · simp at h; exact h.1
    | Basic k nm =>
      simp only [BuildBlock] at h
      split at h
      · split at h
        · simp at h
        · simp at h; exact h.1
      · simp at h; exact h.1
    | _ => simp [BuildBlock] at h; exact h.1

theorem Nested.ranked : Ranked Nested.info Nested.rank := by
  intro path name fields h f hf
  simp only [Nested.info, Nested.underlying, Nested.tString] at h
  revert f
  split at h
  all_goals simp only [Ty.Struct.injEq, reduceCtorEq] at h
  all_goals subst h
  all_goals simp [Nested.rank, Nested.tInt, Nested.tString]

theorem lookup_filter_ne {β : Type} (m : List (String × β)) (k k1 : String) (h : k1 ≠ k) :
    List.lookup k1 (m.filter (fun e => e.1 != k)) = List.lookup k1 m := by
  induction m with
  | nil => rfl
  | cons x xs ih =>
    obtain ⟨a, b⟩ := x
    by_cases hak : a = k
    · subst hak
      have : (k1 == a) = false := by simpa using h
      simp [List.filter, List.lookup, this, ih]
    · have hne : (a != k) = true := by simpa using hak
      simp only [List.filter, hne, List.lookup, ih]

theorem VarMap.get?_set (m : VarMap) (k k1 : String) (v : String × Ty) :
    (m.set k v).get? k1 = if k1 = k then some v else m.get? k1 := by
  unfold VarMap.set VarMap.get?
  by_cases h : k1 = k
  · subst h; simp [List.lookup]
  · have : (k1 == k) = false := by simpa using h
    simp [List.lookup, this, h, lookup_filter_ne m k k1 h]

theorem sourceMethodsOf_foldl_none (fields : List (String × Ty)) (m : VarMap) (k : String) :
    (fields.foldl (fun m f => m.set f.1 f) m).get? k = none ↔
      m.get? k = none ∧ ∀ g ∈ fields, g.1 ≠ k := by
  induction fields generalizing m with
  | nil => simp
  | cons f rest ih =>
    simp only [List.foldl, ih, VarMap.get?_set, List.mem_cons, forall_eq_or_imp]
    by_cases h : k = f.1
    · subst h; simp
    · have h2 : f.1 ≠ k := fun e => h e.symm
      simp [h, h2]

theorem sourceMethodsOf_foldl_some (fields : List (String × Ty)) (m : VarMap) (k : String)
    (g : String × Ty) (h : (fields.foldl (fun m f => m.set f.1 f) m).get? k = some g) :
    (g ∈ fields ∧ g.1 = k) ∨ m.get? k = some g := by
  induction fields generalizing m with
  | nil => exact Or.inr h
  | cons f rest ih =>
    rcases ih _ h with h1 | h1
    · exact Or.inl ⟨List.mem_cons_of_mem _ h1.1, h1.2⟩
    · rw [VarMap.get?_set] at h1
      split at h1
      · rename_i hk
        simp at h1
        subst h1
        exact Or.inl ⟨List.mem_cons_self _ _, hk.symm⟩
      · exact Or.inr h1

theorem sourceMethodsOf_get?_none (fields : List (String × Ty)) (k : String) :
    (sourceMethodsOf fields).get? k = none ↔ ∀ g ∈ fields, g.1 ≠ k := by
  unfold sourceMethodsOf
  rw [sourceMethodsOf_foldl_none]
  simp [VarMap.get?]

theorem sourceMethodsOf_get?_some (fields : List (String × Ty)) (k : String) (g : String × Ty)
    (h : (sourceMethodsOf fields).get? k = some g) : g ∈ fields ∧ g.1 = k := by
  rcases sourceMethodsOf_foldl_some fields [] k g h with h1 | h1
  · exact h1
  · simp [VarMap.get?] at h1

theorem buildFields_cons_ok (w : TypesInfo)
    (rec1 : Statement → Statement → Ty → Ty → Nat → Option (List Code × Option String))
    (input : Statement) (source cast : Ty) (sm : VarMap) (level : Nat)
    (f sf : String × Ty) (rest : List (String × Ty)) (stmt inner : List Code)
    (hg : sm.get? f.1 = some sf) (hc : fieldCall rec1 input level f sf = some (inner, none)) :
    buildFields w rec1 input source cast sm level (f :: rest) stmt =
      buildFields w rec1 input source cast sm level rest (stmt ++ inner) := by
  unfold fieldCall at hc
  simp only [buildFields, hg, hc]

theorem buildFields_done (w : TypesInfo)
    (rec1 : Statement → Statement → Ty → Ty → Nat → Option (List Code × Option String))
    (input : Statement) (source cast : Ty) (sm : VarMap) (level : Nat)
    (pre post : List (String × Ty)) (inners : List (List Code))
    (hd : FieldsDone rec1 input sm level pre inners) (stmt : List Code) :
    buildFields w rec1 input source cast sm level (pre ++ post) stmt =
      buildFields w rec1 input source cast sm level post (stmt ++ inners.flatten) := by
  unfold FieldsDone at hd
  induction hd generalizing stmt with
  | nil => simp
  | cons h _ ih =>
    obtain ⟨sf, hg, hc⟩ := h
    rw [List.cons_append, buildFields_cons_ok w rec1 input source cast sm level _ sf _ _ _ hg hc,
      ih]
    simp

theorem buildFields_ok_iff (w : TypesInfo)
    (rec1 : Statement → Statement → Ty → Ty → Nat → Option (List Code × Option String))
    (input : Statement) (source cast : Ty) (sm : VarMap) (level : Nat)
    (fields : List (String × Ty)) (stmt c : List Code) :
    buildFields w rec1 input source cast sm level fields stmt = some (c, none) ↔
      ∃ inners, FieldsDone rec1 input sm level fields inners ∧ c = stmt ++ inners.flatten := by
  constructor
  · intro h
    induction fields generalizing stmt with
    | nil =>
      simp [buildFields] at h
      exact ⟨[], List.Forall₂.nil, by simp [h]⟩
    | cons f rest ih =>
      simp only [buildFields] at h
      split at h
      · simp at h
      · rename_i sf hg
        split at h
        · simp at h
        · simp at h
        · rename_i inner hc
          obtain ⟨inners, hd, hcs⟩ := ih _ h
          exact ⟨inner :: inners, List.Forall₂.cons ⟨sf, hg, hc⟩ hd, by simp [hcs]⟩
  · rintro ⟨inners, hd, rfl⟩
    have := buildFields_done w rec1 input source cast sm level fields [] inners hd stmt
    simpa [buildFields] using this

theorem buildFields_fail (w : TypesInfo)
    (rec1 : Statement → Statement → Ty → Ty → Nat → Option (List Code × Option String))
    (input : Statement) (source cast : Ty) (sm : VarMap) (level : Nat)
    (fields : List (String × Ty)) (stmt c : List Code) (err : String)
    (h : buildFields w rec1 input source cast sm level fields stmt = some (c, some err)) :
    ∃ pre f post inners, fields = pre ++ f :: post ∧ FieldsDone rec1 input sm level pre inners ∧
      ((sm.get? f.1 = none ∧
          err = "source " ++ w.typeString source ++ " does not have a field named " ++ f.1) ∨
        (∃ sf c1 e1, sm.get? f.1 = some sf ∧ fieldCall rec1 input level f sf = some (c1, some e1) ∧
          err = w.typeString cast ++ "." ++ f.1 ++ ": " ++ e1)) := by
  induction fields generalizing stmt with
  | nil => simp [buildFields] at h
  | cons f rest ih =>
    simp only [buildFields] at h
    split at h
    · rename_i hg
      simp at h
      exact ⟨[], f, rest, [], rfl, List.Forall₂.nil, Or.inl ⟨hg, h.2.symm⟩⟩
    · rename_i sf hg
      split at h
      · simp at h
      · rename_i c1 e1 hc
        simp at h
        exact ⟨[], f, rest, [], rfl, List.Forall₂.nil, Or.inr ⟨sf, c1, e1, hg, hc, h.2.symm⟩⟩
      · rename_i inner hc
        obtain ⟨pre, g, post, inners, hf, hd, hcase⟩ := ih _ h
        exact ⟨f :: pre, g, post, inner :: inners, by simp [hf],
          List.Forall₂.cons ⟨sf, hg, hc⟩ hd, hcase⟩

theorem buildFields_missing (w : TypesInfo)
    (rec1 : Statement → Statement → Ty → Ty → Nat → Option (List Code × Option String))
    (input : Statement) (source cast : Ty) (sm : VarMap) (level : Nat)
    (pre post : List (String × Ty)) (f : String × Ty) (inners : List (List Code))
    (hd : FieldsDone rec1 input sm level pre inners) (hg : sm.get? f.1 = none)
    (stmt : List Code) :
    buildFields w rec1 input source cast sm level (pre ++ f :: post) stmt =
      some ([], some ("source " ++ w.typeString source ++ " does not have a field named "
        ++ f.1)) := by
  rw [buildFields_done w rec1 input source cast sm level pre _ inners hd]
  simp only [buildFields, hg]

theorem buildFields_inner_fail (w : TypesInfo)
    (rec1 : Statement → Statement → Ty → Ty → Nat → Option (List Code × Option String))
    (input : Statement) (source cast : Ty) (sm : VarMap) (level : Nat)
    (pre post : List (String × Ty)) (f sf : String × Ty) (inners : List (List Code))
    (c1 : List Code) (e1 : String)
    (hd : FieldsDone rec1 input sm level pre inners) (hg : sm.get? f.1 = some sf)
    (hc : fieldCall rec1 input level f sf = some (c1, some e1)) (stmt : List Code) :
    buildFields w rec1 input source cast sm level (pre ++ f :: post) stmt =
      some ([], some (w.typeString cast ++ "." ++ f.1 ++ ": " ++ e1)) := by
  rw [buildFields_done w rec1 input source cast sm level pre _ inners hd]
  unfold fieldCall at hc
  simp only [buildFields, hg, hc]

theorem FieldsDone_get?
    (rec1 : Statement → Statement → Ty → Ty → Nat → Option (List Code × Option String))
    (input : Statement) (sm : VarMap) (level : Nat) (fields : List (String × Ty))
    (inners : List (List Code)) (hd : FieldsDone rec1 input sm level fields inners)
    (f : String × Ty) (hf : f ∈ fields) : ∃ sf, sm.get? f.1 = some sf := by
  unfold FieldsDone at hd
  induction hd with
  | nil => cases hf
  | cons h _ ih =>
    rcases List.mem_cons.1 hf with rfl | hf
    · obtain ⟨sf, hg, _⟩ := h
      exact ⟨sf, hg⟩
    · exact ih hf

/-! ## Theorems: basic targets (C2) -/

/-- C2: a call of `BuildBlock` whose target is a basic type returns, when the source is a
basic type of the same kind, exactly one statement, the sink `end` followed by the input (no
intermediate variable); for every other source it returns the error
`cannot convert <source> to <target>` and no statement. -/
theorem BuildBlock_basic_target (w : TypesInfo) (fuel : Nat) (e i : Statement) (s : Ty)
    (kind : BasicKind) (name : String) (l : Nat) :
    (∀ sname, s = .Basic kind sname →
      BuildBlock w (fuel + 1) e i s (.Basic kind name) l
        = some ([.Stmt (e ++ [.Stmt i])], none)) ∧
    ((∀ sname, s ≠ .Basic kind sname) →
      BuildBlock w (fuel + 1) e i s (.Basic kind name) l
        = some ([], some ("cannot convert " ++ w.typeString s ++ " to "
            ++ w.typeString (.Basic kind name)))) := by
  constructor
  · intro sname hs
    subst hs
    simp [BuildBlock, Statement.Add]
  · intro hs
    cases s with
    | Basic k n =>
      have hk : k ≠ kind := fun h => hs n (by rw [h])
      simp [BuildBlock, hk]
    | _ => simp [BuildBlock]

/-- C2, at `int` to `int`, `int` to `string` and the named type `Label` to `string`. -/
theorem BuildBlock_basic_target_witness :
    BuildBlock Nested.info 1 jen.Return (jen.Id "source") Nested.tInt Nested.tInt 0
      = some ([.Stmt [.Return, .Stmt [.Id "source"]]], none) ∧
    BuildBlock Nested.info 1 jen.Return (jen.Id "source") Nested.tInt Nested.tString 0
      = some ([], some "cannot convert int to string") ∧
    BuildBlock Nested.info 1 jen.Return (jen.Id "source") (.Named "nested" "Label")
        Nested.tString 0
      = some ([], some "cannot convert nested.Label to string") :=
  ⟨(BuildBlock_basic_target Nested.info 0 jen.Return (jen.Id "source") Nested.tInt
      .Int "int" 0).1 "int" rfl,
    (BuildBlock_basic_target Nested.info 0 jen.Return (jen.Id "source") Nested.tInt
      .String "string" 0).2 (by intro sname h; injection h with h1; cases h1),
    (BuildBlock_basic_target Nested.info 0 jen.Return (jen.Id "source")
      (.Named "nested" "Label") .String "string" 0).2 (by intro sname h; cases h)⟩

/-! ## Theorems: struct targets (C3, C4) -/

/-- C3 (the claim as stated fails): the target `Pair` has the field `B`, which the source
`Single` lacks, and the error that `BuildBlock` returns is the one of the field `A`, declared
before it; it does not name `B`. -/
theorem BuildBlock_missing_field_counterexample :
    Nested.info.underlying "nested" "Pair" = .Struct [("A", Nested.tString), ("B", Nested.tInt)] ∧
    (Ty.Named "nested" "Single").Underlying Nested.info = .Struct [("A", Nested.tInt)] ∧
    (∀ g ∈ [("A", Nested.tInt)], g.1 ≠ "B") ∧
    BuildBlock Nested.info 2 jen.Return (jen.Id "source") (.Named "nested" "Single")
        (.Named "nested" "Pair") 0
      = some ([], some "nested.Pair.A: cannot convert int to string") :=
  ⟨rfl, rfl, by simp, rfl⟩

/-- C3 (amended): when some field of the named struct target has no field of its name in the
struct source, `BuildBlock` fails and returns no statement.  The error is the one of the
first field of the target, in the order of declaration, that is missing from the source or
fails to convert: `source <S> does not have a field named <f>` when that field is missing,
and `<T>.<f>: ` followed by the error of the call made for `f` otherwise. -/
theorem BuildBlock_missing_field (w : TypesInfo) (rank : Ty → Nat) (hr : Ranked w rank)
    (fuel : Nat) (e i : Statement) (s : Ty) (p nm : String) (l : Nat)
    (utype usource : List (String × Ty))
    (hu : w.underlying p nm = .Struct utype) (hs : s.Underlying w = .Struct usource)
    (hfuel : rank (.Named p nm) < fuel + 1)
    (hmiss : ∃ f ∈ utype, ∀ g ∈ usource, g.1 ≠ f.1) :
    ∃ err, BuildBlock w (fuel + 1) e i s (.Named p nm) l = some ([], some err) ∧
      ∃ pre f post inners, utype = pre ++ f :: post ∧
        FieldsDone (BuildBlock w fuel) i (sourceMethodsOf usource) l pre inners ∧
        (((∀ g ∈ usource, g.1 ≠ f.1) ∧
            err = "source " ++ w.typeString s ++ " does not have a field named " ++ f.1) ∨
          (∃ sf c1 e1, sf ∈ usource ∧ sf.1 = f.1 ∧
            fieldCall (BuildBlock w fuel) i l f sf = some (c1, some e1) ∧
            err = w.typeString (.Named p nm) ++ "." ++ f.1 ++ ": " ++ e1)) := by
  obtain ⟨r, hb⟩ := BuildBlock_total w rank hr (fuel + 1) e i s (.Named p nm) l hfuel
  have hb2 := hb
  rw [BuildBlock_named_eq] at hb2
  simp only [hu, hs] at hb2
  obtain ⟨c, oe⟩ := r
  cases oe with
  | none =>
    exfalso
    split at hb2
    · simp at hb2
    · simp at hb2
    · rename_i stmt hbf
      obtain ⟨inners, hd, _⟩ := (buildFields_ok_iff _ _ _ _ _ _ _ _ _ _).1 hbf
      obtain ⟨f, hf, hno⟩ := hmiss
      obtain ⟨sf, hg⟩ := FieldsDone_get? _ _ _ _ _ _ hd f hf
      have := (sourceMethodsOf_get?_none usource f.1).2 hno
      rw [this] at hg
      cases hg
  | some err =>
    have hc := BuildBlock_err_nil _ _ _ _ _ _ _ _ _ hb
    subst hc
    refine ⟨err, hb, ?_⟩
    split at hb2
    · simp at hb2
    · rename_i r1 err1 hbf
      simp at hb2
      obtain ⟨rfl, rfl⟩ := hb2
      obtain ⟨pre, f, post, inners, hf, hd, hcase⟩ := buildFields_fail _ _ _ _ _ _ _ _ _ _ _ hbf
      refine ⟨pre, f, post, inners, hf, hd, ?_⟩
      rcases hcase with ⟨hg, he⟩ | ⟨sf, c1, e1, hg, hc, he⟩
      · exact Or.inl ⟨(sourceMethodsOf_get?_none usource f.1).1 hg, he⟩
      · obtain ⟨hm, hn⟩ := sourceMethodsOf_get?_some usource f.1 sf hg
        exact Or.inr ⟨sf, c1, e1, hm, hn, hc, he⟩
    · simp at hb2
/-- C3 (amended), at `FlatPerson` to `Person`: the field `Address` is missing. -/
theorem BuildBlock_missing_field_witness :
    ∃ err, BuildBlock Nested.info 4 jen.Return (jen.Id "source") (.Named "nested" "FlatPerson")
        (.Named "nested" "Person") 0 = some ([], some err) ∧
      ∃ pre f post inners,
        [("Name", Nested.tString), ("Age", Nested.tInt), ("Address", .Named "nested" "Address")]
          = pre ++ f :: post ∧
        FieldsDone (BuildBlock Nested.info 3) (jen.Id "source")
          (sourceMethodsOf [("Name", Nested.tString), ("Age", Nested.tInt),
            ("Street", Nested.tString), ("ZipCode", Nested.tString)]) 0 pre inners ∧
        (((∀ g ∈ [("Name", Nested.tString), ("Age", Nested.tInt),
              ("Street", Nested.tString), ("ZipCode", Nested.tString)], g.1 ≠ f.1) ∧
            err = "source " ++ Nested.info.typeString (.Named "nested" "FlatPerson")
              ++ " does not have a field named " ++ f.1) ∨
          (∃ sf c1 e1, sf ∈ [("Name", Nested.tString), ("Age", Nested.tInt),
              ("Street", Nested.tString), ("ZipCode", Nested.tString)] ∧ sf.1 = f.1 ∧
            fieldCall (BuildBlock Nested.info 3) (jen.Id "source") 0 f sf = some (c1, some e1) ∧
            err = Nested.info.typeString (.Named "nested" "Person") ++ "." ++ f.1 ++ ": "
              ++ e1)) :=
  BuildBlock_missing_field Nested.info Nested.rank Nested.ranked 3 jen.Return (jen.Id "source")
    (.Named "nested" "FlatPerson") "nested" "Person" 0 _ _ rfl rfl (by decide)
    ⟨("Address", .Named "nested" "Address"), by simp, by simp [Nested.tString, Nested.tInt]⟩

/-- C4: when `BuildBlock` succeeds on a named struct target `T`, the source is a struct and
the statements returned are, in this order: the declaration `var target T`; for each field of
`T`, in the order of declaration of `T`, the statements that `BuildBlock` returns for the
field of the source of that name and this field, with the input `input.<field>` and the sink
`target.<field> =`; and the sink `end` applied to `target`. -/
theorem BuildBlock_struct_sequence (w : TypesInfo) (fuel : Nat) (e i : Statement) (s : Ty)
    (p nm : String) (l : Nat) (utype : List (String × Ty)) (c : List Code)
    (hu : w.underlying p nm = .Struct utype)
    (h : BuildBlock w (fuel + 1) e i s (.Named p nm) l = some (c, none)) :
    ∃ usource inners, s.Underlying w = .Struct usource ∧
      List.Forall₂ (fun f inner => ∃ sf, sf ∈ usource ∧ sf.1 = f.1 ∧
        BuildBlock w fuel [.Id "target", .Dot f.1, .Op "="] (i ++ [.Dot f.1]) sf.2 f.2
          ((l + 1) % 256) = some (inner, none)) utype inners ∧
      c = [.Stmt [.Var, .Id "target", .Qual p nm]] ++ inners.flatten
        ++ [.Stmt (e ++ [.Id "target"])] := by
  rw [BuildBlock_named_eq] at h
  simp only [hu] at h
  split at h
  · rename_i usource hs
    split at h
    · simp at h
    · simp at h
    · rename_i stmt hbf
      simp at h
      obtain ⟨inners, hd, hstmt⟩ := (buildFields_ok_iff _ _ _ _ _ _ _ _ _ _).1 hbf
      refine ⟨usource, inners, hs, ?_, ?_⟩
      · unfold FieldsDone at hd
        refine List.Forall₂.imp ?_ hd
        intro f inner ⟨sf, hg, hc⟩
        obtain ⟨hm, hn⟩ := sourceMethodsOf_get?_some usource f.1 sf hg
        refine ⟨sf, hm, hn, ?_⟩
        unfold fieldCall at hc
        rw [hn] at hc
        exact hc
      · rw [← h, hstmt]
  · simp at h

/-- C4, at `Pair` to `Pair`. -/
theorem BuildBlock_struct_sequence_witness :
    ∃ usource inners, (Ty.Named "nested" "Pair").Underlying Nested.info = .Struct usource ∧
      List.Forall₂ (fun f inner => ∃ sf, sf ∈ usource ∧ sf.1 = f.1 ∧
        BuildBlock Nested.info 1 [.Id "target", .Dot f.1, .Op "="] (jen.Id "source" ++ [.Dot f.1])
          sf.2 f.2 ((0 + 1) % 256) = some (inner, none))
        [("A", Nested.tString), ("B", Nested.tInt)] inners ∧
      [Code.Stmt [.Var, .Id "target", .Qual "nested" "Pair"],
        .Stmt [.Id "target", .Dot "A", .Op "=", .Stmt [.Id "source", .Dot "A"]],
        .Stmt [.Id "target", .Dot "B", .Op "=", .Stmt [.Id "source", .Dot "B"]],
        .Stmt [.Return, .Id "target"]]
        = [.Stmt [.Var, .Id "target", .Qual "nested" "Pair"]] ++ inners.flatten
          ++ [.Stmt (jen.Return ++ [.Id "target"])] :=
  BuildBlock_struct_sequence Nested.info 1 jen.Return (jen.Id "source") (.Named "nested" "Pair")
    "nested" "Pair" 0 _ _ rfl rfl

/-! ## Theorems: the path of a nested failure (C6) -/

theorem NestedFailure_result (w : TypesInfo) (fuel : Nat) (e i : Statement) (s t : Ty) (l : Nat)
    (path : List (Ty × String)) (leaf : String)
    (h : NestedFailure w fuel e i s t l path leaf) :
    BuildBlock w fuel e i s t l = some ([], some (annotate w path leaf)) := by
  induction h with
  | leaf fuel e i s t l c err hb =>
    have := BuildBlock_err_nil _ _ _ _ _ _ _ _ _ hb
    subst this
    exact hb
  | field fuel e i s p nm l utype usource pre post f sf inners path err hu hs hsplit hd hg _ ih =>
    rw [BuildBlock_named_eq]
    simp only [hu, hs]
    have hc : fieldCall (BuildBlock w fuel) i l f sf
        = some ([], some (annotate w path err)) := ih
    rw [hsplit, buildFields_inner_fail w _ i s (.Named p nm) _ l pre post f sf inners _ _ hd hg hc]
    rfl

/-- C6: when a call of `BuildBlock` fails below the nested fields `path` of the target, the
error of the top-level call is the error of the leaf with one annotation in front for every
level, the outermost first, each naming the target struct and the field processed at that
level (`<T>.<field>: `); `addMethod` puts `body: ` in front of it. -/
theorem BuildBlock_breadcrumb (w : TypesInfo) (fuel : Nat) (s t : Ty)
    (path : List (Ty × String)) (leaf : String) (e i : Statement) (l : Nat) :
    (NestedFailure w fuel e i s t l path leaf →
      BuildBlock w fuel e i s t l = some ([], some (annotate w path leaf))) ∧
    (NestedFailure w fuel jen.Return (jen.Id "source") s t 0 path leaf →
      (∃ c, toCode w s (jen.Id "source") = .Return (c, none)) →
      (∃ c, toCode w t empty = .Return (c, none)) →
      ∀ (g : generator) (name : String),
        addMethod w fuel g name s t
          = some (.Return (g.file, some ("body: " ++ annotate w path leaf)))) := by
  refine ⟨NestedFailure_result w fuel e i s t l path leaf, ?_⟩
  rintro h ⟨cs, hcs⟩ ⟨ct, hct⟩ g name
  have hb := NestedFailure_result w fuel _ _ s t 0 path leaf h
  simp only [addMethod, hcs, hct, hb]

theorem Nested.personIn_fails :
    NestedFailure Nested.info 4 jen.Return (jen.Id "source") (.Named "nested" "PersonIn")
      (.Named "nested" "Person") 0
      [(.Named "nested" "Person", "Address"), (.Named "nested" "Address", "StreetInfo"),
        (.Named "nested" "StreetInfo", "Name")]
      "cannot convert int to string" :=
  .field 3 _ _ _ "nested" "Person" 0 _ _
    [("Name", Nested.tString), ("Age", Nested.tInt)] [] ("Address", .Named "nested" "Address")
    ("Address", .Named "nested" "AddressIn")
    [_, _] _ _ rfl rfl rfl
    (.cons ⟨("Name", Nested.tString), rfl, rfl⟩ (.cons ⟨("Age", Nested.tInt), rfl, rfl⟩ .nil))
    rfl
    (.field 2 _ _ _ "nested" "Address" 1 _ _ [] [("ZipCode", Nested.tString)]
      ("StreetInfo", .Named "nested" "StreetInfo")
      ("StreetInfo", .Named "nested" "StreetIn") [] _ _ rfl rfl rfl .nil rfl
      (.field 1 _ _ _ "nested" "StreetInfo" 2 _ _ [] [] ("Name", Nested.tString)
        ("Name", Nested.tInt) [] _ _ rfl rfl rfl .nil rfl
        (.leaf 1 _ _ _ _ _ [] _ rfl)))

/-- C6, at the source `PersonIn` for `Person`: the street name, three fields deep, is an
`int`.  The last part is a failure one field deep in a struct `StreetInfo` of a package whose
path is `Address`. -/
theorem BuildBlock_breadcrumb_witness :
    BuildBlock Nested.info 4 jen.Return (jen.Id "source") (.Named "nested" "PersonIn")
        (.Named "nested" "Person") 0
      = some ([], some ("nested.Person.Address: nested.Address.StreetInfo: "
          ++ "nested.StreetInfo.Name: cannot convert int to string")) ∧
    addMethod Nested.info 4 ⟨"ConverterImpl", "nested.Converter", NewFile "generated", []⟩
        "Convert" (.Named "nested" "PersonIn") (.Named "nested" "Person")
      = some (.Return (NewFile "generated", some ("body: nested.Person.Address: "
          ++ "nested.Address.StreetInfo: nested.StreetInfo.Name: cannot convert int to string"))) ∧
    BuildBlock Nested.info 2 jen.Return (jen.Id "source") (.Named "nested" "StreetIn")
        (.Named "Address" "StreetInfo") 0
      = some ([], some "Address.StreetInfo.Name: cannot convert int to string") :=
  ⟨(BuildBlock_breadcrumb Nested.info 4 (.Named "nested" "PersonIn") (.Named "nested" "Person")
      _ _ jen.Return (jen.Id "source") 0).1 Nested.personIn_fails,
    (BuildBlock_breadcrumb Nested.info 4 (.Named "nested" "PersonIn") (.Named "nested" "Person")
      _ _ jen.Return (jen.Id "source") 0).2 Nested.personIn_fails ⟨_, rfl⟩ ⟨_, rfl⟩ _ _,
    (BuildBlock_breadcrumb Nested.info 2 (.Named "nested" "StreetIn")
      (.Named "Address" "StreetInfo") [(.Named "Address" "StreetInfo", "Name")] _
      jen.Return (jen.Id "source") 0).1
      (.field 1 _ _ _ "Address" "StreetInfo" 0 _ _ [] [] ("Name", Nested.tString)
        ("Name", Nested.tInt) [] _ _ rfl rfl rfl .nil rfl (.leaf 1 _ _ _ _ _ [] _ rfl))⟩

/-! ## Theorems: `addMethod` and `addOuterMethod` (C8) -/

theorem string_data_append (a b : String) : (a ++ b).data = a.data ++ b.data := rfl

theorem addMethod_error_shape (w : TypesInfo) (fuel : Nat) (g : generator) (name : String)
    (s t : Ty) (file : File) (err : String)
    (h : addMethod w fuel g name s t = some (.Return (file, some err))) :
    file = g.file ∧ ∃ rest, err = "source: " ++ rest ∨ err = "result: " ++ rest ∨
      err = "body: " ++ rest := by
  unfold addMethod at h
  split at h
  · simp at h
  · simp at h; exact ⟨h.1.symm, _, Or.inl h.2.symm⟩
  · split at h
    · simp at h
    · simp at h; exact ⟨h.1.symm, _, Or.inr (Or.inl h.2.symm)⟩
    · split at h
      · simp at h
      · simp at h; exact ⟨h.1.symm, _, Or.inr (Or.inr h.2.symm)⟩
      · simp at h

theorem addMethod_error_ne (w : TypesInfo) (fuel : Nat) (g : generator) (name : String)
    (s t : Ty) (file : File) :
    addMethod w fuel g name s t
      ≠ some (.Return (file, some "expected signature to have only one parameter")) := by
  intro h
  obtain ⟨_, rest, h1 | h1 | h1⟩ := addMethod_error_shape w fuel g name s t file _ h
  all_goals
    have h2 := congrArg String.data h1
    rw [string_data_append] at h2
    simp at h2

theorem addOuterMethod_signature (w : TypesInfo) (fuel : Nat) (g : generator) (name : String)
    (params results : List Ty) :
    addOuterMethod w fuel g (name, .Signature params results) =
      if params.length ≠ 1 ∨ results.length ≠ 1 then
        some (.Return (g.file, some "expected signature to have only one parameter"))
      else addMethod w fuel g name (At params 0) (At results 0) := by
  simp only [addOuterMethod]
  by_cases h1 : params.length = 1 <;> by_cases h2 : results.length = 1 <;> simp [h1, h2]

/-- C8: for a method with the parameters `params` and the results `results`, `addOuterMethod`
returns the error `expected signature to have only one parameter`, and leaves the file as it
was, exactly when the method does not have one parameter or does not have one result (the
same error for both, whatever the fuel, so nothing is synthesized); with one parameter and
one result it is `addMethod` of the name of the method, the type of the parameter and the
type of the result. -/
theorem addOuterMethod_arity (w : TypesInfo) (fuel : Nat) (g : generator) (name : String)
    (params results : List Ty) :
    ((∃ file, addOuterMethod w fuel g (name, .Signature params results)
        = some (.Return (file, some "expected signature to have only one parameter")))
      ↔ (params.length ≠ 1 ∨ results.length ≠ 1)) ∧
    ((params.length ≠ 1 ∨ results.length ≠ 1) →
      addOuterMethod w fuel g (name, .Signature params results)
        = some (.Return (g.file, some "expected signature to have only one parameter"))) ∧
    (∀ source target, params = [source] → results = [target] →
      addOuterMethod w fuel g (name, .Signature params results)
        = addMethod w fuel g name source target) := by
  rw [addOuterMethod_signature]
  refine ⟨⟨?_, ?_⟩, ?_, ?_⟩
  · rintro ⟨file, h⟩
    by_contra hn
    rw [if_neg hn] at h
    exact addMethod_error_ne _ _ _ _ _ _ _ h
  · intro h
    exact ⟨g.file, by rw [if_pos h]⟩
  · intro h
    rw [if_pos h]
  · rintro source target rfl rfl
    simp [At]

/-- C8, at a method without parameters, at one with two results and at `Convert` of
example/nested. -/
theorem addOuterMethod_arity_witness :
    addOuterMethod Nested.info 0 ⟨"ConverterImpl", "nested.Converter", NewFile "generated", []⟩
        ("Convert", .Signature [] [.Named "nested" "Person"])
      = some (.Return (NewFile "generated",
          some "expected signature to have only one parameter")) ∧
    addOuterMethod Nested.info 0 ⟨"ConverterImpl", "nested.Converter", NewFile "generated", []⟩
        ("Convert", .Signature [.Named "nested" "Person"] [.Named "nested" "Person", Nested.tInt])
      = some (.Return (NewFile "generated",
          some "expected signature to have only one parameter")) ∧
    addOuterMethod Nested.info 4 ⟨"ConverterImpl", "nested.Converter", NewFile "generated", []⟩
        ("Convert", .Signature [.Named "nested" "FlatPerson"] [.Named "nested" "Person"])
      = addMethod Nested.info 4 ⟨"ConverterImpl", "nested.Converter", NewFile "generated", []⟩
          "Convert" (.Named "nested" "FlatPerson") (.Named "nested" "Person") :=
  ⟨(addOuterMethod_arity Nested.info 0 _ "Convert" [] [.Named "nested" "Person"]).2.1
      (Or.inl (by decide)),
    (addOuterMethod_arity Nested.info 0 _ "Convert" [.Named "nested" "Person"]
      [.Named "nested" "Person", Nested.tInt]).2.1 (Or.inr (by decide)),
    (addOuterMethod_arity Nested.info 4 _ "Convert" [.Named "nested" "FlatPerson"]
      [.Named "nested" "Person"]).2.2 _ _ rfl rfl⟩

/-! ## Theorems: `Generate` is all or nothing (C7) -/

theorem toCode_named (w : TypesInfo) (p nm : String) (st : Statement) :
    toCode w (.Named p nm) st = .Return (.Stmt (st ++ [.Qual p nm]), none) := rfl

theorem toCode_return_of_free (w : TypesInfo) : ∀ (t : Ty), t.PredeclaredFree = true →
    ∀ st, ∃ r, toCode w t st = .Return r
  | .Named _ _, _, _ => ⟨_, rfl⟩
  | .Predeclared _ _, h, _ => by simp [Ty.PredeclaredFree] at h
  | .Basic kind name, _, st => by cases kind <;> exact ⟨_, rfl⟩
  | .Pointer elem, h, st => by
    obtain ⟨r, hr⟩ := toCode_return_of_free w elem (by simpa [Ty.PredeclaredFree] using h)
      (st.Op "*")
    exact ⟨r, by simp only [toCode, hr]⟩
  | .Slice elem, h, st => by
    obtain ⟨r, hr⟩ := toCode_return_of_free w elem (by simpa [Ty.PredeclaredFree] using h)
      (st.Index [])
    exact ⟨r, by simp only [toCode, hr]⟩
  | .Array len elem, h, st => by
    obtain ⟨r, hr⟩ := toCode_return_of_free w elem (by simpa [Ty.PredeclaredFree] using h)
      (st.Index [.Lit (.MethodValue "Len" len)])
    exact ⟨r, by simp only [toCode, hr]⟩
  | .Map key elem, h, st => by
    have h2 : key.PredeclaredFree = true ∧ elem.PredeclaredFree = true := by
      simpa [Ty.PredeclaredFree] using h
    obtain ⟨⟨k, ke⟩, hk⟩ := toCode_return_of_free w key h2.1 empty
    cases ke with
    | some err => exact ⟨(k, some err), by simp only [toCode, hk]⟩
    | none =>
      obtain ⟨r, hr⟩ := toCode_return_of_free w elem h2.2 (st.Map k)
      exact ⟨r, by simp only [toCode, hk, hr]⟩
  | .Struct _, _, _ => ⟨_, rfl⟩
  | .Chan _, _, _ => ⟨_, rfl⟩
  | .Signature _ _, _, _ => ⟨_, rfl⟩
  | .Interface _, _, _ => ⟨_, rfl⟩

theorem addMethod_return_indep (w : TypesInfo) (fuel : Nat) (g g1 : generator) (name : String)
    (s t : Ty) (file : File) (oe : Option String)
    (h : addMethod w fuel g name s t = some (.Return (file, oe))) :
    ∃ file1, addMethod w fuel g1 name s t = some (.Return (file1, oe)) := by
  unfold addMethod at h ⊢
  cases hs : toCode w s (jen.Id "source") with
  | Panic msg => simp [hs] at h
  | Return r =>
    obtain ⟨cs, es⟩ := r
    simp only [hs] at h ⊢
    cases es with
    | some err =>
      simp at h ⊢
      exact h.2
    | none =>
      simp only at h ⊢
      cases ht : toCode w t empty with
      | Panic msg => simp [ht] at h
      | Return r =>
        obtain ⟨ct, et⟩ := r
        simp only [ht] at h ⊢
        cases et with
        | some err =>
          simp at h ⊢
          exact h.2
        | none =>
          simp only at h ⊢
          cases hb : BuildBlock w fuel jen.Return (jen.Id "source") s t 0 with
          | none => simp [hb] at h
          | some r =>
            obtain ⟨c, oe1⟩ := r
            simp only [hb] at h ⊢
            cases oe1 with
            | some err =>
              simp at h ⊢
              exact h.2
            | none =>
              simp at h ⊢
              exact h.2

theorem addOuterMethod_return_indep (w : TypesInfo) (fuel : Nat) (g g1 : generator)
    (m : String × Ty) (file : File) (oe : Option String)
    (h : addOuterMethod w fuel g m = some (.Return (file, oe))) :
    ∃ file1, addOuterMethod w fuel g1 m = some (.Return (file1, oe)) := by
  unfold addOuterMethod at h ⊢
  split
  · rename_i params result hm
    simp only [hm] at h
    split
    · rename_i hp
      rw [if_pos hp] at h
      simp at h
      exact ⟨_, by rw [h.2]⟩
    · rename_i hp
      rw [if_neg hp] at h
      split
      · rename_i hr
        rw [if_pos hr] at h
        simp at h
        exact ⟨_, by rw [h.2]⟩
      · rename_i hr
        rw [if_neg hr] at h
        exact addMethod_return_indep _ _ _ _ _ _ _ _ _ h
  · rename_i hm
    split at h
    · rename_i params result hm2
      exact absurd hm2 (hm params result)
    · simp at h
      exact ⟨_, by rw [h.2]⟩

theorem addOuterMethod_ok_indep (w : TypesInfo) (fuel : Nat) (g g1 : generator)
    (m : String × Ty) (file : File)
    (h : addOuterMethod w fuel g m = some (.Return (file, none))) :
    ∀ file1 err, addOuterMethod w fuel g1 m ≠ some (.Return (file1, some err)) := by
  intro file1 err h1
  obtain ⟨file2, h2⟩ := addOuterMethod_return_indep w fuel g g1 m file none h
  rw [h1] at h2
  simp at h2

theorem addOuterMethods_ok (w : TypesInfo) (fuel : Nat) (methods : List (String × Ty)) :
    ∀ (g : generator) (file : File),
      addOuterMethods w fuel g methods = some (.Return (file, none)) →
      ∀ m ∈ methods, ∀ g1 file1 err,
        addOuterMethod w fuel g1 m ≠ some (.Return (file1, some err)) := by
  induction methods with
  | nil => intro g file _ m hm; cases hm
  | cons m0 rest ih =>
    intro g file h m hm
    simp only [addOuterMethods] at h
    split at h
    · simp at h
    · simp at h
    · simp at h
    · rename_i file2 h0
      rcases List.mem_cons.1 hm with rfl | hm
      · exact fun g1 => addOuterMethod_ok_indep w fuel g g1 _ file2 h0
      · exact ih _ _ h m hm

theorem addOuterMethods_ok_iff (w : TypesInfo) (fuel : Nat) (methods : List (String × Ty)) :
    ∀ (g : generator) (file : File),
      addOuterMethods w fuel g methods = some (.Return (file, none)) ↔
        MethodsAdded w fuel g methods file := by
  induction methods with
  | nil =>
    intro g file
    constructor
    · intro h
      simp [addOuterMethods] at h
      subst h
      exact .nil g
    · intro h
      cases h
      rfl
  | cons m0 rest ih =>
    intro g file
    constructor
    · intro h
      simp only [addOuterMethods] at h
      split at h
      · simp at h
      · simp at h
      · simp at h
      · rename_i file1 h0
        exact .cons g file1 file m0 rest h0 ((ih _ _).1 h)
    · intro h
      cases h with
      | cons _ file1 _ _ _ h0 hrest =>
        simp only [addOuterMethods, h0]
        exact (ih _ _).2 hrest

theorem addOuterMethods_added (w : TypesInfo) (fuel : Nat) (pre rest : List (String × Ty)) :
    ∀ (g : generator) (file1 : File), MethodsAdded w fuel g pre file1 →
      addOuterMethods w fuel g (pre ++ rest)
        = addOuterMethods w fuel { g with file := file1 } rest := by
  induction pre with
  | nil =>
    intro g file1 h
    cases h
    rfl
  | cons m0 pre1 ih =>
    intro g file1 h
    cases h with
    | cons _ file0 _ _ _ h0 hrest =>
      simp only [List.cons_append, addOuterMethods, h0]
      exact ih _ _ hrest

theorem addOuterMethods_fail (w : TypesInfo) (fuel : Nat) (g : generator)
    (pre post : List (String × Ty)) (m : String × Ty) (file1 file2 : File) (e : String)
    (hpre : MethodsAdded w fuel g pre file1)
    (hm : addOuterMethod w fuel { g with file := file1 } m = some (.Return (file2, some e))) :
    addOuterMethods w fuel g (pre ++ m :: post)
      = some (.Return (file2, some (w.funcFullName m.1 m.2 ++ ": " ++ e))) := by
  rw [addOuterMethods_added w fuel pre _ g file1 hpre]
  simp only [addOuterMethods, hm]

theorem addOuterMethods_fail_inv (w : TypesInfo) (fuel : Nat) (methods : List (String × Ty)) :
    ∀ (g : generator) (file : File) (err : String),
      addOuterMethods w fuel g methods = some (.Return (file, some err)) →
      ∃ pre m post file1 e, methods = pre ++ m :: post ∧ MethodsAdded w fuel g pre file1 ∧
        addOuterMethod w fuel { g with file := file1 } m = some (.Return (file, some e)) ∧
        err = w.funcFullName m.1 m.2 ++ ": " ++ e := by
  induction methods with
  | nil => intro g file err h; simp [addOuterMethods] at h
  | cons m0 rest ih =>
    intro g file err h
    simp only [addOuterMethods] at h
    split at h
    · simp at h
    · simp at h
    · rename_i file1 e h0
      simp at h
      refine ⟨[], m0, rest, g.file, e, rfl, .nil g, ?_, h.2.symm⟩
      rw [← h.1]
      exact h0
    · rename_i file1 h0
      obtain ⟨pre, m, post, file2, e, hsplit, hpre, hm, herr⟩ := ih _ _ _ h
      exact ⟨m0 :: pre, m, post, file2, e, by simp [hsplit], .cons g file1 file2 m0 pre h0 hpre,
        hm, herr⟩

theorem generateConverters_cons_ok (w : TypesInfo) (fuel : Nat) (pattern : String)
    (sources : Package) (entry : String × ConverterConfig)
    (rest : List (String × ConverterConfig)) (file file1 : File)
    (h : Converted w fuel sources entry file file1) :
    generateConverters w fuel pattern sources (entry :: rest) file
      = generateConverters w fuel pattern sources rest file1 := by
  obtain ⟨obj, methods, hl, hi, hm⟩ := h
  obtain ⟨name, convConfig⟩ := entry
  have hm2 := (addOuterMethods_ok_iff w fuel methods _ _).2 hm
  simp only [startOf] at hm2
  simp only at hl
  simp only [generateConverters, hl, hi, hm2]

theorem generateConverters_cons_fail (w : TypesInfo) (fuel : Nat) (pattern : String)
    (sources : Package) (entry : String × ConverterConfig)
    (rest : List (String × ConverterConfig)) (file : File) (err : String)
    (h : FailsWith w fuel pattern sources entry file err) :
    generateConverters w fuel pattern sources (entry :: rest) file
      = some (.Return (none, some err)) := by
  obtain ⟨name, convConfig⟩ := entry
  rcases h with ⟨hl, herr⟩ | ⟨obj, methods, pre, m, post, file1, file2, e, hl, hi, hsplit, hpre,
    hm, herr⟩
  · simp only at hl herr
    simp only [generateConverters, hl, herr]
  · simp only at hl
    have hf := addOuterMethods_fail w fuel _ pre post m file1 file2 e hpre hm
    simp only [startOf] at hf
    rw [← hsplit] at hf
    simp only [generateConverters, hl, hi, hf, herr]

theorem generateConverters_all (w : TypesInfo) (fuel : Nat) (pattern : String)
    (sources : Package) (pre rest : List (String × ConverterConfig)) :
    ∀ (file file1 : File), AllConverted w fuel sources file pre file1 →
      generateConverters w fuel pattern sources (pre ++ rest) file
        = generateConverters w fuel pattern sources rest file1 := by
  induction pre with
  | nil => intro file file1 h; cases h; rfl
  | cons entry pre1 ih =>
    intro file file1 h
    cases h with
    | cons _ file0 _ _ _ h0 hrest =>
      rw [List.cons_append, generateConverters_cons_ok w fuel pattern sources entry _ file file0 h0]
      exact ih _ _ hrest

theorem generateConverters_file (w : TypesInfo) (fuel : Nat) (pattern : String)
    (sources : Package) (mapping : List (String × ConverterConfig)) :
    ∀ (file0 f : File) (err : Option String),
      generateConverters w fuel pattern sources mapping file0 = some (.Return (some f, err)) →
      err = none ∧ AllConverted w fuel sources file0 mapping f := by
  induction mapping with
  | nil =>
    intro file0 f err h
    simp [generateConverters] at h
    obtain ⟨h1, h2⟩ := h
    subst h1
    exact ⟨h2.symm, .nil _⟩
  | cons entry rest ih =>
    intro file0 f err h
    obtain ⟨name, convConfig⟩ := entry
    simp only [generateConverters] at h
    split at h
    · simp at h
    · rename_i obj hl
      split at h
      · rename_i methods hi
        split at h
        · simp at h
        · simp at h
        · simp at h
        · rename_i file2 hm
          obtain ⟨he, hall⟩ := ih _ _ _ h
          exact ⟨he, .cons file0 file2 f (name, convConfig) rest
            ⟨obj, methods, hl, hi, (addOuterMethods_ok_iff w fuel methods _ _).1 hm⟩ hall⟩
      · simp at h

theorem generateConverters_error (w : TypesInfo) (fuel : Nat) (pattern : String)
    (sources : Package) (mapping : List (String × ConverterConfig)) :
    ∀ (file0 : File) (err : Option String),
      generateConverters w fuel pattern sources mapping file0 = some (.Return (none, err)) →
      ∃ e pre entry post file1, err = some e ∧ mapping = pre ++ entry :: post ∧
        AllConverted w fuel sources file0 pre file1 ∧
        FailsWith w fuel pattern sources entry file1 e := by
  induction mapping with
  | nil => intro file0 err h; simp [generateConverters] at h
  | cons entry rest ih =>
    intro file0 err h
    obtain ⟨name, convConfig⟩ := entry
    simp only [generateConverters] at h
    split at h
    · rename_i hl
      simp at h
      exact ⟨_, [], (name, convConfig), rest, file0, h.symm, rfl, .nil _, Or.inl ⟨hl, rfl⟩⟩
    · rename_i obj hl
      split at h
      · rename_i methods hi
        split at h
        · simp at h
        · simp at h
        · rename_i file2 e hm
          simp at h
          obtain ⟨pre, m, post, file1, e1, hsplit, hpre, hm1, herr⟩ :=
            addOuterMethods_fail_inv w fuel methods _ _ _ hm
          exact ⟨e, [], (name, convConfig), rest, file0, h.symm, rfl, .nil _,
            Or.inr ⟨obj, methods, pre, m, post, file1, file2, e1, hl, hi, hsplit, hpre, hm1,
              herr⟩⟩
        · rename_i file2 hm
          obtain ⟨e, pre, entry, post, file1, he, hsplit, hall, hfail⟩ := ih _ _ h
          exact ⟨e, (name, convConfig) :: pre, entry, post, file1, he, by simp [hsplit],
            .cons file0 file2 file1 (name, convConfig) pre
              ⟨obj, methods, hl, hi, (addOuterMethods_ok_iff w fuel methods _ _).1 hm⟩ hall,
            hfail⟩
      · simp at h

theorem addOuterMethods_total (w : TypesInfo) (fuel : Nat) (methods : List (String × Ty))
    (ht : ∀ m ∈ methods, ∀ g, ∃ r, addOuterMethod w fuel g m = some r) :
    ∀ g : generator, ∃ r, addOuterMethods w fuel g methods = some r := by
  induction methods with
  | nil => intro g; exact ⟨_, rfl⟩
  | cons m0 rest ih =>
    intro g
    simp only [addOuterMethods]
    obtain ⟨o, h0⟩ := ht m0 (List.mem_cons_self _ _) g
    rw [h0]
    cases o with
    | Panic msg => exact ⟨_, rfl⟩
    | Return r =>
      obtain ⟨f, oe⟩ := r
      cases oe with
      | some err => exact ⟨_, rfl⟩
      | none => exact ih (fun m hm => ht m (List.mem_cons_of_mem _ hm)) _

theorem addOuterMethods_total_return (w : TypesInfo) (fuel : Nat)
    (methods : List (String × Ty))
    (ht : ∀ m ∈ methods, ∀ g, ∃ r, addOuterMethod w fuel g m = some (.Return r)) :
    ∀ g : generator, ∃ r, addOuterMethods w fuel g methods = some (.Return r) := by
  induction methods with
  | nil => intro g; exact ⟨_, rfl⟩
  | cons m0 rest ih =>
    intro g
    simp only [addOuterMethods]
    obtain ⟨⟨f, oe⟩, h0⟩ := ht m0 (List.mem_cons_self _ _) g
    rw [h0]
    cases oe with
    | some err => exact ⟨_, rfl⟩
    | none => exact ih (fun m hm => ht m (List.mem_cons_of_mem _ hm)) _

theorem addMethod_total (w : TypesInfo) (rank : Ty → Nat) (hr : Ranked w rank)
    (fuel : Nat) (hfuel : ∀ t, rank t < fuel) (g : generator) (name : String) (s t : Ty) :
    ∃ r, addMethod w fuel g name s t = some r := by
  unfold addMethod
  split
  · exact ⟨_, rfl⟩
  · exact ⟨_, rfl⟩
  · split
    · exact ⟨_, rfl⟩
    · exact ⟨_, rfl⟩
    · obtain ⟨⟨c, oe⟩, hb⟩ := BuildBlock_total w rank hr fuel jen.Return (jen.Id "source")
        s t 0 (hfuel _)
      rw [hb]
      cases oe <;> exact ⟨_, rfl⟩

theorem addMethod_total_return (w : TypesInfo) (rank : Ty → Nat) (hr : Ranked w rank)
    (fuel : Nat) (hfuel : ∀ t, rank t < fuel) (g : generator) (name : String) (s t : Ty)
    (hs : s.PredeclaredFree = true) (ht : t.PredeclaredFree = true) :
    ∃ r, addMethod w fuel g name s t = some (.Return r) := by
  obtain ⟨⟨cs, es⟩, hcs⟩ := toCode_return_of_free w s hs (jen.Id "source")
  obtain ⟨⟨ct, et⟩, hct⟩ := toCode_return_of_free w t ht empty
  obtain ⟨⟨c, oe⟩, hb⟩ := BuildBlock_total w rank hr fuel jen.Return (jen.Id "source")
    s t 0 (hfuel _)
  unfold addMethod
  rw [hcs]
  cases es with
  | some err => exact ⟨_, rfl⟩
  | none =>
    simp only [hct]
    cases et with
    | some err => exact ⟨_, rfl⟩
    | none =>
      simp only [hb]
      cases oe <;> exact ⟨_, rfl⟩

theorem addOuterMethod_total (w : TypesInfo) (rank : Ty → Nat) (hr : Ranked w rank)
    (fuel : Nat) (hfuel : ∀ t, rank t < fuel) (g : generator) (m : String × Ty) :
    ∃ r, addOuterMethod w fuel g m = some r := by
  unfold addOuterMethod
  split
  · split
    · exact ⟨_, rfl⟩
    · split
      · exact ⟨_, rfl⟩
      · exact addMethod_total w rank hr fuel hfuel _ _ _ _
  · exact ⟨_, rfl⟩

theorem At_mem (l : List Ty) (h : l.length = 1) : At l 0 ∈ l := by
  match l, h with
  | [t], _ => simp [At]

theorem addOuterMethod_total_return (w : TypesInfo) (rank : Ty → Nat) (hr : Ranked w rank)
    (fuel : Nat) (hfuel : ∀ t, rank t < fuel) (g : generator) (m : String × Ty)
    (hfree : ∀ params results, m.2 = .Signature params results →
      ∀ t ∈ params ++ results, t.PredeclaredFree = true) :
    ∃ r, addOuterMethod w fuel g m = some (.Return r) := by
  unfold addOuterMethod
  split
  · rename_i params result hm
    split
    · exact ⟨_, rfl⟩
    · rename_i hp
      split
      · exact ⟨_, rfl⟩
      · rename_i hres
        have hp1 : params.length = 1 := by simpa using hp
        have hr1 : result.length = 1 := by simpa using hres
        exact addMethod_total_return w rank hr fuel hfuel _ _ _ _
          (hfree params result hm _ (List.mem_append_left _ (At_mem _ hp1)))
          (hfree params result hm _ (List.mem_append_right _ (At_mem _ hr1)))
  · exact ⟨_, rfl⟩

theorem generateConverters_return (w : TypesInfo) (fuel : Nat) (pattern : String)
    (sources : Package) (mapping : List (String × ConverterConfig)) :
    ∀ (file0 : File) (file : Option File) (err : Option String),
      generateConverters w fuel pattern sources mapping file0 = some (.Return (file, err)) →
      (file = none ∧ err ≠ none) ∨
        (∃ f, file = some f ∧ err = none ∧
          ∀ entry ∈ mapping, ¬ ConverterFails w fuel sources entry.1) := by
  induction mapping with
  | nil =>
    intro file0 file err h
    simp [generateConverters] at h
    exact Or.inr ⟨file0, h.1.symm, h.2.symm, by simp⟩
  | cons entry rest ih =>
    intro file0 file err h
    obtain ⟨name, convConfig⟩ := entry
    simp only [generateConverters] at h
    split at h
    · simp at h
      exact Or.inl ⟨h.1.symm, by rw [← h.2]; simp⟩
    · rename_i obj hl
      split at h
      · rename_i methods hi
        split at h
        · simp at h
        · simp at h
        · simp at h
          exact Or.inl ⟨h.1.symm, by rw [← h.2]; simp⟩
        · rename_i file2 hm
          rcases ih _ _ _ h with h1 | ⟨f, hf, he, hall⟩
          · exact Or.inl h1
          · refine Or.inr ⟨f, hf, he, ?_⟩
            intro e2 he2
            rcases List.mem_cons.1 he2 with rfl | he2
            · rintro (hn | ⟨obj1, methods1, m, g, file1, err1, hl1, hi1, hmem, hfail⟩)
              · simp only at hn
                rw [hn] at hl
                cases hl
              · simp only at hl1
                rw [hl] at hl1
                cases hl1
                rw [hi] at hi1
                cases hi1
                exact addOuterMethods_ok w fuel _ _ _ hm m hmem g file1 err1 hfail
            · exact hall e2 he2
      · simp at h

theorem generateConverters_total (w : TypesInfo) (rank : Ty → Nat) (hr : Ranked w rank)
    (fuel : Nat) (hfuel : ∀ t, rank t < fuel) (pattern : String) (sources : Package)
    (mapping : List (String × ConverterConfig)) :
    ∀ file0 : File, ∃ o, generateConverters w fuel pattern sources mapping file0 = some o := by
  induction mapping with
  | nil => intro file0; exact ⟨_, rfl⟩
  | cons entry rest ih =>
    intro file0
    obtain ⟨name, convConfig⟩ := entry
    simp only [generateConverters]
    cases hl : sources.Lookup name with
    | none => exact ⟨_, rfl⟩
    | some obj =>
      simp only
      split
      · rename_i methods hm
        obtain ⟨o, hr2⟩ := addOuterMethods_total w fuel methods
          (fun m _ g => addOuterMethod_total w rank hr fuel hfuel g m)
          { name := convConfig.Config.Name,
            file := file0.Add ((Statement.Id [Code.TypeKw] convConfig.Config.Name).Struct [])
            id := w.typeString obj, lookup := [] }
        rw [hr2]
        cases o with
        | Panic msg => exact ⟨_, rfl⟩
        | Return r =>
          obtain ⟨f, oe⟩ := r
          cases oe with
          | some err => exact ⟨_, rfl⟩
          | none => exact ih _
      · exact ⟨_, rfl⟩

theorem generateConverters_total_return (w : TypesInfo) (rank : Ty → Nat) (hr : Ranked w rank)
    (fuel : Nat) (hfuel : ∀ t, rank t < fuel) (pattern : String) (sources : Package)
    (mapping : List (String × ConverterConfig))
    (hi : ∀ entry ∈ mapping, ∀ obj, sources.Lookup entry.1 = some obj →
      ∃ methods, obj.Underlying w = .Interface methods)
    (hfree : ∀ entry ∈ mapping, ∀ obj methods, sources.Lookup entry.1 = some obj →
      obj.Underlying w = .Interface methods → ∀ m ∈ methods, ∀ params results,
        m.2 = .Signature params results → ∀ t ∈ params ++ results, t.PredeclaredFree = true) :
    ∀ file0 : File, ∃ file err,
      generateConverters w fuel pattern sources mapping file0 = some (.Return (file, err)) := by
  induction mapping with
  | nil => intro file0; exact ⟨_, _, rfl⟩
  | cons entry rest ih =>
    intro file0
    obtain ⟨name, convConfig⟩ := entry
    simp only [generateConverters]
    cases hl : sources.Lookup name with
    | none => exact ⟨_, _, rfl⟩
    | some obj =>
      obtain ⟨methods, hm⟩ := hi (name, convConfig) (List.mem_cons_self _ _) obj hl
      simp only [hm]
      obtain ⟨⟨f, oe⟩, hr2⟩ := addOuterMethods_total_return w fuel methods
        (fun m hmem g => addOuterMethod_total_return w rank hr fuel hfuel g m
          (hfree (name, convConfig) (List.mem_cons_self _ _) obj methods hl hm m hmem))
        { name := convConfig.Config.Name,
          file := file0.Add ((Statement.Id [Code.TypeKw] convConfig.Config.Name).Struct [])
          id := w.typeString obj, lookup := [] }
      rw [hr2]
      cases oe with
      | some err => exact ⟨_, _, rfl⟩
      | none =>
        exact ih (fun e he => hi e (List.mem_cons_of_mem _ he))
          (fun e he => hfree e (List.mem_cons_of_mem _ he)) _

theorem Generator.registerMethods_ok_iff {γ ε μ : Type} (w : TypesInfo)
    (ops : Generator.GeneratorOps γ ε μ) (conv : Generator.Converter ε μ)
    (methods : List (String × Ty)) :
    ∀ gen gen2, Generator.registerMethods w ops conv gen methods = (gen2, none) ↔
      Generator.Registered ops conv gen methods gen2 := by
  induction methods with
  | nil =>
    intro gen gen2
    constructor
    · intro h
      simp [Generator.registerMethods] at h
      subst h
      exact .nil gen
    · intro h
      cases h
      rfl
  | cons m0 rest ih =>
    intro gen gen2
    constructor
    · intro h
      simp only [Generator.registerMethods] at h
      split at h
      · simp at h
      · rename_i gen1 h0
        exact .cons gen gen1 gen2 m0 rest h0 ((ih _ _).1 h)
    · intro h
      cases h with
      | cons _ gen1 _ _ _ h0 hrest =>
        simp only [Generator.registerMethods, h0]
        exact (ih _ _).2 hrest

theorem Generator.registerMethods_registered {γ ε μ : Type} (w : TypesInfo)
    (ops : Generator.GeneratorOps γ ε μ) (conv : Generator.Converter ε μ)
    (pre rest : List (String × Ty)) :
    ∀ gen gen1, Generator.Registered ops conv gen pre gen1 →
      Generator.registerMethods w ops conv gen (pre ++ rest)
        = Generator.registerMethods w ops conv gen1 rest := by
  induction pre with
  | nil => intro gen gen1 h; cases h; rfl
  | cons m0 pre1 ih =>
    intro gen gen1 h
    cases h with
    | cons _ gen0 _ _ _ h0 hrest =>
      simp only [List.cons_append, Generator.registerMethods, h0]
      exact ih _ _ hrest

theorem Generator.registerMethods_fail {γ ε μ : Type} (w : TypesInfo)
    (ops : Generator.GeneratorOps γ ε μ) (conv : Generator.Converter ε μ)
    (pre post : List (String × Ty)) (m : String × Ty) (gen gen1 gen2 : γ) (e : String)
    (hpre : Generator.Registered ops conv gen pre gen1)
    (hm : ops.registerMethod gen1 m (conv.Methods m.1) = (gen2, some e)) :
    Generator.registerMethods w ops conv gen (pre ++ m :: post)
      = (gen2, some ("Error while creating converter method:\n    "
          ++ w.funcString m.1 m.2 ++ "\n\n" ++ e)) := by
  rw [Generator.registerMethods_registered w ops conv pre _ gen gen1 hpre]
  simp only [Generator.registerMethods, hm]

theorem Generator.registerMethods_fail_inv {γ ε μ : Type} (w : TypesInfo)
    (ops : Generator.GeneratorOps γ ε μ) (conv : Generator.Converter ε μ)
    (methods : List (String × Ty)) :
    ∀ gen gen2 err, Generator.registerMethods w ops conv gen methods = (gen2, some err) →
      ∃ pre m post gen1 e, methods = pre ++ m :: post ∧
        Generator.Registered ops conv gen pre gen1 ∧
        ops.registerMethod gen1 m (conv.Methods m.1) = (gen2, some e) ∧
        err = "Error while creating converter method:\n    " ++ w.funcString m.1 m.2
          ++ "\n\n" ++ e := by
  induction methods with
  | nil => intro gen gen2 err h; simp [Generator.registerMethods] at h
  | cons m0 rest ih =>
    intro gen gen2 err h
    simp only [Generator.registerMethods] at h
    split at h
    · rename_i gen1 e h0
      simp at h
      refine ⟨[], m0, rest, gen, e, rfl, .nil gen, ?_, h.2.symm⟩
      rw [← h.1]
      exact h0
    · rename_i gen1 h0
      obtain ⟨pre, m, post, gen3, e, hsplit, hpre, hm, herr⟩ := ih _ _ _ h
      exact ⟨m0 :: pre, m, post, gen3, e, by simp [hsplit], .cons gen gen1 gen3 m0 pre h0 hpre,
        hm, herr⟩

theorem Generator.converters_cons_ok {γ ε μ : Type} (w : TypesInfo)
    (ops : Generator.GeneratorOps γ ε μ) (pattern : String) (sources : Package)
    (conv : Generator.Converter ε μ) (rest : List (Generator.Converter ε μ))
    (file file1 : File) (h : Generator.Converted w ops sources conv file file1) :
    Generator.generateConverters w ops pattern sources (conv :: rest) file
      = Generator.generateConverters w ops pattern sources rest file1 := by
  obtain ⟨obj, methods, gen1, gen2, gen3, hl, hi, hp, hreg, hcm, hfile⟩ := h
  have hreg2 := (Generator.registerMethods_ok_iff w ops conv methods _ _).2 hreg
  simp only [Generator.startOf] at hp
  simp only [Generator.generateConverters, hl, hi, hp, hreg2, hcm, hfile]

theorem Generator.converters_cons_fail {γ ε μ : Type} (w : TypesInfo)
    (ops : Generator.GeneratorOps γ ε μ) (pattern : String) (sources : Package)
    (conv : Generator.Converter ε μ) (rest : List (Generator.Converter ε μ))
    (file : File) (err : String) (h : Generator.FailsWith w ops pattern sources conv file err) :
    Generator.generateConverters w ops pattern sources (conv :: rest) file
      = .Return (none, some err) := by
  rcases h with ⟨hl, herr⟩ | ⟨obj, methods, hl, hi, hcase⟩
  · simp only [Generator.generateConverters, hl, herr]
  · rcases hcase with ⟨gen1, e, hp, herr⟩ |
      ⟨gen1, gen2, gen3, pre, m, post, e, hp, hsplit, hpre, hm, herr⟩ |
      ⟨gen1, gen2, gen3, e, hp, hreg, hcm, herr⟩
    · simp only [Generator.startOf] at hp
      simp only [Generator.generateConverters, hl, hi, hp, herr]
    · simp only [Generator.startOf] at hp
      have hf := Generator.registerMethods_fail w ops conv pre post m gen1 gen2 gen3 e hpre hm
      rw [← hsplit] at hf
      simp only [Generator.generateConverters, hl, hi, hp, hf, herr]
    · simp only [Generator.startOf] at hp
      have hreg2 := (Generator.registerMethods_ok_iff w ops conv methods _ _).2 hreg
      simp only [Generator.generateConverters, hl, hi, hp, hreg2, hcm, herr]

theorem Generator.converters_all {γ ε μ : Type} (w : TypesInfo)
    (ops : Generator.GeneratorOps γ ε μ) (pattern : String) (sources : Package)
    (pre rest : List (Generator.Converter ε μ)) :
    ∀ (file file1 : File), Generator.AllConverted w ops sources file pre file1 →
      Generator.generateConverters w ops pattern sources (pre ++ rest) file
        = Generator.generateConverters w ops pattern sources rest file1 := by
  induction pre with
  | nil => intro file file1 h; cases h; rfl
  | cons conv pre1 ih =>
    intro file file1 h
    cases h with
    | cons _ file0 _ _ _ h0 hrest =>
      rw [List.cons_append,
        Generator.converters_cons_ok w ops pattern sources conv _ file file0 h0]
      exact ih _ _ hrest

theorem Generator.converters_file {γ ε μ : Type} (w : TypesInfo)
    (ops : Generator.GeneratorOps γ ε μ) (pattern : String) (sources : Package)
    (mapping : List (Generator.Converter ε μ)) :
    ∀ (file0 f : File) (err : Option String),
      Generator.generateConverters w ops pattern sources mapping file0 = .Return (some f, err) →
      err = none ∧ Generator.AllConverted w ops sources file0 mapping f := by
  induction mapping with
  | nil =>
    intro file0 f err h
    simp [Generator.generateConverters] at h
    obtain ⟨h1, h2⟩ := h
    subst h1
    exact ⟨h2.symm, .nil _⟩
  | cons conv rest ih =>
    intro file0 f err h
    simp only [Generator.generateConverters] at h
    split at h
    · simp at h
    · rename_i obj hl
      split at h
      · rename_i methods hi
        split at h
        · simp at h
        · rename_i gen1 hp
          split at h
          · simp at h
          · rename_i gen2 hreg
            split at h
            · simp at h
            · rename_i gen3 hcm
              obtain ⟨he, hall⟩ := ih _ _ _ h
              exact ⟨he, .cons file0 (ops.file gen3) f conv rest
                ⟨obj, methods, gen1, gen2, gen3, hl, hi, hp,
                  (Generator.registerMethods_ok_iff w ops conv methods _ _).1 hreg, hcm, rfl⟩
                hall⟩
      · simp at h

theorem Generator.converters_error {γ ε μ : Type} (w : TypesInfo)
    (ops : Generator.GeneratorOps γ ε μ) (pattern : String) (sources : Package)
    (mapping : List (Generator.Converter ε μ)) :
    ∀ (file0 : File) (err : Option String),
      Generator.generateConverters w ops pattern sources mapping file0 = .Return (none, err) →
      ∃ e pre conv post file1, err = some e ∧ mapping = pre ++ conv :: post ∧
        Generator.AllConverted w ops sources file0 pre file1 ∧
        Generator.FailsWith w ops pattern sources conv file1 e := by
  induction mapping with
  | nil => intro file0 err h; simp [Generator.generateConverters] at h
  | cons conv rest ih =>
    intro file0 err h
    simp only [Generator.generateConverters] at h
    split at h
    · rename_i hl
      simp at h
      exact ⟨_, [], conv, rest, file0, h.symm, rfl, .nil _, Or.inl ⟨hl, rfl⟩⟩
    · rename_i obj hl
      split at h
      · rename_i methods hi
        split at h
        · rename_i gen1 e hp
          simp at h
          exact ⟨_, [], conv, rest, file0, h.symm, rfl, .nil _,
            Or.inr ⟨obj, methods, hl, hi, Or.inl ⟨gen1, e, hp, rfl⟩⟩⟩
        · rename_i gen1 hp
          split at h
          · rename_i gen2 e hreg
            simp at h
            obtain ⟨pre, m, post, gen3, e1, hsplit, hpre, hm, herr⟩ :=
              Generator.registerMethods_fail_inv w ops conv methods _ _ _ hreg
            exact ⟨e, [], conv, rest, file0, h.symm, rfl, .nil _,
              Or.inr ⟨obj, methods, hl, hi,
                Or.inr (Or.inl ⟨gen1, gen3, gen2, pre, m, post, e1, hp, hsplit, hpre, hm,
                  herr⟩)⟩⟩
          · rename_i gen2 hreg
            split at h
            · rename_i gen3 e hcm
              simp at h
              exact ⟨e, [], conv, rest, file0, h.symm, rfl, .nil _,
                Or.inr ⟨obj, methods, hl, hi,
                  Or.inr (Or.inr ⟨gen1, gen2, gen3, e, hp,
                    (Generator.registerMethods_ok_iff w ops conv methods _ _).1 hreg, hcm,
                    rfl⟩)⟩⟩
            · rename_i gen3 hcm
              obtain ⟨e, pre, c2, post, file1, he, hsplit, hall, hfail⟩ := ih _ _ h
              exact ⟨e, conv :: pre, c2, post, file1, he, by simp [hsplit],
                .cons file0 (ops.file gen3) file1 conv pre
                  ⟨obj, methods, gen1, gen2, gen3, hl, hi, hp,
                    (Generator.registerMethods_ok_iff w ops conv methods _ _).1 hreg, hcm, rfl⟩
                  hall, hfail⟩
      · simp at h

/-- C7: `Generate` is all or nothing, in internal/generator (parts 1 to 4) and in package
generator (parts 5 to 7) alike.  (1) Whenever it returns, it returns either no file and an
error, or a file and no error; a file is returned only when every iteration of the run went
through, each on the file that the one before it left, and then no converter of the mapping
fails for any generator.  (2) When the entries `pre` are generated in the run and the next
one fails, because it is not found or because `addOuterMethod` returns an error for one of
its methods after the methods before it were added, `Generate` returns no file and that
error, whatever was synthesized before and whatever follows.  (3) Every error returned with
no file is the error of the importer or such a first failure of the run.  (4) With well
founded types and enough fuel `Generate` has a result; and when, in addition, the converters
are interfaces (which the source checks beforehand), no type of a method is built on a
predeclared type, and some converter of the mapping fails, the result is no file and an
error.  (5) `Generate` of package generator returns either no file and an error, or a file
and no error, and it returns a file and no error exactly when every iteration of the run
went through: every converter is found and `parseExtend`, `registerMethod` for every method
and `createMethods`, each called in the state that the calls of the run before it left,
returned no error.  (6) When the converters `pre` are generated in the run and one of these
calls returns an error for the next converter, in the state that the run has reached, or the
converter is not found, `Generate` returns no file and that error.  (7) Every error returned
with no file is the error of the importer or such a first failure of the run.  (8) When the
importer fails, both return no file and its error. -/
theorem Generate_all_or_nothing {γ ε μ : Type} (w : TypesInfo) (fuel : Nat)
    (importPkg : String → Except String Package) (pattern : String) (config : Config)
    (mapping : List (String × ConverterConfig))
    (ops : Generator.GeneratorOps γ ε μ) (mapping2 : List (Generator.Converter ε μ)) :
    (∀ file err, Generate w fuel importPkg pattern mapping config = some (.Return (file, err)) →
      (file = none ∧ err ≠ none) ∨
        (∃ f sources, file = some f ∧ err = none ∧ importPkg pattern = .ok sources ∧
          AllConverted w fuel sources (startFile config) mapping f ∧
          ∀ entry ∈ mapping, ¬ ConverterFails w fuel sources entry.1)) ∧
    (∀ sources pre entry post file1 e, importPkg pattern = .ok sources →
      mapping = pre ++ entry :: post →
      AllConverted w fuel sources (startFile config) pre file1 →
      FailsWith w fuel pattern sources entry file1 e →
      Generate w fuel importPkg pattern mapping config = some (.Return (none, some e))) ∧
    (∀ e, Generate w fuel importPkg pattern mapping config = some (.Return (none, some e)) →
      importPkg pattern = .error e ∨
        ∃ sources pre entry post file1, importPkg pattern = .ok sources ∧
          mapping = pre ++ entry :: post ∧
          AllConverted w fuel sources (startFile config) pre file1 ∧
          FailsWith w fuel pattern sources entry file1 e) ∧
    (∀ rank, Ranked w rank → (∀ t, rank t < fuel) →
      (∃ o, Generate w fuel importPkg pattern mapping config = some o) ∧
      ∀ sources, importPkg pattern = .ok sources →
        (∀ entry ∈ mapping, ∀ obj, sources.Lookup entry.1 = some obj →
          ∃ methods, obj.Underlying w = .Interface methods) →
        (∀ entry ∈ mapping, ∀ obj methods, sources.Lookup entry.1 = some obj →
          obj.Underlying w = .Interface methods → ∀ m ∈ methods, ∀ params results,
            m.2 = .Signature params results →
            ∀ t ∈ params ++ results, t.PredeclaredFree = true) →
        (∃ entry ∈ mapping, ConverterFails w fuel sources entry.1) →
        ∃ e, Generate w fuel importPkg pattern mapping config = some (.Return (none, some e))) ∧
    ((∀ file err,
        Generator.Generate w ops importPkg pattern mapping2 config = .Return (file, err) →
        (file = none ∧ err ≠ none) ∨ (∃ f, file = some f ∧ err = none)) ∧
      ∀ f, Generator.Generate w ops importPkg pattern mapping2 config = .Return (some f, none) ↔
        ∃ sources, importPkg pattern = .ok sources ∧
          Generator.AllConverted w ops sources (startFile config) mapping2 f) ∧
    (∀ sources pre conv post file1 e, importPkg pattern = .ok sources →
      mapping2 = pre ++ conv :: post →
      Generator.AllConverted w ops sources (startFile config) pre file1 →
      Generator.FailsWith w ops pattern sources conv file1 e →
      Generator.Generate w ops importPkg pattern mapping2 config = .Return (none, some e)) ∧
    (∀ e, Generator.Generate w ops importPkg pattern mapping2 config = .Return (none, some e) →
      importPkg pattern = .error e ∨
        ∃ sources pre conv post file1, importPkg pattern = .ok sources ∧
          mapping2 = pre ++ conv :: post ∧
          Generator.AllConverted w ops sources (startFile config) pre file1 ∧
          Generator.FailsWith w ops pattern sources conv file1 e) ∧
    (∀ e, importPkg pattern = .error e →
      Generate w fuel importPkg pattern mapping config = some (.Return (none, some e)) ∧
      Generator.Generate w ops importPkg pattern mapping2 config = .Return (none, some e)) := by
  refine ⟨?_, ?_, ?_, ?_, ⟨?_, ?_⟩, ?_, ?_, ?_⟩
  · intro file err h
    unfold Generate at h
    split at h
    · simp at h
      exact Or.inl ⟨h.1.symm, by rw [← h.2]; simp⟩
    · rename_i sources hs
      rcases generateConverters_return w fuel pattern sources mapping _ _ _ h with h1 | h1
      · exact Or.inl h1
      · obtain ⟨f, hf, he, hall⟩ := h1
        subst hf
        exact Or.inr ⟨f, sources, rfl, he, hs,
          (generateConverters_file w fuel pattern sources mapping _ _ _ h).2, hall⟩
  · intro sources pre entry post file1 e hs hsplit hall hfail
    unfold Generate
    simp only [hs, hsplit]
    change generateConverters w fuel pattern sources (pre ++ entry :: post) (startFile config) = _
    rw [generateConverters_all w fuel pattern sources pre _ _ file1 hall]
    exact generateConverters_cons_fail w fuel pattern sources entry post file1 e hfail
  · intro e h
    unfold Generate at h
    split at h
    · rename_i e1 hs
      simp at h
      exact Or.inl (by rw [hs, h])
    · rename_i sources hs
      obtain ⟨e1, pre, entry, post, file1, he, hsplit, hall, hfail⟩ :=
        generateConverters_error w fuel pattern sources mapping _ _ h
      cases he
      exact Or.inr ⟨sources, pre, entry, post, file1, hs, hsplit, hall, hfail⟩
  · intro rank hr hfuel
    constructor
    · unfold Generate
      split
      · exact ⟨_, rfl⟩
      · exact generateConverters_total w rank hr fuel hfuel pattern _ mapping _
    · intro sources hs hi hfree ⟨entry, hmem, hfail⟩
      unfold Generate
      simp only [hs]
      obtain ⟨file, err, h⟩ := generateConverters_total_return w rank hr fuel hfuel pattern
        sources mapping hi hfree ((NewFile config.Name).HeaderComment
          "// Code generated by github.com/jmattheis/go-genconv, DO NOT EDIT.")
      rcases generateConverters_return w fuel pattern sources mapping _ _ _ h with h1 | h1
      · obtain ⟨hf, he⟩ := h1
        subst hf
        cases err with
        | none => exact absurd rfl he
        | some e => exact ⟨e, h⟩
      · obtain ⟨f, _, _, hall⟩ := h1
        exact absurd hfail (hall entry hmem)
  · intro file err h
    unfold Generator.Generate at h
    split at h
    · simp at h
      exact Or.inl ⟨h.1.symm, by rw [← h.2]; simp⟩
    · rename_i sources hs
      cases file with
      | none =>
        obtain ⟨e1, _, _, _, _, he, _⟩ :=
          Generator.converters_error w ops pattern sources mapping2 _ _ h
        exact Or.inl ⟨rfl, by rw [he]; simp⟩
      | some f =>
        exact Or.inr ⟨f, rfl, (Generator.converters_file w ops pattern sources mapping2 _ _ _ h).1⟩
  · intro f
    constructor
    · intro h
      unfold Generator.Generate at h
      split at h
      · simp at h
      · rename_i sources hs
        exact ⟨sources, hs, (Generator.converters_file w ops pattern sources mapping2 _ _ _ h).2⟩
    · rintro ⟨sources, hs, hall⟩
      unfold Generator.Generate
      simp only [hs]
      have := Generator.converters_all w ops pattern sources mapping2 [] _ f hall
      rw [List.append_nil] at this
      exact this
  · intro sources pre conv post file1 e hs hsplit hall hfail
    unfold Generator.Generate
    simp only [hs, hsplit]
    change Generator.generateConverters w ops pattern sources (pre ++ conv :: post)
      (startFile config) = _
    rw [Generator.converters_all w ops pattern sources pre _ _ file1 hall]
    exact Generator.converters_cons_fail w ops pattern sources conv post file1 e hfail
  · intro e h
    unfold Generator.Generate at h
    split at h
    · rename_i e1 hs
      simp at h
      exact Or.inl (by rw [hs, h])
    · rename_i sources hs
      obtain ⟨e1, pre, conv, post, file1, he, hsplit, hall, hfail⟩ :=
        Generator.converters_error w ops pattern sources mapping2 _ _ h
      cases he
      exact Or.inr ⟨sources, pre, conv, post, file1, hs, hsplit, hall, hfail⟩
  · intro e he
    simp [Generate, Generator.Generate, he]

theorem Nested.rank_lt (t : Ty) : Nested.rank t < 4 := by
  cases t <;> simp only [Nested.rank] <;> (try split_ifs) <;> omega

theorem Nested.interfaces (name : String) (obj : Ty)
    (h : Nested.package.Lookup name = some obj) :
    ∃ methods, obj.Underlying Nested.info = .Interface methods := by
  simp only [Nested.package] at h
  split_ifs at h <;> cases h <;> exact ⟨_, rfl⟩

theorem Nested.methods_free (name : String) (obj : Ty) (methods : List (String × Ty))
    (h : Nested.package.Lookup name = some obj)
    (hm : obj.Underlying Nested.info = .Interface methods) (m : String × Ty) (hmem : m ∈ methods)
    (params results : List Ty) (hsig : m.2 = .Signature params results) (t : Ty)
    (ht : t ∈ params ++ results) : t.PredeclaredFree = true := by
  simp only [Nested.package] at h
  split_ifs at h <;> cases h <;> cases hm <;> simp at hmem <;> subst hmem <;> cases hsig <;>
    simp at ht <;> rcases ht with rfl | rfl <;> rfl

/-- C7, at the mapping of `Copier`, which is generated, and then a converter that fails: in
internal/generator the converter `Converter`, whose method `Convert` fails, and in package
generator, with methods that fail once the file holds a converter, the converter `Cloner`,
which a run that starts with it generates. -/
theorem Generate_all_or_nothing_witness :
    Generate Nested.info 4 Nested.importPkg "example/nested"
        [("Copier", ⟨⟨"CopierImpl"⟩⟩), ("Converter", ⟨⟨"ConverterImpl"⟩⟩)] ⟨"generated"⟩
      = some (.Return (none, some ("(nested.Converter).Convert: "
          ++ "body: source nested.FlatPerson does not have a field named Address"))) ∧
    (∃ e, Generate Nested.info 4 Nested.importPkg "example/nested"
        [("Copier", ⟨⟨"CopierImpl"⟩⟩), ("Converter", ⟨⟨"ConverterImpl"⟩⟩)] ⟨"generated"⟩
      = some (.Return (none, some e))) ∧
    Generator.Generate Nested.info Nested.statefulOps Nested.importPkg "example/nested"
        [⟨"Copier", ⟨"CopierImpl", ()⟩, fun _ => ()⟩,
          ⟨"Cloner", ⟨"ClonerImpl", ()⟩, fun _ => ()⟩] ⟨"generated"⟩
      = .Return (none, some ("Error while creating converter method:\n    "
          ++ "func (nested.Converter).Clone" ++ "\n\n" ++ "the file already holds a converter")) ∧
    (∃ f, Generator.Generate Nested.info Nested.statefulOps Nested.importPkg "example/nested"
        [⟨"Cloner", ⟨"ClonerImpl", ()⟩, fun _ => ()⟩] ⟨"generated"⟩ = .Return (some f, none)) :=
  ⟨(Generate_all_or_nothing Nested.info 4 Nested.importPkg "example/nested" ⟨"generated"⟩
      [("Copier", ⟨⟨"CopierImpl"⟩⟩), ("Converter", ⟨⟨"ConverterImpl"⟩⟩)] Nested.ops
      []).2.1 Nested.package [("Copier", ⟨⟨"CopierImpl"⟩⟩)] ("Converter", ⟨⟨"ConverterImpl"⟩⟩) []
      _ _ rfl rfl
      (.cons _ _ _ _ _ ⟨.Named "nested" "Copier", _, rfl, rfl, .cons _ _ _ _ _ rfl (.nil _)⟩
        (.nil _))
      (Or.inr ⟨.Named "nested" "Converter", _, [],
        ("Convert", .Signature [.Named "nested" "FlatPerson"] [.Named "nested" "Person"]), [],
        _, _, _, rfl, rfl, rfl, .nil _, rfl, rfl⟩),
    ((Generate_all_or_nothing Nested.info 4 Nested.importPkg "example/nested" ⟨"generated"⟩
      [("Copier", ⟨⟨"CopierImpl"⟩⟩), ("Converter", ⟨⟨"ConverterImpl"⟩⟩)] Nested.ops
      []).2.2.2.1 Nested.rank Nested.ranked Nested.rank_lt).2 Nested.package rfl
      (fun entry _ obj h => Nested.interfaces entry.1 obj h)
      (fun entry _ obj methods h hm => Nested.methods_free entry.1 obj methods h hm)
      ⟨("Converter", ⟨⟨"ConverterImpl"⟩⟩), by simp,
        Or.inr ⟨.Named "nested" "Converter", _,
          ("Convert", .Signature [.Named "nested" "FlatPerson"] [.Named "nested" "Person"]),
          ⟨"ConverterImpl", "nested.Converter", NewFile "generated", []⟩, _, _, rfl, rfl,
          by simp, rfl⟩⟩,
    (Generate_all_or_nothing Nested.info 4 Nested.importPkg "example/nested" ⟨"generated"⟩
      [] Nested.statefulOps
      [⟨"Copier", ⟨"CopierImpl", ()⟩, fun _ => ()⟩,
        ⟨"Cloner", ⟨"ClonerImpl", ()⟩, fun _ => ()⟩]).2.2.2.2.2.1
      Nested.package [⟨"Copier", ⟨"CopierImpl", ()⟩, fun _ => ()⟩]
      ⟨"Cloner", ⟨"ClonerImpl", ()⟩, fun _ => ()⟩ [] _ _ rfl rfl
      (.cons _ _ _ _ _
        ⟨.Named "nested" "Copier", _, _, _, _, rfl, rfl, rfl, .cons _ _ _ _ _ rfl (.nil _), rfl,
          rfl⟩ (.nil _))
      (Or.inr ⟨.Named "nested" "Cloner", _, rfl, rfl,
        Or.inr (Or.inl ⟨_, _, _, [],
          ("Clone", .Signature [.Named "nested" "Single"] [.Named "nested" "Single"]), [], _,
          rfl, rfl, .nil _, rfl, rfl⟩)⟩),
    ⟨_, ((Generate_all_or_nothing Nested.info 4 Nested.importPkg "example/nested" ⟨"generated"⟩
      [] Nested.statefulOps
      [⟨"Cloner", ⟨"ClonerImpl", ()⟩, fun _ => ()⟩]).2.2.2.2.1.2 _).2
      ⟨Nested.package, rfl, .cons _ _ _ _ _
        ⟨.Named "nested" "Cloner", _, _, _, _, rfl, rfl, rfl, .cons _ _ _ _ _ rfl (.nil _), rfl,
          rfl⟩ (.nil _)⟩⟩⟩

/-! ## Theorems: the converter of example/nested (C9) -/

theorem structFields_ok (w : TypesInfo) (table : List Directive)
    (rec1 : List String → Ty → List String → Ty → Option (Except String (List Assignment)))
    (tpath : List String) (source : Ty) (spath : List String) (fields : List (String × Ty)) :
    ∀ plan, structFields w table rec1 tpath source spath fields = some (.ok plan) →
      ∀ f ∈ fields, ∃ fieldSource inner,
        shapeAt w source (sourcePathOf table tpath f) = some fieldSource ∧
        rec1 (tpath ++ [f.1]) fieldSource (spath ++ sourcePathOf table tpath f) f.2
          = some (.ok inner) ∧
        ∀ a ∈ inner, a ∈ plan := by
  induction fields with
  | nil => intro plan _ f hf; cases hf
  | cons f0 rest ih =>
    intro plan h f hf
    simp only [structFields] at h
    split at h
    · split at h <;> simp at h
    · rename_i fieldSource hshape
      split at h
      · simp at h
      · simp at h
      · rename_i inner hrec
        split at h
        · simp at h
        · simp at h
        · rename_i more hmore
          simp at h
          subst h
          rcases List.mem_cons.1 hf with rfl | hf
          · exact ⟨fieldSource, inner, hshape, hrec, fun a ha => List.mem_append_left _ ha⟩
          · obtain ⟨fs, inner1, h1, h2, h3⟩ := ih more hmore f hf
            exact ⟨fs, inner1, h1, h2, fun a ha => List.mem_append_right _ (h3 a ha)⟩

theorem synthesize_struct (w : TypesInfo) (table : List Directive) (fuel : Nat)
    (tpath spath : List String) (source : Ty) (p nm : String) (fields : List (String × Ty))
    (plan : List Assignment) (hu : w.underlying p nm = .Struct fields)
    (h : synthesize w table (fuel + 1) tpath source spath (.Named p nm) = some (.ok plan)) :
    structFields w table (synthesize w table fuel) tpath source spath fields
      = some (.ok plan) := by
  simp only [synthesize, hu] at h
  split at h
  · rename_i fields1 _ h1 _
    cases h1
    exact h
  · simp at h

theorem synthesize_rebase (w : TypesInfo) (table : List Directive) (fuel : Nat)
    (tpath spath : List String) (source : Ty) (p nm : String) (fields : List (String × Ty))
    (plan : List Assignment) (hu : w.underlying p nm = .Struct fields)
    (h : synthesize w table (fuel + 1) tpath source spath (.Named p nm) = some (.ok plan))
    (f : String × Ty) (hmem : f ∈ fields)
    (hres : Directive.resolve table (tpath ++ [f.1]) = some []) :
    ∃ inner, synthesize w table fuel (tpath ++ [f.1]) source spath f.2 = some (.ok inner) ∧
      ∀ a ∈ inner, a ∈ plan := by
  have hf := synthesize_struct w table fuel tpath spath source p nm fields plan hu h
  obtain ⟨fs, inner, h1, h2, h3⟩ := structFields_ok w table _ tpath source spath fields plan hf
    f hmem
  have hsp : sourcePathOf table tpath f = [] := by simp [sourcePathOf, hres]
  rw [hsp] at h1 h2
  simp only [shapeAt, Option.some.injEq] at h1
  subst h1
  rw [List.append_nil] at h2
  exact ⟨inner, h2, h3⟩

theorem synthesize_leaf (w : TypesInfo) (table : List Directive) (fuel : Nat)
    (tpath spath : List String) (source : Ty) (p nm : String) (fields : List (String × Ty))
    (plan : List Assignment) (hu : w.underlying p nm = .Struct fields)
    (h : synthesize w table (fuel + 1) tpath source spath (.Named p nm) = some (.ok plan))
    (f : String × Ty) (hmem : f ∈ fields) (kind : BasicKind) (name : String)
    (hb : f.2 = .Basic kind name) :
    (⟨tpath ++ [f.1], spath ++ sourcePathOf table tpath f⟩ : Assignment) ∈ plan := by
  have hf := synthesize_struct w table fuel tpath spath source p nm fields plan hu h
  obtain ⟨fs, inner, h1, h2, h3⟩ := structFields_ok w table _ tpath source spath fields plan hf
    f hmem
  apply h3
  rw [hb] at h2
  cases fuel with
  | zero => simp [synthesize] at h2
  | succ n =>
    simp only [synthesize] at h2
    split at h2
    · split at h2
      · simp at h2
        rw [← h2]
        simp
      · simp at h2
    · simp at h2

/-- C9, against the rules Basic and Struct and the Directive Resolver as the specification
describes them (the code that receives the directives is not among the sources).  For the
converter of example/nested, with the directives `map . Address`, `map . Address.StreetInfo`
and `map Street Address.StreetInfo.Name`: (1) the synthesis of `Convert(FlatPerson) Person`
succeeds, with one assignment for every leaf of `Person`; (2) `Generate` of package
generator, which hands the directives of the method to `registerMethod`, returns a file and
no error; (3) the conversion maps the value `{Name, Age, Street, ZipCode}` of `FlatPerson`
to `{Name, Age, Address: {StreetInfo: {Name: Street}, ZipCode}}`.  In general, for a named
struct target whose synthesis succeeds: (4) a field with a rebase directive is synthesized
from the source value of the enclosing struct itself, at the same source path (the top-level
source value for a field of the top-level target), and its assignments are part of the
conversion; (5) a field of a basic type is one assignment of the leaf at its full target
path, read from the source path of its directive or, without one, from the field of its
name; (6) so a basic field `g` of a nested struct `f` of the top-level target that has a
rebase directive is the leaf `f.g`, read from the top-level source value: from the source
path of the directive for `f.g`, and without one from the field `g` of the top-level
source. -/
theorem Convert_nested_directives :
    synthesize Nested.info Nested.directives 4 [] (.Named "nested" "FlatPerson") []
        (.Named "nested" "Person")
      = some (.ok [⟨["Name"], ["Name"]⟩, ⟨["Age"], ["Age"]⟩,
          ⟨["Address", "StreetInfo", "Name"], ["Street"]⟩,
          ⟨["Address", "ZipCode"], ["ZipCode"]⟩]) ∧
    (∃ f, Generator.Generate Nested.info (specOps Nested.info 4) Nested.importPkg
        "example/nested" [Nested.converter] ⟨"generated"⟩ = .Return (some f, none)) ∧
    (∀ name age street zipCode : String,
      convertWith Nested.info 8 (.Named "nested" "Person")
          [⟨["Name"], ["Name"]⟩, ⟨["Age"], ["Age"]⟩,
            ⟨["Address", "StreetInfo", "Name"], ["Street"]⟩,
            ⟨["Address", "ZipCode"], ["ZipCode"]⟩]
          (Nested.flatPerson name age street zipCode)
        = some (Nested.person name age street zipCode)) ∧
    (∀ (w : TypesInfo) (table : List Directive) (fuel : Nat) (tpath spath : List String)
      (source : Ty) (p nm : String) (fields : List (String × Ty)) (plan : List Assignment),
      w.underlying p nm = .Struct fields →
      synthesize w table (fuel + 1) tpath source spath (.Named p nm) = some (.ok plan) →
      (∀ f ∈ fields, Directive.resolve table (tpath ++ [f.1]) = some [] →
        ∃ inner, synthesize w table fuel (tpath ++ [f.1]) source spath f.2 = some (.ok inner) ∧
          ∀ a ∈ inner, a ∈ plan) ∧
      (∀ f ∈ fields, ∀ kind name, f.2 = .Basic kind name →
        (⟨tpath ++ [f.1], spath ++ sourcePathOf table tpath f⟩ : Assignment) ∈ plan)) ∧
    (∀ (w : TypesInfo) (table : List Directive) (fuel : Nat) (source : Ty) (p nm q m : String)
      (fields nested : List (String × Ty)) (plan : List Assignment),
      w.underlying p nm = .Struct fields →
      synthesize w table (fuel + 2) [] source [] (.Named p nm) = some (.ok plan) →
      ∀ f ∈ fields, Directive.resolve table [f.1] = some [] → f.2 = .Named q m →
        w.underlying q m = .Struct nested →
        ∀ g ∈ nested, ∀ kind name, g.2 = .Basic kind name →
          (⟨[f.1, g.1], sourcePathOf table [f.1] g⟩ : Assignment) ∈ plan ∧
          (Directive.resolve table [f.1, g.1] = none →
            (⟨[f.1, g.1], [g.1]⟩ : Assignment) ∈ plan)) := by
  refine ⟨rfl, ⟨_, rfl⟩, fun name age street zipCode => rfl, ?_, ?_⟩
  · intro w table fuel tpath spath source p nm fields plan hu h
    exact ⟨fun f hmem hres =>
        synthesize_rebase w table fuel tpath spath source p nm fields plan hu h f hmem hres,
      fun f hmem kind name hb =>
        synthesize_leaf w table fuel tpath spath source p nm fields plan hu h f hmem kind name
          hb⟩
  · intro w table fuel source p nm q m fields nested plan hu h f hmem hres hf hq g hg kind name
      hb
    obtain ⟨inner, hin, hsub⟩ := synthesize_rebase w table (fuel + 1) [] [] source p nm fields
      plan hu h f hmem hres
    rw [hf] at hin
    have hleaf := synthesize_leaf w table fuel ([] ++ [f.1]) [] source q m nested inner hq hin
      g hg kind name hb
    have hmem2 := hsub _ hleaf
    simp only [List.nil_append, List.singleton_append] at hmem2
    refine ⟨hmem2, fun hnone => ?_⟩
    have hsp : sourcePathOf table [f.1] g = [g.1] := by
      simp [sourcePathOf, hnone]
    rw [hsp] at hmem2
    exact hmem2

/-- C9, at the claim's value `{Name: "a", Age: 1, Street: "Main", ZipCode: "12345"}`, at the
field `Address` of `Person`, which has the rebase directive `map . Address`, at the field
`Name` of `Person`, which has no directive, and at the field `ZipCode` of `Address`, which
is read from the field `ZipCode` of the top-level source. -/
theorem Convert_nested_directives_witness :
    convertWith Nested.info 8 (.Named "nested" "Person")
        [⟨["Name"], ["Name"]⟩, ⟨["Age"], ["Age"]⟩,
          ⟨["Address", "StreetInfo", "Name"], ["Street"]⟩,
          ⟨["Address", "ZipCode"], ["ZipCode"]⟩]
        (Nested.flatPerson "a" "1" "Main" "12345")
      = some (Nested.person "a" "1" "Main" "12345") ∧
    (∃ inner, synthesize Nested.info Nested.directives 3 ["Address"]
        (.Named "nested" "FlatPerson") [] (.Named "nested" "Address") = some (.ok inner) ∧
      ∀ a ∈ inner, a ∈ [(⟨["Name"], ["Name"]⟩ : Assignment), ⟨["Age"], ["Age"]⟩,
        ⟨["Address", "StreetInfo", "Name"], ["Street"]⟩,
        ⟨["Address", "ZipCode"], ["ZipCode"]⟩]) ∧
    (⟨["Name"], ["Name"]⟩ : Assignment) ∈ [(⟨["Name"], ["Name"]⟩ : Assignment),
      ⟨["Age"], ["Age"]⟩, ⟨["Address", "StreetInfo", "Name"], ["Street"]⟩,
      ⟨["Address", "ZipCode"], ["ZipCode"]⟩] ∧
    (⟨["Address", "ZipCode"], ["ZipCode"]⟩ : Assignment) ∈ [(⟨["Name"], ["Name"]⟩ : Assignment),
      ⟨["Age"], ["Age"]⟩, ⟨["Address", "StreetInfo", "Name"], ["Street"]⟩,
      ⟨["Address", "ZipCode"], ["ZipCode"]⟩] :=
  ⟨Convert_nested_directives.2.2.1 "a" "1" "Main" "12345",
    (Convert_nested_directives.2.2.2.1 Nested.info Nested.directives 3 [] []
      (.Named "nested" "FlatPerson") "nested" "Person" _ _ rfl rfl).1
      ("Address", .Named "nested" "Address") (by simp) rfl,
    (Convert_nested_directives.2.2.2.1 Nested.info Nested.directives 3 [] []
      (.Named "nested" "FlatPerson") "nested" "Person" _ _ rfl rfl).2
      ("Name", Nested.tString) (by simp) .String "string" rfl,
    (Convert_nested_directives.2.2.2.2 Nested.info Nested.directives 2
      (.Named "nested" "FlatPerson") "nested" "Person" "nested" "Address" _ _ _ rfl rfl
      ("Address", .Named "nested" "Address") (by simp) rfl rfl rfl
      ("ZipCode", Nested.tString) (by simp) .String "string" rfl).2 rfl⟩

/-- The synthesizer of internal/generator takes no directive: for the converter of
example/nested, `Generate` of internal/generator returns no file; the synthesis of
`Convert(FlatPerson) Person` fails at the field `Address`, which `FlatPerson` does not
have. -/
theorem Generate_nested_legacy :
    Generate Nested.info 4 Nested.importPkg "example/nested"
        [("Converter", ⟨⟨"ConverterImpl"⟩⟩)] ⟨"generated"⟩
      = some (.Return (none, some ("(nested.Converter).Convert: body: source "
          ++ "nested.FlatPerson does not have a field named Address"))) := rfl

/-- For the types of example/nested, `BuildBlock` matches the fields of the target `Person`
with the fields of `FlatPerson` of the same names and with nothing else: with any fuel from 2
on it returns the error `source <FlatPerson> does not have a field named Address` and no
statement, and `addMethod` returns `body: ` followed by that error and leaves the file as it
was. -/
theorem BuildBlock_nested_example (w : TypesInfo) (hw : w.underlying = Nested.underlying)
    (fuel : Nat) (hfuel : 2 ≤ fuel) (e i : Statement) (l : Nat) (g : generator)
    (name : String) :
    BuildBlock w fuel e i (.Named "nested" "FlatPerson") (.Named "nested" "Person") l
      = some ([], some ("source " ++ w.typeString (.Named "nested" "FlatPerson")
          ++ " does not have a field named " ++ "Address")) ∧
    addMethod w fuel g name (.Named "nested" "FlatPerson") (.Named "nested" "Person")
      = some (.Return (g.file, some ("body: " ++ ("source "
          ++ w.typeString (.Named "nested" "FlatPerson")
          ++ " does not have a field named " ++ "Address")))) := by
  obtain ⟨n, rfl⟩ : ∃ n, fuel = n + 2 := ⟨fuel - 2, by omega⟩
  have hb : ∀ (e i : Statement) (l : Nat),
      BuildBlock w (n + 2) e i (.Named "nested" "FlatPerson") (.Named "nested" "Person") l
        = some ([], some ("source " ++ w.typeString (.Named "nested" "FlatPerson")
            ++ " does not have a field named " ++ "Address")) := by
    intro e i l
    rw [BuildBlock_named_eq]
    simp [Ty.Underlying, hw, Nested.underlying, buildFields, sourceMethodsOf, VarMap.set,
      VarMap.get?, List.lookup, BuildBlock, Nested.tString, Nested.tInt]
  refine ⟨hb e i l, ?_⟩
  simp [addMethod, toCode, hb]

/-- The same, at the type information of example/nested and the fuel 2. -/
theorem BuildBlock_nested_example_witness :
    BuildBlock Nested.info 2 jen.Return (jen.Id "source") (.Named "nested" "FlatPerson")
        (.Named "nested" "Person") 0
      = some ([], some "source nested.FlatPerson does not have a field named Address") ∧
    addMethod Nested.info 2 ⟨"ConverterImpl", "nested.Converter", NewFile "generated", []⟩
        "Convert" (.Named "nested" "FlatPerson") (.Named "nested" "Person")
      = some (.Return (NewFile "generated",
          some "body: source nested.FlatPerson does not have a field named Address")) :=
  BuildBlock_nested_example Nested.info rfl 2 (by decide) jen.Return (jen.Id "source") 0
    ⟨"ConverterImpl", "nested.Converter", NewFile "generated", []⟩ "Convert"

/-! ## Theorems: structs that refer to themselves (C10) -/

/-- C10 (the claim as stated fails): for `Node`, which has the field `Next *Node`, and for
`Tree` and `Forest`, which point to each other, `BuildBlock` returns an error at the pointer
field and no statement, and `addMethod` adds no function to the file. -/
theorem BuildBlock_self_pointer_counterexample :
    Nested.info.underlying "nested" "Node"
      = .Struct [("Value", Nested.tInt), ("Next", .Pointer (.Named "nested" "Node"))] ∧
    BuildBlock Nested.info 2 jen.Return (jen.Id "source") (.Named "nested" "Node")
        (.Named "nested" "Node") 0
      = some ([], some "nested.Node.Next: cannot handle: (*nested.Node)") ∧
    BuildBlock Nested.info 2 jen.Return (jen.Id "source") (.Named "nested" "Tree")
        (.Named "nested" "Tree") 0
      = some ([], some "nested.Tree.Children: cannot handle: (*nested.Forest)") ∧
    addMethod Nested.info 2 ⟨"ConverterImpl", "nested.Converter", NewFile "generated", []⟩
        "Convert" (.Named "nested" "Node") (.Named "nested" "Node")
      = some (.Return (NewFile "generated",
          some "body: nested.Node.Next: cannot handle: (*nested.Node)")) :=
  ⟨rfl, rfl, rfl, rfl⟩

theorem FieldsDone_call
    (rec1 : Statement → Statement → Ty → Ty → Nat → Option (List Code × Option String))
    (input : Statement) (sm : VarMap) (level : Nat) (fields : List (String × Ty))
    (inners : List (List Code)) (hd : FieldsDone rec1 input sm level fields inners)
    (f : String × Ty) (hf : f ∈ fields) :
    ∃ sf inner, sm.get? f.1 = some sf ∧ fieldCall rec1 input level f sf = some (inner, none) := by
  unfold FieldsDone at hd
  induction hd with
  | nil => cases hf
  | cons h _ ih =>
    rcases List.mem_cons.1 hf with rfl | hf
    · obtain ⟨sf, hg, hc⟩ := h
      exact ⟨sf, _, hg, hc⟩
    · exact ih hf

theorem BuildBlock_named_ok (w : TypesInfo) (fuel : Nat) (e i : Statement) (s : Ty)
    (p nm : String) (l : Nat) (utype : List (String × Ty)) (c : List Code)
    (hu : w.underlying p nm = .Struct utype)
    (h : BuildBlock w (fuel + 1) e i s (.Named p nm) l = some (c, none)) :
    ∃ usource inners, s.Underlying w = .Struct usource ∧
      FieldsDone (BuildBlock w fuel) i (sourceMethodsOf usource) l utype inners ∧
      c = [.Stmt [.Var, .Id "target", .Qual p nm]] ++ inners.flatten
        ++ [.Stmt (e ++ [.Id "target"])] := by
  rw [BuildBlock_named_eq] at h
  simp only [hu] at h
  split at h
  · rename_i usource hs
    split at h
    · simp at h
    · simp at h
    · rename_i stmt hbf
      simp at h
      obtain ⟨inners, hd, hstmt⟩ := (buildFields_ok_iff _ _ _ _ _ _ _ _ _ _).1 hbf
      exact ⟨usource, inners, hs, hd, by rw [← h, hstmt]⟩
  · simp at h

theorem BuildBlock_pointer_target (w : TypesInfo) (fuel : Nat) (e i : Statement) (s elem : Ty)
    (l : Nat) (c : List Code) : BuildBlock w fuel e i s (.Pointer elem) l ≠ some (c, none) := by
  cases fuel <;> simp [BuildBlock]

/-- C10 (amended): for every named struct target that has a field of a pointer type (to the
struct itself, to a struct that points back, or to anything else), `BuildBlock` terminates,
given fuel above the rank of the target, with an error and no statement, and `addMethod`
adds no function for the method: it returns an error and leaves the file as it was, unless
the source type is built on a predeclared type, on which `toCode` panics before anything is
synthesized.  Nothing is expanded and no function that calls itself is generated. -/
theorem BuildBlock_pointer_field (w : TypesInfo) (rank : Ty → Nat) (hr : Ranked w rank)
    (fuel : Nat) (p nm : String) (utype : List (String × Ty))
    (hu : w.underlying p nm = .Struct utype)
    (hptr : ∃ f ∈ utype, ∃ elem, f.2 = .Pointer elem)
    (hfuel : rank (.Named p nm) < fuel) (s : Ty) :
    (∀ (e i : Statement) (l : Nat),
      ∃ err, BuildBlock w fuel e i s (.Named p nm) l = some ([], some err)) ∧
    (∀ (g : generator) (name : String),
      (∃ err, addMethod w fuel g name s (.Named p nm) = some (.Return (g.file, some err))) ∨
      (∃ msg, addMethod w fuel g name s (.Named p nm) = some (.Panic msg))) ∧
    (s.PredeclaredFree = true → ∀ (g : generator) (name : String),
      ∃ err, addMethod w fuel g name s (.Named p nm) = some (.Return (g.file, some err))) := by
  have hb : ∀ (e i : Statement) (l : Nat),
      ∃ err, BuildBlock w fuel e i s (.Named p nm) l = some ([], some err) := by
    intro e i l
    obtain ⟨⟨c, oe⟩, h⟩ := BuildBlock_total w rank hr fuel e i s (.Named p nm) l hfuel
    cases oe with
    | some err =>
      have := BuildBlock_err_nil _ _ _ _ _ _ _ _ _ h
      subst this
      exact ⟨err, h⟩
    | none =>
      exfalso
      obtain ⟨n, rfl⟩ : ∃ n, fuel = n + 1 := ⟨fuel - 1, by omega⟩
      obtain ⟨usource, inners, _, hall, _⟩ := BuildBlock_named_ok w n e i s p nm l utype c hu h
      obtain ⟨f, hf, elem, hel⟩ := hptr
      obtain ⟨sf, inner, _, hc⟩ := FieldsDone_call _ _ _ _ _ _ hall f hf
      unfold fieldCall at hc
      rw [hel] at hc
      exact BuildBlock_pointer_target _ _ _ _ _ _ _ _ hc
  have hadd : ∀ (g : generator) (name : String) (r : Code × Option String),
      toCode w s (jen.Id "source") = .Return r →
      ∃ err, addMethod w fuel g name s (.Named p nm) = some (.Return (g.file, some err)) := by
    intro g name r hs
    obtain ⟨cs, es⟩ := r
    obtain ⟨err, h⟩ := hb jen.Return (jen.Id "source") 0
    unfold addMethod
    rw [hs]
    cases es with
    | some e => exact ⟨_, rfl⟩
    | none =>
      simp only [toCode, h]
      exact ⟨_, rfl⟩
  refine ⟨hb, ?_, ?_⟩
  · intro g name
    cases hs : toCode w s (jen.Id "source") with
    | Panic msg =>
      right
      exact ⟨msg, by simp only [addMethod, hs]⟩
    | Return r => exact Or.inl (hadd g name r hs)
  · intro hfree g name
    obtain ⟨r, hs⟩ := toCode_return_of_free w s hfree (jen.Id "source")
    exact hadd g name r hs

/-- C10 (amended), at `Node`, which points to itself, as the source and the target. -/
theorem BuildBlock_pointer_field_witness :
    (∀ (e i : Statement) (l : Nat),
      ∃ err, BuildBlock Nested.info 2 e i (.Named "nested" "Node") (.Named "nested" "Node") l
        = some ([], some err)) ∧
    (∀ (g : generator) (name : String),
      ∃ err, addMethod Nested.info 2 g name (.Named "nested" "Node") (.Named "nested" "Node")
        = some (.Return (g.file, some err))) :=
  ⟨(BuildBlock_pointer_field Nested.info Nested.rank Nested.ranked 2 "nested" "Node" _ rfl
      ⟨("Next", .Pointer (.Named "nested" "Node")), by simp, _, rfl⟩ (by decide)
      (.Named "nested" "Node")).1,
    (BuildBlock_pointer_field Nested.info Nested.rank Nested.ranked 2 "nested" "Node" _ rfl
      ⟨("Next", .Pointer (.Named "nested" "Node")), by simp, _, rfl⟩ (by decide)
      (.Named "nested" "Node")).2.2 rfl⟩

/-! ## Theorems: running the generated statements (C1, C5) -/

theorem lookup_update_isSome (vars : List (String × Val)) (x y : String) (v : Val)
    (hy : (List.lookup y vars).isSome) :
    (List.lookup y ((x, v) :: vars.filter (fun e => e.1 != x))).isSome := by
  by_cases h : y = x
  · subst h; simp [List.lookup]
  · have : (y == x) = false := by simpa using h
    simp only [List.lookup, this, lookup_filter_ne vars x y h]
    exact hy

theorem run_var (w : TypesInfo) (fuel : Nat) (x p n : String) (rest : List Code)
    (vars : List (String × Val)) :
    run w fuel (.Stmt [.Var, .Id x, .Qual p n] :: rest) vars = none ∨
      ∃ v, List.lookup x vars = none ∧
        run w fuel (.Stmt [.Var, .Id x, .Qual p n] :: rest) vars
          = run w fuel rest ((x, v) :: vars) := by
  simp only [run, execStmt, flatten, List.flatMap, List.map, List.flatten, List.append_nil,
    List.singleton_append, typeOfCode]
  cases hl : List.lookup x vars with
  | some v => left; simp
  | none =>
    cases hz : zeroValue w fuel (.Named p n) with
    | none => left; simp
    | some v => right; exact ⟨v, rfl, by simp⟩

theorem run_var_declared (w : TypesInfo) (fuel : Nat) (x p n : String) (rest : List Code)
    (vars : List (String × Val)) (hx : (List.lookup x vars).isSome) :
    run w fuel (.Stmt [.Var, .Id x, .Qual p n] :: rest) vars = none := by
  rcases run_var w fuel x p n rest vars with h | ⟨v, hn, _⟩
  · exact h
  · rw [hn] at hx; cases hx

theorem run_assign (w : TypesInfo) (fuel : Nat) (x f : String) (expr : Code) (rest : List Code)
    (vars : List (String × Val)) :
    run w fuel (.Stmt [.Id x, .Dot f, .Op "=", expr] :: rest) vars = none ∨
      ∃ vars1, (∀ y, (List.lookup y vars).isSome → (List.lookup y vars1).isSome) ∧
        run w fuel (.Stmt [.Id x, .Dot f, .Op "=", expr] :: rest) vars
          = run w fuel rest vars1 := by
  simp only [run, execStmt, flatten, List.flatMap, List.map, List.flatten, List.append_nil,
    List.singleton_append]
  cases hl : List.lookup x vars with
  | none => left; simp
  | some tv =>
    cases he : evalExpr vars (match expr with | .Stmt items => items | c => [c]) with
    | none => left; simp
    | some v =>
      cases hs : tv.setField f v with
      | none => left; simp [hs]
      | some tv1 =>
        right
        exact ⟨_, fun y hy => lookup_update_isSome vars x y tv1 hy, by simp [hs]⟩


/-- C5 (the code declares one name several times): for `Person`, whose field `Address` is a
struct with the struct field `StreetInfo`, `BuildBlock` succeeds and the statements it returns
declare the variable `target` three times, once for each struct. -/
theorem BuildBlock_redeclares_target :
    ∃ block, BuildBlock Nested.info 4 jen.Return (jen.Id "source") (.Named "nested" "Person")
        (.Named "nested" "Person") 0 = some (block, none) ∧
      declaredIds block = ["target", "target", "target"] ∧
      block =
        [.Stmt [.Var, .Id "target", .Qual "nested" "Person"],
          .Stmt [.Id "target", .Dot "Name", .Op "=", .Stmt [.Id "source", .Dot "Name"]],
          .Stmt [.Id "target", .Dot "Age", .Op "=", .Stmt [.Id "source", .Dot "Age"]],
          .Stmt [.Var, .Id "target", .Qual "nested" "Address"],
          .Stmt [.Var, .Id "target", .Qual "nested" "StreetInfo"],
          .Stmt [.Id "target", .Dot "Name", .Op "=",
            .Stmt [.Id "source", .Dot "Address", .Dot "StreetInfo", .Dot "Name"]],
          .Stmt [.Id "target", .Dot "StreetInfo", .Op "=", .Id "target"],
          .Stmt [.Id "target", .Dot "ZipCode", .Op "=",
            .Stmt [.Id "source", .Dot "Address", .Dot "ZipCode"]],
          .Stmt [.Id "target", .Dot "Address", .Op "=", .Id "target"],
          .Stmt [.Return, .Id "target"]] :=
  ⟨_, rfl, rfl, rfl⟩

/-- C1 (the code fails for nested structs): for `Pair`, whose fields are basic, the statements
of `BuildBlock` return a value with the fields of the source; for `Person`, whose field
`Address` is a struct, `BuildBlock` succeeds but its statements declare `target` again and
return no value, whatever the source value. -/
theorem BuildBlock_conversion_nested_rejected :
    (∃ block, BuildBlock Nested.info 2 jen.Return (jen.Id "source") (.Named "nested" "Pair")
        (.Named "nested" "Pair") 0 = some (block, none) ∧
      convert Nested.info 3 block (.Struct [("A", .Basic .String "x"), ("B", .Basic .Int "7")])
        = some (.Struct [("A", .Basic .String "x"), ("B", .Basic .Int "7")])) ∧
    (∃ block, BuildBlock Nested.info 4 jen.Return (jen.Id "source") (.Named "nested" "Person")
        (.Named "nested" "Person") 0 = some (block, none) ∧
      ∀ fuel s, convert Nested.info fuel block s = none) := by
  refine ⟨⟨_, rfl, rfl⟩, _, rfl, ?_⟩
  intro fuel s
  show run Nested.info fuel
    (.Stmt [.Var, .Id "target", .Qual "nested" "Person"] ::
      .Stmt [.Id "target", .Dot "Name", .Op "=", .Stmt [.Id "source", .Dot "Name"]] ::
      .Stmt [.Id "target", .Dot "Age", .Op "=", .Stmt [.Id "source", .Dot "Age"]] ::
      .Stmt [.Var, .Id "target", .Qual "nested" "Address"] :: _) [("source", s)] = none
  rcases run_var Nested.info fuel "target" "nested" "Person" _ [("source", s)]
    with h | ⟨v, _, h⟩
  · exact h
  rw [h]
  rcases run_assign Nested.info fuel "target" "Name" _ _ (("target", v) :: [("source", s)])
    with h1 | ⟨vars1, hk1, h1⟩
  · exact h1
  rw [h1]
  rcases run_assign Nested.info fuel "target" "Age" _ _ vars1 with h2 | ⟨vars2, hk2, h2⟩
  · exact h2
  rw [h2]
  exact run_var_declared Nested.info fuel "target" "nested" "Address" _ vars2
    (hk2 _ (hk1 _ (by simp [List.lookup])))

/-! ## Theorems: the generated statements of a struct of basic fields -/

/-- The assignment that `BuildBlock` emits for a field of a basic type. -/
theorem BuildBlock_basic_ok (w : TypesInfo) (fuel : Nat) (e i : Statement) (s : Ty)
    (kind : BasicKind) (name : String) (l : Nat) (c : List Code)
    (h : BuildBlock w fuel e i s (.Basic kind name) l = some (c, none)) :
    c = [.Stmt (e ++ [.Stmt i])] := by
  cases fuel with
  | zero => simp [BuildBlock] at h
  | succ n =>
    simp only [BuildBlock] at h
    split at h
    · split at h
      · simp [Statement.Add] at h
        exact h.symm
      · simp at h
    · simp at h

theorem flat_inners (w : TypesInfo) (fuel : Nat) (input : Statement)
    (usource : List (String × Ty)) (l : Nat) (utype : List (String × Ty))
    (inners : List (List Code))
    (hd : FieldsDone (BuildBlock w fuel) input (sourceMethodsOf usource) l utype inners)
    (hbasic : ∀ f ∈ utype, ∃ k n, f.2 = .Basic k n) :
    inners.flatten = utype.map (fun f =>
      Code.Stmt [.Id "target", .Dot f.1, .Op "=", .Stmt (input ++ [.Dot f.1])]) := by
  unfold FieldsDone at hd
  induction hd with
  | nil => rfl
  | @cons f inner fs ins h _ ih =>
    obtain ⟨sf, hg, hc⟩ := h
    obtain ⟨k, n, hk⟩ := hbasic f (List.mem_cons_self _ _)
    obtain ⟨_, hn⟩ := sourceMethodsOf_get?_some usource f.1 sf hg
    unfold fieldCall at hc
    rw [hk] at hc
    have := BuildBlock_basic_ok _ _ _ _ _ _ _ _ _ hc
    subst this
    simp only [List.flatten, List.map, List.cons_append, List.nil_append]
    rw [show List.flatten ins = _ from ih (fun g hg => hbasic g (List.mem_cons_of_mem _ hg))]
    simp [jen.Id, Statement.Id, Statement.Dot, Statement.Op, Statement.Clone, hn]

theorem lookup_map_update (cur : List (String × Val)) (g k : String) (v : Val) :
    List.lookup k (cur.map (fun e => if e.1 = g then (e.1, v) else e))
      = if k = g then (List.lookup k cur).map (fun _ => v) else List.lookup k cur := by
  induction cur with
  | nil => simp [List.lookup]
  | cons x xs ih =>
    obtain ⟨a, b⟩ := x
    rw [List.map_cons]
    show List.lookup k ((if a = g then (a, v) else (a, b)) :: _) = _
    by_cases hag : a = g
    · rw [if_pos hag, List.lookup_cons, List.lookup_cons, ih]
      cases hk : (k == a) with
      | true =>
        have : k = g := by rw [← hag]; simpa using hk
        simp [this]
      | false => rfl
    · rw [if_neg hag, List.lookup_cons, List.lookup_cons, ih]
      cases hk : (k == a) with
      | true =>
        have hka : k = a := by simpa using hk
        have : k ≠ g := by rw [hka]; exact hag
        simp [this]
      | false => rfl

theorem map_update_names (cur : List (String × Val)) (g : String) (v : Val) :
    (cur.map (fun e => if e.1 = g then (e.1, v) else e)).map Prod.fst = cur.map Prod.fst := by
  induction cur with
  | nil => rfl
  | cons x xs ih =>
    simp only [List.map] at ih ⊢
    rw [ih]
    split <;> rfl

theorem lookup_isSome_of_names (a b : List (String × Val)) (h : a.map Prod.fst = b.map Prod.fst)
    (k : String) : (List.lookup k a).isSome = (List.lookup k b).isSome := by
  induction a generalizing b with
  | nil =>
    cases b with
    | nil => rfl
    | cons y ys => simp at h
  | cons x xs ih =>
    cases b with
    | nil => simp at h
    | cons y ys =>
      simp only [List.map, List.cons.injEq] at h
      obtain ⟨xa, xb⟩ := x
      obtain ⟨ya, yb⟩ := y
      simp only at h
      obtain ⟨h1, h2⟩ := h
      subst h1
      simp only [List.lookup]
      cases hk : (k == xa) with
      | true => rfl
      | false => exact ih ys h2

theorem run_assign_field (w : TypesInfo) (zf : Nat) (f : String) (rest : List Code)
    (cur svals : List (String × Val)) (v : Val)
    (hv : List.lookup f svals = some v) (hc : (List.lookup f cur).isSome) :
    run w zf (.Stmt [.Id "target", .Dot f, .Op "=", .Stmt [.Id "source", .Dot f]] :: rest)
        [("target", .Struct cur), ("source", .Struct svals)]
      = run w zf rest
        [("target", .Struct (cur.map (fun e => if e.1 = f then (e.1, v) else e))),
          ("source", .Struct svals)] := by
  simp [run, execStmt, flatten, evalExpr, selectPath, Val.field, Val.setField, List.lookup,
    hv, hc, List.filter]

theorem run_assign_fields (w : TypesInfo) (zf : Nat) (svals : List (String × Val))
    (rest : List Code) (fs : List (String × Ty)) :
    ∀ cur : List (String × Val),
      (∀ f ∈ fs, (List.lookup f.1 svals).isSome) → (∀ f ∈ fs, (List.lookup f.1 cur).isSome) →
      ∃ cur1, run w zf (fs.map (fun f => Code.Stmt
            [.Id "target", .Dot f.1, .Op "=", .Stmt [.Id "source", .Dot f.1]]) ++ rest)
          [("target", .Struct cur), ("source", .Struct svals)]
          = run w zf rest [("target", .Struct cur1), ("source", .Struct svals)] ∧
        cur1.map Prod.fst = cur.map Prod.fst ∧
        (∀ f ∈ fs, List.lookup f.1 cur1 = List.lookup f.1 svals) ∧
        (∀ k, (∀ f ∈ fs, f.1 ≠ k) → List.lookup k cur1 = List.lookup k cur) := by
  induction fs with
  | nil => intro cur _ _; exact ⟨cur, rfl, rfl, by simp, fun _ _ => rfl⟩
  | cons f fs ih =>
    intro cur hs hc
    obtain ⟨v, hv⟩ := Option.isSome_iff_exists.1 (hs f (List.mem_cons_self _ _))
    have hcf := hc f (List.mem_cons_self _ _)
    have hnames := map_update_names cur f.1 v
    obtain ⟨cur1, hrun, hn1, hdone, hkeep⟩ :=
      ih (cur.map (fun e => if e.1 = f.1 then (e.1, v) else e))
        (fun g hg => hs g (List.mem_cons_of_mem _ hg))
        (fun g hg => by
          rw [lookup_isSome_of_names _ _ hnames]
          exact hc g (List.mem_cons_of_mem _ hg))
    refine ⟨cur1, ?_, hn1.trans hnames, ?_, ?_⟩
    · rw [List.map_cons, List.cons_append, run_assign_field w zf f.1 _ cur svals v hv hcf]
      exact hrun
    · intro g hg
      by_cases hin : ∃ g1 ∈ fs, g1.1 = g.1
      · obtain ⟨g1, hg1, he⟩ := hin
        rw [← he]
        exact hdone g1 hg1
      · have hne : ∀ g1 ∈ fs, g1.1 ≠ g.1 := fun g1 hg1 he => hin ⟨g1, hg1, he⟩
        rw [hkeep g.1 hne, lookup_map_update]
        rcases List.mem_cons.1 hg with rfl | hg
        · obtain ⟨x, hx⟩ := Option.isSome_iff_exists.1 hcf
          simp [hx, hv]
        · exact absurd rfl (hne g hg)
    · intro k hk
      rw [hkeep k (fun g hg => hk g (List.mem_cons_of_mem _ hg)), lookup_map_update,
        if_neg (fun h => hk f (List.mem_cons_self _ _) h.symm)]

theorem zeroFields_basic (w : TypesInfo) (z : Nat) (utype : List (String × Ty))
    (hbasic : ∀ f ∈ utype, ∃ k n, f.2 = .Basic k n) :
    ∃ zs, zeroFields (zeroValue w (z + 1)) utype = some zs ∧
      zs.map Prod.fst = utype.map Prod.fst := by
  induction utype with
  | nil => exact ⟨[], rfl, rfl⟩
  | cons f fs ih =>
    obtain ⟨k, n, hk⟩ := hbasic f (List.mem_cons_self _ _)
    obtain ⟨zs, hz, hn⟩ := ih (fun g hg => hbasic g (List.mem_cons_of_mem _ hg))
    refine ⟨(f.1, .Basic k (zeroLit k)) :: zs, ?_, by simp [hn]⟩
    simp [zeroFields, hk, zeroValue, hz]

theorem lookup_isSome_of_mem_names (zs : List (String × Val)) (k : String)
    (h : k ∈ zs.map Prod.fst) : (List.lookup k zs).isSome := by
  induction zs with
  | nil => simp at h
  | cons x xs ih =>
    obtain ⟨a, b⟩ := x
    simp only [List.lookup]
    cases hk : (k == a) with
    | true => rfl
    | false =>
      have hne : k ≠ a := by simpa using hk
      simp only [List.map, List.mem_cons] at h
      rcases h with h | h
      · exact absurd h hne
      · exact ih h

/-- The flat case of C1: for a named struct target whose fields are all of basic types, the
statements that `BuildBlock` returns, run on a struct value that has the fields of the
target, return a struct value with the fields of the target, each equal to the field of that
name of the source value. -/
theorem BuildBlock_flat_conversion (w : TypesInfo) (fuel zf : Nat) (s : Ty) (p nm : String)
    (l : Nat) (utype : List (String × Ty)) (block : List Code) (svals : List (String × Val))
    (hu : w.underlying p nm = .Struct utype)
    (hbasic : ∀ f ∈ utype, ∃ k n, f.2 = .Basic k n)
    (h : BuildBlock w (fuel + 1) jen.Return (jen.Id "source") s (.Named p nm) l
      = some (block, none))
    (hz : 3 ≤ zf) (hs : ∀ f ∈ utype, (List.lookup f.1 svals).isSome) :
    ∃ t, convert w zf block (.Struct svals) = some (.Struct t) ∧
      t.map Prod.fst = utype.map Prod.fst ∧
      ∀ f ∈ utype, List.lookup f.1 t = List.lookup f.1 svals := by
  obtain ⟨usource, inners, _, hd, hblock⟩ := BuildBlock_named_ok w fuel _ _ s p nm l utype block hu h
  have hin := flat_inners w fuel _ usource l utype inners hd hbasic
  obtain ⟨z, rfl⟩ : ∃ z, zf = z + 3 := ⟨zf - 3, by omega⟩
  obtain ⟨zs, hzs, hzn⟩ := zeroFields_basic w z utype hbasic
  obtain ⟨cur1, hrun, hn1, hdone, _⟩ := run_assign_fields w (z + 3) svals
    [.Stmt (jen.Return ++ [.Id "target"])] utype zs hs
    (fun f hf => lookup_isSome_of_mem_names zs f.1 (by
      rw [hzn]; exact List.mem_map_of_mem _ hf))
  refine ⟨cur1, ?_, hn1.trans hzn, hdone⟩
  rw [hblock, hin]
  simp only [convert, List.singleton_append, List.cons_append, run, execStmt, flatten,
    List.flatMap, List.map, List.flatten, List.append_nil, List.nil_append, typeOfCode,
    List.lookup]
  simp only [zeroValue, hu, hzs, Option.map]
  simp only [jen.Id, Statement.Id, List.nil_append, List.singleton_append] at hrun ⊢
  have ht : ("target" == "source") = false := by decide
  simp only [ht, Option.isSome_none, Bool.false_eq_true, if_false, List.append_eq,
    List.nil_append]
  rw [hrun]
  simp [run, execStmt, flatten, jen.Return, evalExpr, selectPath, List.lookup]

theorem declaredIds_append (a b : List Code) :
    declaredIds (a ++ b) = declaredIds a ++ declaredIds b := by
  induction a with
  | nil => rfl
  | cons x xs ih =>
    cases x with
    | Stmt items =>
      simp only [List.cons_append, declaredIds]
      split <;> simp [ih]
    | _ => simpa only [List.cons_append, declaredIds] using ih

theorem declaredIds_flatten_mem (inners : List (List Code)) (inner : List Code)
    (h : inner ∈ inners) (x : String) (hx : x ∈ declaredIds inner) :
    x ∈ declaredIds inners.flatten := by
  induction inners with
  | nil => cases h
  | cons y ys ih =>
    rw [List.flatten_cons, declaredIds_append]
    rcases List.mem_cons.1 h with rfl | h
    · exact List.mem_append_left _ hx
    · exact List.mem_append_right _ (ih h)

theorem FieldsDone_call_mem
    (rec1 : Statement → Statement → Ty → Ty → Nat → Option (List Code × Option String))
    (input : Statement) (sm : VarMap) (level : Nat) (fields : List (String × Ty))
    (inners : List (List Code)) (hd : FieldsDone rec1 input sm level fields inners)
    (f : String × Ty) (hf : f ∈ fields) :
    ∃ sf inner, inner ∈ inners ∧ fieldCall rec1 input level f sf = some (inner, none) := by
  unfold FieldsDone at hd
  induction hd with
  | nil => cases hf
  | cons h _ ih =>
    rcases List.mem_cons.1 hf with rfl | hf
    · obtain ⟨sf, _, hc⟩ := h
      exact ⟨sf, _, List.mem_cons_self _ _, hc⟩
    · obtain ⟨sf, inner, hm, hc⟩ := ih hf
      exact ⟨sf, inner, List.mem_cons_of_mem _ hm, hc⟩

/-- The defect behind C1 and C5 in general: whenever `BuildBlock` succeeds on a named struct
target one of whose fields is itself a named struct, the statements it returns declare the
variable `target` at least twice. -/
theorem BuildBlock_nested_struct_redeclares (w : TypesInfo) (fuel : Nat) (e i : Statement)
    (s : Ty) (p nm : String) (l : Nat) (utype : List (String × Ty)) (c : List Code)
    (hu : w.underlying p nm = .Struct utype)
    (hf : ∃ f ∈ utype, ∃ p2 n2 ut2, f.2 = .Named p2 n2 ∧ w.underlying p2 n2 = .Struct ut2)
    (h : BuildBlock w (fuel + 1) e i s (.Named p nm) l = some (c, none)) :
    2 ≤ (declaredIds c).count "target" := by
  obtain ⟨usource, inners, _, hd, hc⟩ := BuildBlock_named_ok w fuel e i s p nm l utype c hu h
  obtain ⟨f, hfm, p2, n2, ut2, hft, hu2⟩ := hf
  obtain ⟨sf, inner, hmem, hcall⟩ := FieldsDone_call_mem _ _ _ _ _ _ hd f hfm
  unfold fieldCall at hcall
  rw [hft] at hcall
  cases fuel with
  | zero => simp [BuildBlock] at hcall
  | succ n =>
    obtain ⟨_, inners2, _, _, hinner⟩ := BuildBlock_named_ok w n _ _ _ p2 n2 _ ut2 inner hu2 hcall
    have h1 : "target" ∈ declaredIds inner := by
      rw [hinner, List.append_assoc, declaredIds_append]
      exact List.mem_append_left _ (by simp [declaredIds, flatten])
    have h2 := declaredIds_flatten_mem inners inner hmem "target" h1
    rw [hc, List.append_assoc, declaredIds_append]
    have h3 : declaredIds [Code.Stmt [.Var, .Id "target", .Qual p nm]] = ["target"] := by
      simp [declaredIds, flatten]
    rw [h3, declaredIds_append, List.singleton_append, List.count_cons_self, List.count_append]
    have := List.count_pos_iff.2 h2
    omega

/-! ## Theorems: pointer targets (C11) and unsupported targets (C14) -/

/-- C11 (the claim as stated fails): for a pointer source and a pointer target `BuildBlock`
generates no conversion, with or without a nil guard; it returns an error and no
statement. -/
theorem BuildBlock_pointer_pair_counterexample :
    BuildBlock Nested.info 1 jen.Return (jen.Id "source") (.Pointer Nested.tInt)
        (.Pointer Nested.tInt) 0
      = some ([], some "cannot handle: (*int)") ∧
    BuildBlock Nested.info 2 jen.Return (jen.Id "source") (.Pointer (.Named "nested" "Pair"))
        (.Pointer (.Named "nested" "Pair")) 0
      = some ([], some "cannot handle: (*nested.Pair)") :=
  ⟨rfl, rfl⟩

/-- C11 (amended): for every pair whose target is a pointer type, and so for every pair of
two pointer types, `BuildBlock` returns the error `cannot handle: <target>` and no statement,
whatever the source: no conversion is generated, and no guard for nil. -/
theorem BuildBlock_pointer_unhandled (w : TypesInfo) (fuel : Nat) (e i : Statement)
    (s elem : Ty) (l : Nat) :
    BuildBlock w (fuel + 1) e i s (.Pointer elem) l
      = some ([], some ("cannot handle: " ++ w.goSyntax (.Pointer elem))) := by
  simp [BuildBlock]

/-- C14 (the claim as stated fails): for the pointer target `*Node` the sources `int` and
`string` get the same error, and for the named target `Label` the error prints neither the
source nor `Label`; the error does not identify the source. -/
theorem BuildBlock_unsupported_counterexample :
    BuildBlock Nested.info 1 jen.Return (jen.Id "source") Nested.tInt
        (.Pointer (.Named "nested" "Node")) 0
      = some ([], some "cannot handle: (*nested.Node)") ∧
    BuildBlock Nested.info 1 jen.Return (jen.Id "source") Nested.tString
        (.Pointer (.Named "nested" "Node")) 0
      = some ([], some "cannot handle: (*nested.Node)") ∧
    BuildBlock Nested.info 1 jen.Return (jen.Id "source") Nested.tInt
        (.Named "nested" "Label") 0
      = some ([], some "only named struct types are currently supported was string") :=
  ⟨rfl, rfl, rfl⟩

/-- C14 (amended): for every pair whose target is neither a basic type nor a named struct,
`BuildBlock` fails and returns no statement, and the error depends on the target alone: it is
`cannot handle: ` followed by the target for a target that is not a named type, and
`only named struct types are currently supported was ` followed by the underlying type of the
target for a named type that is not a struct.  For a named struct target and a source that
is not a struct the error is `cannot convert <source> to <target>`, which prints both. -/
theorem BuildBlock_unsupported_target (w : TypesInfo) (fuel : Nat) (e i : Statement)
    (s t : Ty) (l : Nat) :
    (¬ HandledTarget w t →
      BuildBlock w (fuel + 1) e i s t l = some ([], some (unsupportedTargetError w t))) ∧
    (∀ p nm utype, t = .Named p nm → w.underlying p nm = .Struct utype →
      (∀ usource, s.Underlying w ≠ .Struct usource) →
      BuildBlock w (fuel + 1) e i s t l
        = some ([], some ("cannot convert " ++ w.typeString s ++ " to " ++ w.typeString t))) := by
  constructor
  · intro ht
    cases t with
    | Basic k n => exact absurd trivial ht
    | Named p nm =>
      rw [BuildBlock_named_eq]
      simp only [unsupportedTargetError]
      split
      · rename_i utype hu
        exact absurd ⟨utype, hu⟩ ht
      · rfl
    | _ => simp [BuildBlock, unsupportedTargetError, Ty.Underlying]
  · rintro p nm utype rfl hu hs
    rw [BuildBlock_named_eq]
    simp only [hu]

/-- C14 (amended), at the targets `*Node`, `Label` and a slice, and at the source `int` for
the struct `Pair`. -/
theorem BuildBlock_unsupported_target_witness :
    BuildBlock Nested.info 1 jen.Return (jen.Id "source") Nested.tInt
        (.Pointer (.Named "nested" "Node")) 0
      = some ([], some "cannot handle: (*nested.Node)") ∧
    BuildBlock Nested.info 1 jen.Return (jen.Id "source") (.Named "nested" "Pair")
        (.Named "nested" "Label") 0
      = some ([], some "only named struct types are currently supported was string") ∧
    BuildBlock Nested.info 1 jen.Return (jen.Id "source") (.Slice Nested.tInt)
        (.Slice Nested.tInt) 0
      = some ([], some "cannot handle: ([]int)") ∧
    BuildBlock Nested.info 1 jen.Return (jen.Id "source") Nested.tInt
        (.Named "nested" "Pair") 0
      = some ([], some "cannot convert int to nested.Pair") :=
  ⟨(BuildBlock_unsupported_target Nested.info 0 _ _ Nested.tInt
      (.Pointer (.Named "nested" "Node")) 0).1 (fun h => h),
    (BuildBlock_unsupported_target Nested.info 0 _ _ (.Named "nested" "Pair")
      (.Named "nested" "Label") 0).1 (fun ⟨_, h⟩ => by cases h),
    (BuildBlock_unsupported_target Nested.info 0 _ _ (.Slice Nested.tInt)
      (.Slice Nested.tInt) 0).1 (fun h => h),
    (BuildBlock_unsupported_target Nested.info 0 _ _ Nested.tInt
      (.Named "nested" "Pair") 0).2 "nested" "Pair" _ rfl rfl (fun _ h => by cases h)⟩

/-! ## Theorems: the rule chain `BuildSteps` (C13) -/

/-- C13: `BuildSteps` is the list BasicTargetPointerRule, Pointer, TargetPointer, Basic,
Struct, List, Map: the strategies 2 to 8 of the rule chain of the specification in their
order, none missing and none twice.  When the first rule that applies is taken,
BasicTargetPointerRule goes before every other rule, and each of the three pointer rules
goes before Basic, Struct, List and Map. -/
theorem BuildSteps_order :
    Generator.BuildSteps
      = [.BasicTargetPointerRule, .Pointer, .TargetPointer, .Basic, .Struct, .List, .Map] ∧
    Generator.BuildSteps.map Generator.Builder.strategy = Generator.specRuleChain.drop 1 ∧
    Generator.BuildSteps.Nodup ∧
    (∀ b : Generator.Builder, b ∈ Generator.BuildSteps) ∧
    (∀ applies : Generator.Builder → Bool, applies .BasicTargetPointerRule = true →
      Generator.firstMatch applies = some .BasicTargetPointerRule) ∧
    (∀ (applies : Generator.Builder → Bool) (b : Generator.Builder),
      Generator.firstMatch applies = some b →
      (b = .Basic ∨ b = .Struct ∨ b = .List ∨ b = .Map) →
      applies .BasicTargetPointerRule = false ∧ applies .Pointer = false ∧
        applies .TargetPointer = false) := by
  refine ⟨rfl, rfl, by decide, fun b => by cases b <;> decide, ?_, ?_⟩
  · intro applies h
    simp [Generator.firstMatch, Generator.BuildSteps, List.find?, h]
  · intro applies b h hb
    simp only [Generator.firstMatch, Generator.BuildSteps, List.find?] at h
    cases h1 : applies .BasicTargetPointerRule <;> simp only [h1] at h
    · cases h2 : applies .Pointer <;> simp only [h2] at h
      · cases h3 : applies .TargetPointer <;> simp only [h3] at h
        · exact ⟨rfl, rfl, rfl⟩
        · cases h; rcases hb with hb | hb | hb | hb <;> cases hb
      · cases h; rcases hb with hb | hb | hb | hb <;> cases hb
    · cases h; rcases hb with hb | hb | hb | hb <;> cases hb

/-- C13, at a pair to which the rules Pointer and Struct both apply. -/
theorem BuildSteps_order_witness :
    Generator.firstMatch (fun b => b = .Pointer || b = .Struct) = some .Pointer ∧
    Generator.firstMatch (fun b => b = .BasicTargetPointerRule || b = .Basic)
      = some .BasicTargetPointerRule :=
  ⟨by decide, BuildSteps_order.2.2.2.2.1 _ (by decide)⟩
/-! ## Theorems: `toCode` (C19, C20) -/

theorem toCode_basic (w : TypesInfo) (kind : BasicKind) (name : String) :
    (Supported (.Basic kind name) = true ∧
      ∃ k, kindKeyword kind = some k ∧
        ∀ st, toCode w (.Basic kind name) st = .Return (.Stmt (st ++ [.Keyword k]), none)) ∨
    (Supported (.Basic kind name) = false ∧ kindKeyword kind = none ∧
      ∀ st, toCode w (.Basic kind name) st
        = .Return (.Nil,
            some (w.sprintf ("unsupported type " ++ w.typeString (.Basic kind name))))) := by
  cases kind <;>
    first
    | exact Or.inl ⟨rfl, _, rfl, fun st => rfl⟩
    | exact Or.inr ⟨rfl, rfl, fun st => rfl⟩

theorem toCode_cases (w : TypesInfo) : ∀ t : Ty, t.PredeclaredFree = true →
    (Supported t = true ∧ ∃ rest, ∀ st, toCode w t st = .Return (.Stmt (st ++ rest), none)) ∨
    (Supported t = false ∧
      ∃ t1, ∀ st, toCode w t st
        = .Return (.Nil, some (w.sprintf ("unsupported type " ++ w.typeString t1))))
  | .Named p n, _ => Or.inl ⟨rfl, [.Qual p n], fun _ => rfl⟩
  | .Predeclared _ _, h => by simp [Ty.PredeclaredFree] at h
  | .Basic kind name, _ => by
    rcases toCode_basic w kind name with ⟨h1, k, _, h2⟩ | ⟨h1, _, h2⟩
    · exact Or.inl ⟨h1, _, h2⟩
    · exact Or.inr ⟨h1, _, h2⟩
  | .Pointer elem, h => by
    rcases toCode_cases w elem (by simpa [Ty.PredeclaredFree] using h)
      with ⟨h1, rest, h2⟩ | ⟨h1, t1, h2⟩
    · refine Or.inl ⟨by simpa [Supported] using h1, .Op "*" :: rest, fun st => ?_⟩
      simp [toCode, h2, Statement.Op]
    · exact Or.inr ⟨by simpa [Supported] using h1, t1, fun st => by simp [toCode, h2]⟩
  | .Slice elem, h => by
    rcases toCode_cases w elem (by simpa [Ty.PredeclaredFree] using h)
      with ⟨h1, rest, h2⟩ | ⟨h1, t1, h2⟩
    · refine Or.inl ⟨by simpa [Supported] using h1, .Index [] :: rest, fun st => ?_⟩
      simp [toCode, h2, Statement.Index]
    · exact Or.inr ⟨by simpa [Supported] using h1, t1, fun st => by simp [toCode, h2]⟩
  | .Array len elem, h => by
    rcases toCode_cases w elem (by simpa [Ty.PredeclaredFree] using h)
      with ⟨h1, rest, h2⟩ | ⟨h1, t1, h2⟩
    · refine Or.inl ⟨by simpa [Supported] using h1,
        .Index [.Lit (.MethodValue "Len" len)] :: rest, fun st => ?_⟩
      simp [toCode, h2, Statement.Index]
    · exact Or.inr ⟨by simpa [Supported] using h1, t1, fun st => by simp [toCode, h2]⟩
  | .Map key elem, h => by
    have hf : key.PredeclaredFree = true ∧ elem.PredeclaredFree = true := by
      simpa [Ty.PredeclaredFree] using h
    rcases toCode_cases w key hf.1 with ⟨k1, krest, k2⟩ | ⟨k1, t1, k2⟩
    · rcases toCode_cases w elem hf.2 with ⟨h1, rest, h2⟩ | ⟨h1, t1, h2⟩
      · refine Or.inl ⟨by simp [Supported, k1, h1],
          .Map (.Stmt (empty ++ krest)) :: rest, fun st => ?_⟩
        simp [toCode, k2, h2, Statement.Map]
      · exact Or.inr ⟨by simp [Supported, h1], t1, fun st => by simp [toCode, k2, h2]⟩
    · exact Or.inr ⟨by simp [Supported, k1], t1, fun st => by simp [toCode, k2]⟩
  | .Struct fields, _ => Or.inr ⟨rfl, ⟨.Struct fields, fun _ => rfl⟩⟩
  | .Chan elem, _ => Or.inr ⟨rfl, ⟨.Chan elem, fun _ => rfl⟩⟩
  | .Signature params results, _ => Or.inr ⟨rfl, ⟨.Signature params results, fun _ => rfl⟩⟩
  | .Interface methods, _ => Or.inr ⟨rfl, ⟨.Interface methods, fun _ => rfl⟩⟩

theorem toCode_declared_supported (w : TypesInfo) (t : Ty) (st : Statement)
    (hfree : t.PredeclaredFree = true) :
    (Supported t = true → ∃ rest, toCode w t st = .Return (.Stmt (st ++ rest), none)) ∧
    (Supported t = false →
      ∃ t1, toCode w t st
        = .Return (.Nil, some (w.sprintf ("unsupported type " ++ w.typeString t1)))) := by
  rcases toCode_cases w t hfree with ⟨h1, rest, h2⟩ | ⟨h1, t1, h2⟩
  · exact ⟨fun _ => ⟨rest, h2 st⟩, fun h => by rw [h1] at h; cases h⟩
  · exact ⟨fun h => (by rw [h1] at h; cases h), fun _ => ⟨t1, h2 st⟩⟩

theorem toCode_typeExpr (w : TypesInfo) : ∀ t : Ty, t.ArrayFree = true →
    ∀ (st : Statement) (c : Code), toCode w t st = .Return (c, none) →
      ∃ rest, typeExpr t = some rest ∧ c = .Stmt (st ++ rest)
  | .Named p n, _, st, c, h => by
    simp only [toCode, Outcome.Return.injEq, Prod.mk.injEq, and_true] at h
    exact ⟨[.Qual p n], rfl, h.symm⟩
  | .Predeclared _ _, _, _, _, h => by simp [toCode] at h
  | .Basic kind name, _, st, c, h => by
    rcases toCode_basic w kind name with ⟨_, k, hk, h2⟩ | ⟨_, _, h2⟩
    · rw [h2 st] at h
      simp only [Outcome.Return.injEq, Prod.mk.injEq, and_true] at h
      exact ⟨[.Keyword k], by simp [typeExpr, hk], h.symm⟩
    · rw [h2 st] at h
      simp at h
  | .Pointer elem, ha, st, c, h => by
    simp only [toCode] at h
    obtain ⟨rest, h1, h2⟩ := toCode_typeExpr w elem (by simpa [Ty.ArrayFree] using ha) _ _ h
    exact ⟨.Op "*" :: rest, by simp [typeExpr, h1], by simp [h2, Statement.Op]⟩
  | .Slice elem, ha, st, c, h => by
    simp only [toCode] at h
    obtain ⟨rest, h1, h2⟩ := toCode_typeExpr w elem (by simpa [Ty.ArrayFree] using ha) _ _ h
    exact ⟨.Index [] :: rest, by simp [typeExpr, h1], by simp [h2, Statement.Index]⟩
  | .Array _ _, ha, _, _, _ => by simp [Ty.ArrayFree] at ha
  | .Map key elem, ha, st, c, h => by
    have hf : key.ArrayFree = true ∧ elem.ArrayFree = true := by
      simpa [Ty.ArrayFree] using ha
    simp only [toCode] at h
    cases hk : toCode w key empty with
    | Panic msg => simp [hk] at h
    | Return r =>
      obtain ⟨k, ke⟩ := r
      simp only [hk] at h
      cases ke with
      | some err => simp at h
      | none =>
        simp only at h
        obtain ⟨krest, k1, k2⟩ := toCode_typeExpr w key hf.1 _ _ hk
        obtain ⟨rest, h1, h2⟩ := toCode_typeExpr w elem hf.2 _ _ h
        exact ⟨.Map (.Stmt krest) :: rest, by simp [typeExpr, k1, h1],
          by simp [h2, k2, Statement.Map, empty]⟩
  | .Struct _, _, _, _, h => by simp [toCode] at h
  | .Chan _, _, _, _, h => by simp [toCode] at h
  | .Signature _ _, _, _, _, h => by simp [toCode] at h
  | .Interface _, _, _, _, h => by simp [toCode] at h

/-- C19 (the code departs from the claim on predeclared named types, and in the text of the
error): for the predeclared type `error`, a named type that the claim counts among the
types on which `toCode` succeeds, `toCode` neither succeeds nor returns the
`unsupported type` error: it panics, and so does it under a pointer, a slice, an array or a
map, and so does `addMethod` for a method with such a parameter.  And the error of a type
that is not rendered is `fmt.Errorf` applied to the text `unsupported type <T>` as the
format: it is what the formatting makes of that text, not the text as it stands. -/
theorem toCode_predeclared_panics (w : TypesInfo) (name : String)
    (methods : List (String × Ty)) (st : Statement) :
    Supported (.Predeclared name methods) = true ∧
    toCode w (.Predeclared name methods) st
      = .Panic "runtime error: invalid memory address or nil pointer dereference" ∧
    toCode w (.Slice (.Pointer (.Predeclared name methods))) st
      = .Panic "runtime error: invalid memory address or nil pointer dereference" ∧
    (∀ n elem, toCode w (.Array n (.Map (.Predeclared name methods) elem)) st
      = .Panic "runtime error: invalid memory address or nil pointer dereference") ∧
    (∀ fuel g method t, addMethod w fuel g method (.Predeclared name methods) t
      = some (.Panic "runtime error: invalid memory address or nil pointer dereference")) ∧
    (∀ elem, toCode w (.Chan elem) st
      = .Return (.Nil, some (w.sprintf ("unsupported type " ++ w.typeString (.Chan elem))))) :=
  ⟨rfl, rfl, rfl, fun _ _ => rfl, fun _ _ _ _ => rfl, fun _ => rfl⟩

/-- C20 (the code puts no integer in the bracket): for the array type `[n]int`, and so for
every array type, `toCode` succeeds and the index bracket it emits holds the literal of the
method value `cast.Len`, not the literal of the integer `n`. -/
theorem toCode_array_literal (w : TypesInfo) (n : Int) (st : Statement) :
    toCode w (.Array n (.Basic .Int "int")) st
      = .Return (.Stmt (st ++ [.Index [.Lit (.MethodValue "Len" n)], .Keyword "int"]), none) ∧
    toCode w (.Array n (.Basic .Int "int")) st
      ≠ .Return (.Stmt (st ++ [.Index [.Lit (.Int n)], .Keyword "int"]), none) := by
  constructor
  · simp [toCode, Statement.Index, Statement.Keyword]
  · simp [toCode, Statement.Index, Statement.Keyword]

/-! ## Theorems: `addMethod` is atomic (C18) -/

theorem BuildBlock_ok_arrayFree (w : TypesInfo) (fuel : Nat) (e i : Statement) (s t : Ty)
    (l : Nat) (c : List Code) (h : BuildBlock w fuel e i s t l = some (c, none)) :
    s.ArrayFree = true ∧ t.ArrayFree = true := by
  cases fuel with
  | zero => simp [BuildBlock] at h
  | succ n =>
    cases t with
    | Basic k nm =>
      simp only [BuildBlock] at h
      split at h
      · exact ⟨rfl, rfl⟩
      · simp at h
    | Named p nm =>
      rw [BuildBlock_named_eq] at h
      split at h
      · split at h
        · rename_i usource hs
          refine ⟨?_, rfl⟩
          cases s <;> first | rfl | (simp [Ty.Underlying] at hs)
        · simp at h
      · simp at h
    | _ => simp [BuildBlock] at h

/-- C18: `addMethod` checks the type expression of the source, then the one of the target,
then synthesizes the body, and returns the first failure with `source: `, `result: ` or
`body: ` in front; whenever it returns an error the file is as it was before; and it
succeeds exactly when the three steps do, and then the file has one more declaration, at its
end: the function with the receiver `c *<g.name>`, the given name, the parameter `source`
followed by the type expression of the source type, the type expression of the target type
as the result, and the statements of `BuildBlock` as the body. -/
theorem addMethod_atomic (w : TypesInfo) (fuel : Nat) (g : generator) (name : String)
    (s t : Ty) :
    (∀ c err, toCode w s (jen.Id "source") = .Return (c, some err) →
      addMethod w fuel g name s t = some (.Return (g.file, some ("source: " ++ err)))) ∧
    (∀ cs c err, toCode w s (jen.Id "source") = .Return (cs, none) →
      toCode w t empty = .Return (c, some err) →
      addMethod w fuel g name s t = some (.Return (g.file, some ("result: " ++ err)))) ∧
    (∀ cs ct c err, toCode w s (jen.Id "source") = .Return (cs, none) →
      toCode w t empty = .Return (ct, none) →
      BuildBlock w fuel jen.Return (jen.Id "source") s t 0 = some (c, some err) →
      addMethod w fuel g name s t = some (.Return (g.file, some ("body: " ++ err)))) ∧
    (∀ cs ct block, toCode w s (jen.Id "source") = .Return (cs, none) →
      toCode w t empty = .Return (ct, none) →
      BuildBlock w fuel jen.Return (jen.Id "source") s t 0 = some (block, none) →
      ∃ sourceType targetType, typeExpr s = some sourceType ∧ typeExpr t = some targetType ∧
        addMethod w fuel g name s t = some (.Return
          ({ g.file with decls := g.file.decls ++
              [[.Func, .Params [.Stmt [.Id "c", .Op "*", .Id g.name]], .Id name,
                .Params [.Stmt (.Id "source" :: sourceType)], .Params [.Stmt targetType],
                .Block block]] }, none))) ∧
    (∀ file, addMethod w fuel g name s t = some (.Return (file, none)) →
      ∃ sourceType targetType block, typeExpr s = some sourceType ∧
        typeExpr t = some targetType ∧
        BuildBlock w fuel jen.Return (jen.Id "source") s t 0 = some (block, none) ∧
        file = { g.file with decls := g.file.decls ++
          [[.Func, .Params [.Stmt [.Id "c", .Op "*", .Id g.name]], .Id name,
            .Params [.Stmt (.Id "source" :: sourceType)], .Params [.Stmt targetType],
            .Block block]] }) ∧
    (∀ file err, addMethod w fuel g name s t = some (.Return (file, some err)) →
      file = g.file) := by
  have hok : ∀ cs ct block, toCode w s (jen.Id "source") = .Return (cs, none) →
      toCode w t empty = .Return (ct, none) →
      BuildBlock w fuel jen.Return (jen.Id "source") s t 0 = some (block, none) →
      ∃ sourceType targetType, typeExpr s = some sourceType ∧ typeExpr t = some targetType ∧
        addMethod w fuel g name s t = some (.Return
          ({ g.file with decls := g.file.decls ++
              [[.Func, .Params [.Stmt [.Id "c", .Op "*", .Id g.name]], .Id name,
                .Params [.Stmt (.Id "source" :: sourceType)], .Params [.Stmt targetType],
                .Block block]] }, none)) := by
    intro cs ct block hs ht hb
    obtain ⟨hfs, hft⟩ := BuildBlock_ok_arrayFree _ _ _ _ _ _ _ _ hb
    obtain ⟨srest, hs1, hs2⟩ := toCode_typeExpr w s hfs _ _ hs
    obtain ⟨trest, ht1, ht2⟩ := toCode_typeExpr w t hft _ _ ht
    refine ⟨srest, trest, hs1, ht1, ?_⟩
    subst hs2 ht2
    simp only [addMethod, hs, ht, hb]
    simp [File.Add, Statement.Params, Statement.Id, Statement.Block, Statement.Op, jen.Id,
      empty]
  refine ⟨?_, ?_, ?_, hok, ?_, ?_⟩
  · intro c err h
    simp only [addMethod, h]
  · intro cs c err h1 h2
    simp only [addMethod, h1, h2]
  · intro cs ct c err h1 h2 hb
    simp only [addMethod, h1, h2, hb]
  · intro file h
    cases hs : toCode w s (jen.Id "source") with
    | Panic msg => simp [addMethod, hs] at h
    | Return r =>
      obtain ⟨cs, es⟩ := r
      cases es with
      | some err => simp [addMethod, hs] at h
      | none =>
        cases ht : toCode w t empty with
        | Panic msg => simp [addMethod, hs, ht] at h
        | Return r =>
          obtain ⟨ct, et⟩ := r
          cases et with
          | some err => simp [addMethod, hs, ht] at h
          | none =>
            cases hb : BuildBlock w fuel jen.Return (jen.Id "source") s t 0 with
            | none => simp [addMethod, hs, ht, hb] at h
            | some r =>
              obtain ⟨block, oe⟩ := r
              cases oe with
              | some err => simp [addMethod, hs, ht, hb] at h
              | none =>
                obtain ⟨sourceType, targetType, h1, h2, h3⟩ := hok cs ct block hs ht hb
                rw [h3] at h
                simp only [Option.some.injEq, Outcome.Return.injEq, Prod.mk.injEq,
                  and_true] at h
                exact ⟨sourceType, targetType, block, h1, h2, rfl, h.symm⟩
  · intro file err h
    exact (addMethod_error_shape w fuel g name s t file err h).1

/-- C18, at the three failures (an unnamed struct as the source, a channel as the target, a
missing field in the body) and at the method `Copy(Pair) Pair`, which succeeds. -/
theorem addMethod_atomic_witness :
    addMethod Nested.info 0 ⟨"CopierImpl", "nested.Copier", NewFile "generated", []⟩ "Copy"
        (.Struct []) (.Chan Nested.tInt)
      = some (.Return (NewFile "generated", some "source: unsupported type ?")) ∧
    addMethod Nested.info 0 ⟨"CopierImpl", "nested.Copier", NewFile "generated", []⟩ "Copy"
        (.Named "nested" "Pair") (.Chan Nested.tInt)
      = some (.Return (NewFile "generated", some "result: unsupported type chan int")) ∧
    addMethod Nested.info 4 ⟨"CopierImpl", "nested.Copier", NewFile "generated", []⟩ "Copy"
        (.Named "nested" "FlatPerson") (.Named "nested" "Person")
      = some (.Return (NewFile "generated",
          some "body: source nested.FlatPerson does not have a field named Address")) ∧
    (∃ sourceType targetType,
      typeExpr (.Named "nested" "Pair") = some sourceType ∧
      typeExpr (.Named "nested" "Pair") = some targetType ∧
      addMethod Nested.info 2 ⟨"CopierImpl", "nested.Copier", NewFile "generated", []⟩ "Copy"
          (.Named "nested" "Pair") (.Named "nested" "Pair")
        = some (.Return ({ NewFile "generated" with decls := (NewFile "generated").decls ++
            [[.Func, .Params [.Stmt [.Id "c", .Op "*", .Id "CopierImpl"]], .Id "Copy",
              .Params [.Stmt (.Id "source" :: sourceType)], .Params [.Stmt targetType],
              .Block
                [.Stmt [.Var, .Id "target", .Qual "nested" "Pair"],
                  .Stmt [.Id "target", .Dot "A", .Op "=", .Stmt [.Id "source", .Dot "A"]],
                  .Stmt [.Id "target", .Dot "B", .Op "=", .Stmt [.Id "source", .Dot "B"]],
                  .Stmt [.Return, .Id "target"]]]] }, none))) :=
  ⟨(addMethod_atomic Nested.info 0 _ "Copy" (.Struct []) (.Chan Nested.tInt)).1 _ _ rfl,
    (addMethod_atomic Nested.info 0 _ "Copy" (.Named "nested" "Pair")
      (.Chan Nested.tInt)).2.1 _ _ _ rfl rfl,
    (addMethod_atomic Nested.info 4 _ "Copy" (.Named "nested" "FlatPerson")
      (.Named "nested" "Person")).2.2.1 _ _ _ _ rfl rfl rfl,
    (addMethod_atomic Nested.info 2 _ "Copy" (.Named "nested" "Pair")
      (.Named "nested" "Pair")).2.2.2.1 _ _ _ rfl rfl rfl⟩

/-! ## Theorems: the first failing field decides (C15) -/

/-- C15: on a named struct target and a struct source, when the fields declared before the
field `f` are converted and `f` is missing from the source or the call made for it fails,
`BuildBlock` returns the error of `f` and no statement, whatever fields `post` are declared
after `f` (nothing is assumed of them and they do not occur in the result); and every
failure of `BuildBlock` on such a pair is of this form, for the first such field. -/
theorem BuildBlock_fail_fast (w : TypesInfo) (fuel : Nat) (e i : Statement) (s : Ty)
    (p nm : String) (l : Nat) (utype usource : List (String × Ty))
    (hu : w.underlying p nm = .Struct utype) (hs : s.Underlying w = .Struct usource) :
    (∀ pre f post inners, utype = pre ++ f :: post →
      FieldsDone (BuildBlock w fuel) i (sourceMethodsOf usource) l pre inners →
      ((∀ g ∈ usource, g.1 ≠ f.1) →
        BuildBlock w (fuel + 1) e i s (.Named p nm) l
          = some ([], some ("source " ++ w.typeString s ++ " does not have a field named "
              ++ f.1))) ∧
      (∀ sf c1 e1, (sourceMethodsOf usource).get? f.1 = some sf →
        fieldCall (BuildBlock w fuel) i l f sf = some (c1, some e1) →
        BuildBlock w (fuel + 1) e i s (.Named p nm) l
          = some ([], some (w.typeString (.Named p nm) ++ "." ++ f.1 ++ ": " ++ e1)))) ∧
    (∀ c err, BuildBlock w (fuel + 1) e i s (.Named p nm) l = some (c, some err) →
      c = [] ∧ ∃ pre f post inners, utype = pre ++ f :: post ∧
        FieldsDone (BuildBlock w fuel) i (sourceMethodsOf usource) l pre inners ∧
        (((∀ g ∈ usource, g.1 ≠ f.1) ∧
            err = "source " ++ w.typeString s ++ " does not have a field named " ++ f.1) ∨
          (∃ sf c1 e1, (sourceMethodsOf usource).get? f.1 = some sf ∧
            fieldCall (BuildBlock w fuel) i l f sf = some (c1, some e1) ∧
            err = w.typeString (.Named p nm) ++ "." ++ f.1 ++ ": " ++ e1))) := by
  constructor
  · intro pre f post inners hsplit hd
    constructor
    · intro hmiss
      rw [BuildBlock_named_eq]
      simp only [hu, hs]
      rw [hsplit, buildFields_missing w _ i s (.Named p nm) _ l pre post f inners hd
        ((sourceMethodsOf_get?_none usource f.1).2 hmiss)]
    · intro sf c1 e1 hg hc
      rw [BuildBlock_named_eq]
      simp only [hu, hs]
      rw [hsplit, buildFields_inner_fail w _ i s (.Named p nm) _ l pre post f sf inners c1 e1
        hd hg hc]
  · intro c err h
    have hc := BuildBlock_err_nil _ _ _ _ _ _ _ _ _ h
    subst hc
    refine ⟨rfl, ?_⟩
    rw [BuildBlock_named_eq] at h
    simp only [hu, hs] at h
    split at h
    · simp at h
    · rename_i r1 err1 hbf
      simp at h
      obtain ⟨rfl, rfl⟩ := h
      obtain ⟨pre, f, post, inners, hf, hd, hcase⟩ := buildFields_fail _ _ _ _ _ _ _ _ _ _ _ hbf
      refine ⟨pre, f, post, inners, hf, hd, ?_⟩
      rcases hcase with ⟨hg, he⟩ | ⟨sf, c1, e1, hg, hc, he⟩
      · exact Or.inl ⟨(sourceMethodsOf_get?_none usource f.1).1 hg, he⟩
      · exact Or.inr ⟨sf, c1, e1, hg, hc, he⟩
    · simp at h

/-- C15, at the source `Single` for `Pair`: the field `A` fails to convert, and the field
`B`, which is missing as well, does not show in the error. -/
theorem BuildBlock_fail_fast_witness :
    BuildBlock Nested.info 2 jen.Return (jen.Id "source") (.Named "nested" "Single")
        (.Named "nested" "Pair") 0
      = some ([], some "nested.Pair.A: cannot convert int to string") ∧
    BuildBlock Nested.info 2 jen.Return (jen.Id "source") (.Named "nested" "FlatPerson")
        (.Named "nested" "Address") 0
      = some ([], some "source nested.FlatPerson does not have a field named StreetInfo") :=
  ⟨((BuildBlock_fail_fast Nested.info 1 jen.Return (jen.Id "source") (.Named "nested" "Single")
      "nested" "Pair" 0 _ _ rfl rfl).1 [] ("A", Nested.tString) [("B", Nested.tInt)] []
      rfl .nil).2 ("A", Nested.tInt) [] "cannot convert int to string" rfl rfl,
    ((BuildBlock_fail_fast Nested.info 1 jen.Return (jen.Id "source")
      (.Named "nested" "FlatPerson") "nested" "Address" 0 _ _ rfl rfl).1 []
      ("StreetInfo", .Named "nested" "StreetInfo") [("ZipCode", Nested.tString)] []
      rfl .nil).1 (by simp [Nested.tString, Nested.tInt])⟩

/-! ## Theorems: the order of the mapping (C12) -/

/-- C12 (the file depends on the order in which the map is visited): `Generate` of
internal/generator ranges over the map `mapping`; for the map with the entries `Copier` and
`Cloner`, the two orders in which `range` may visit it give two files, one that declares
`CopierImpl` first and one that declares `ClonerImpl` first. -/
theorem Generate_map_order :
    List.Perm [("Copier", (⟨⟨"CopierImpl"⟩⟩ : ConverterConfig)), ("Cloner", ⟨⟨"ClonerImpl"⟩⟩)]
      [("Cloner", ⟨⟨"ClonerImpl"⟩⟩), ("Copier", ⟨⟨"CopierImpl"⟩⟩)] ∧
    ∃ f1 f2,
      Generate Nested.info 3 Nested.importPkg "example/nested"
          [("Copier", ⟨⟨"CopierImpl"⟩⟩), ("Cloner", ⟨⟨"ClonerImpl"⟩⟩)] ⟨"generated"⟩
        = some (.Return (some f1, none)) ∧
      Generate Nested.info 3 Nested.importPkg "example/nested"
          [("Cloner", ⟨⟨"ClonerImpl"⟩⟩), ("Copier", ⟨⟨"CopierImpl"⟩⟩)] ⟨"generated"⟩
        = some (.Return (some f2, none)) ∧
      f1.decls.head? = some [.TypeKw, .Id "CopierImpl", .Struct []] ∧
      f2.decls.head? = some [.TypeKw, .Id "ClonerImpl", .Struct []] ∧
      f1 ≠ f2 := by
  refine ⟨List.Perm.swap _ _ _, _, _, rfl, rfl, rfl, rfl, ?_⟩
  intro h
  have h2 := congrArg (fun f => f.decls.head?) h
  simp [File.Add, File.HeaderComment, NewFile, Statement.Id, Statement.Struct] at h2

/-! ## Theorems: which pairs `BuildBlock` converts (C16) -/

theorem lastField_foldl (fields : List (String × Ty)) (m : VarMap) (k : String) :
    (fields.foldl (fun m f => m.set f.1 f) m).get? k = (lastField fields k).or (m.get? k) := by
  induction fields generalizing m with
  | nil => simp [lastField]
  | cons f rest ih =>
    rw [List.foldl_cons, ih, VarMap.get?_set]
    simp only [lastField, List.reverse_cons, List.find?_append, List.find?_cons, List.find?_nil]
    cases h1 : List.find? (fun g => g.1 == k) rest.reverse with
    | some g => simp
    | none =>
      by_cases hk : k = f.1
      · subst hk; simp
      · have hk2 : (f.1 == k) = false := by simpa using fun h => hk h.symm
        simp [hk, hk2]

theorem lastField_eq_get? (fields : List (String × Ty)) (k : String) :
    lastField fields k = (sourceMethodsOf fields).get? k := by
  unfold sourceMethodsOf
  rw [lastField_foldl]
  cases lastField fields k <;> simp [VarMap.get?]

theorem FieldsDone_of_forall
    (rec1 : Statement → Statement → Ty → Ty → Nat → Option (List Code × Option String))
    (input : Statement) (sm : VarMap) (level : Nat) (fields : List (String × Ty))
    (h : ∀ f ∈ fields, ∃ sf inner, sm.get? f.1 = some sf ∧
      fieldCall rec1 input level f sf = some (inner, none)) :
    ∃ inners, FieldsDone rec1 input sm level fields inners := by
  induction fields with
  | nil => exact ⟨[], List.Forall₂.nil⟩
  | cons f rest ih =>
    obtain ⟨sf, inner, hg, hc⟩ := h f (List.mem_cons_self _ _)
    obtain ⟨inners, hd⟩ := ih (fun g hg => h g (List.mem_cons_of_mem _ hg))
    exact ⟨inner :: inners, List.Forall₂.cons ⟨sf, hg, hc⟩ hd⟩

theorem BuildBlock_ok_convertible (w : TypesInfo) (fuel : Nat) :
    ∀ (e i : Statement) (s t : Ty) (l : Nat) (c : List Code),
      BuildBlock w fuel e i s t l = some (c, none) → ConvertibleLast w s t := by
  induction fuel with
  | zero => intro e i s t l c h; simp [BuildBlock] at h
  | succ n ih =>
    intro e i s t l c h
    cases t with
    | Basic k nm =>
      simp only [BuildBlock] at h
      split at h
      · split at h
        · rename_i sk sn hk
          subst hk
          exact .basic _ _ _
        · simp at h
      · simp at h
    | Named p nm =>
      have h0 := h
      rw [BuildBlock_named_eq] at h0
      split at h0
      · rename_i utype hu
        obtain ⟨usource, inners, hs, hd, _⟩ := BuildBlock_named_ok w n e i s p nm l utype c hu h
        refine .struct s p nm utype usource
          (fun f => ((sourceMethodsOf usource).get? f.1).getD f) hu hs ⟨_, rfl⟩ ?_ ?_
        · intro f hf
          obtain ⟨sf, _, hg, _⟩ := FieldsDone_call _ _ _ _ _ _ hd f hf
          rw [lastField_eq_get?, hg]
          simp only [hg, Option.getD_some]
        · intro f hf
          obtain ⟨sf, inner, hg, hc⟩ := FieldsDone_call _ _ _ _ _ _ hd f hf
          simp only [hg, Option.getD_some]
          exact ih _ _ _ _ _ _ hc
      · simp at h0
    | _ => simp [BuildBlock] at h

theorem ConvertibleLast_ok (w : TypesInfo) (rank : Ty → Nat) (hr : Ranked w rank) (s t : Ty)
    (h : ConvertibleLast w s t) :
    ∀ (fuel : Nat) (e i : Statement) (l : Nat), rank t < fuel →
      ∃ c, BuildBlock w fuel e i s t l = some (c, none) := by
  induction h with
  | basic kind sname tname =>
    intro fuel e i l hf
    obtain ⟨n, rfl⟩ : ∃ n, fuel = n + 1 := ⟨fuel - 1, by omega⟩
    exact ⟨[.Stmt (e.Add (.Stmt i))], by simp [BuildBlock]⟩
  | struct s p nm utype usource pick hu hs _ hpick _ ih =>
    intro fuel e i l hf
    obtain ⟨n, rfl⟩ : ∃ n, fuel = n + 1 := ⟨fuel - 1, by omega⟩
    have hall : ∀ f ∈ utype, ∃ sf inner, (sourceMethodsOf usource).get? f.1 = some sf ∧
        fieldCall (BuildBlock w n) i l f sf = some (inner, none) := by
      intro f hfm
      have hrank := hr p nm utype hu f hfm
      obtain ⟨c, hc⟩ := ih f hfm n (((jen.Id "target").Dot f.1).Op "=")
        (i.Clone.Dot (pick f).1) ((l + 1) % 256) (by omega)
      exact ⟨pick f, c, by rw [← lastField_eq_get?]; exact hpick f hfm, hc⟩
    obtain ⟨inners, hd⟩ := FieldsDone_of_forall _ _ _ _ _ hall
    rw [BuildBlock_named_eq]
    simp only [hu, hs]
    rw [(buildFields_ok_iff w _ i s (.Named p nm) _ l utype _ _).2 ⟨inners, hd, rfl⟩]
    exact ⟨_, rfl⟩

/-- C16 (the claim as stated fails): the struct of the two fields `_ string` and `_ int`
is convertible to `Blank`, which has the field `_ string`, in the words of the claim (the
source has a field of that name and of a convertible type), and `BuildBlock` fails on the
pair, because the field it matches is the last of that name, the `int`. -/
theorem BuildBlock_convertible_counterexample :
    Convertible Nested.info Nested.blankStringInt (.Named "nested" "Blank") ∧
    BuildBlock Nested.info 2 jen.Return (jen.Id "source") Nested.blankStringInt
        (.Named "nested" "Blank") 0
      = some ([], some "nested.Blank._: cannot convert int to string") :=
  ⟨.struct _ "nested" "Blank" [("_", Nested.tString)]
      [("_", Nested.tString), ("_", Nested.tInt)] (fun _ => ("_", Nested.tString)) rfl rfl
      ⟨_, rfl⟩
      (fun f hf => by
        simp only [List.mem_singleton] at hf
        subst hf
        simp) (fun f hf => by
        simp only [List.mem_singleton] at hf
        subst hf
        exact .basic _ _ _),
    rfl⟩

/-- C16 (amended): with fuel above the rank of the target, `BuildBlock` succeeds exactly on
the convertible pairs, where the source field matched with a field of the target is the last
field of that name in the source (the only one, unless the name is blank); on every other
pair it returns an error and no statement. -/
theorem BuildBlock_succeeds_iff (w : TypesInfo) (rank : Ty → Nat) (hr : Ranked w rank)
    (fuel : Nat) (e i : Statement) (s t : Ty) (l : Nat) (hfuel : rank t < fuel) :
    ((∃ c, BuildBlock w fuel e i s t l = some (c, none)) ↔ ConvertibleLast w s t) ∧
    (¬ ConvertibleLast w s t → ∃ err, BuildBlock w fuel e i s t l = some ([], some err)) := by
  have hiff : (∃ c, BuildBlock w fuel e i s t l = some (c, none)) ↔ ConvertibleLast w s t :=
    ⟨fun ⟨c, h⟩ => BuildBlock_ok_convertible w fuel e i s t l c h,
      fun h => ConvertibleLast_ok w rank hr s t h fuel e i l hfuel⟩
  refine ⟨hiff, fun hn => ?_⟩
  obtain ⟨⟨c, oe⟩, h⟩ := BuildBlock_total w rank hr fuel e i s t l hfuel
  cases oe with
  | none => exact absurd (hiff.1 ⟨c, h⟩) hn
  | some err =>
    have := BuildBlock_err_nil _ _ _ _ _ _ _ _ _ h
    subst this
    exact ⟨err, h⟩
/-- C16 (amended), at `Pair` to `Pair` and at `Single` to `Pair`. -/
theorem BuildBlock_succeeds_iff_witness :
    (((∃ c, BuildBlock Nested.info 2 jen.Return (jen.Id "source") (.Named "nested" "Pair")
          (.Named "nested" "Pair") 0 = some (c, none))
        ↔ ConvertibleLast Nested.info (.Named "nested" "Pair") (.Named "nested" "Pair")) ∧
      (¬ ConvertibleLast Nested.info (.Named "nested" "Pair") (.Named "nested" "Pair") →
        ∃ err, BuildBlock Nested.info 2 jen.Return (jen.Id "source") (.Named "nested" "Pair")
          (.Named "nested" "Pair") 0 = some ([], some err))) ∧
    (((∃ c, BuildBlock Nested.info 2 jen.Return (jen.Id "source") (.Named "nested" "Single")
          (.Named "nested" "Pair") 0 = some (c, none))
        ↔ ConvertibleLast Nested.info (.Named "nested" "Single") (.Named "nested" "Pair")) ∧
      (¬ ConvertibleLast Nested.info (.Named "nested" "Single") (.Named "nested" "Pair") →
        ∃ err, BuildBlock Nested.info 2 jen.Return (jen.Id "source")
          (.Named "nested" "Single") (.Named "nested" "Pair") 0 = some ([], some err))) :=
  ⟨BuildBlock_succeeds_iff Nested.info Nested.rank Nested.ranked 2 _ _ _ _ 0 (by decide),
    BuildBlock_succeeds_iff Nested.info Nested.rank Nested.ranked 2 _ _ _ _ 0 (by decide)⟩

/-! ## Theorems: the fields of the source that the target does not name (C17) -/

theorem buildFields_agree (w : TypesInfo)
    (rec1 : Statement → Statement → Ty → Ty → Nat → Option (List Code × Option String))
    (input : Statement) (s1 s2 cast : Ty) (sm1 sm2 : VarMap) (level : Nat)
    (fields : List (String × Ty)) (hag : ∀ f ∈ fields, sm1.get? f.1 = sm2.get? f.1)
    (stmt : List Code) :
    buildFields w rec1 input s1 cast sm1 level fields stmt
        = buildFields w rec1 input s2 cast sm2 level fields stmt ∨
      ∃ field,
        buildFields w rec1 input s1 cast sm1 level fields stmt
          = some ([], some ("source " ++ w.typeString s1 ++ " does not have a field named "
              ++ field)) ∧
        buildFields w rec1 input s2 cast sm2 level fields stmt
          = some ([], some ("source " ++ w.typeString s2 ++ " does not have a field named "
              ++ field)) := by
  induction fields generalizing stmt with
  | nil => exact Or.inl rfl
  | cons f rest ih =>
    have hf := hag f (List.mem_cons_self _ _)
    simp only [buildFields, ← hf]
    cases hg : sm1.get? f.1 with
    | none => exact Or.inr ⟨f.1, rfl, rfl⟩
    | some sf =>
      simp only []
      split
      · exact Or.inl rfl
      · exact Or.inl rfl
      · exact ih (fun g hg => hag g (List.mem_cons_of_mem _ hg)) _

theorem BuildBlock_agree (w : TypesInfo) (fuel : Nat) (e i : Statement) (s1 s2 : Ty)
    (p nm : String) (l : Nat) (utype sf1 sf2 : List (String × Ty))
    (hu : w.underlying p nm = .Struct utype)
    (h1 : s1.Underlying w = .Struct sf1) (h2 : s2.Underlying w = .Struct sf2)
    (hag : ∀ f ∈ utype, lastField sf1 f.1 = lastField sf2 f.1) :
    BuildBlock w fuel e i s1 (.Named p nm) l = BuildBlock w fuel e i s2 (.Named p nm) l ∨
      ∃ field,
        BuildBlock w fuel e i s1 (.Named p nm) l
          = some ([], some ("source " ++ w.typeString s1 ++ " does not have a field named "
              ++ field)) ∧
        BuildBlock w fuel e i s2 (.Named p nm) l
          = some ([], some ("source " ++ w.typeString s2 ++ " does not have a field named "
              ++ field)) := by
  cases fuel with
  | zero => exact Or.inl rfl
  | succ n =>
    rw [BuildBlock_named_eq, BuildBlock_named_eq]
    simp only [hu, h1, h2]
    rcases buildFields_agree w (BuildBlock w n) i s1 s2 (.Named p nm) (sourceMethodsOf sf1)
      (sourceMethodsOf sf2) l utype
      (fun f hf => by rw [← lastField_eq_get?, ← lastField_eq_get?]; exact hag f hf)
      [.Stmt [.Var, .Id "target", .Qual p nm]] with h | ⟨field, ha, hb⟩
    · rw [h]; exact Or.inl rfl
    · rw [ha, hb]; exact Or.inr ⟨field, rfl, rfl⟩

theorem lastField_of_nodup (fields : List (String × Ty))
    (hn : (fields.map Prod.fst).Nodup) (k : String) (g : String × Ty) :
    lastField fields k = some g ↔ g ∈ fields ∧ g.1 = k := by
  rw [lastField_eq_get?]
  constructor
  · exact sourceMethodsOf_get?_some fields k g
  · rintro ⟨hm, hk⟩
    cases hg : (sourceMethodsOf fields).get? k with
    | none => exact absurd hk ((sourceMethodsOf_get?_none fields k).1 hg g hm)
    | some g1 =>
      obtain ⟨hm1, hk1⟩ := sourceMethodsOf_get?_some fields k g1 hg
      rw [List.inj_on_of_nodup_map hn hm1 hm (hk1.trans hk.symm)]

theorem lastField_agree_of_nodup (utype sf1 sf2 : List (String × Ty))
    (hn1 : (sf1.map Prod.fst).Nodup) (hn2 : (sf2.map Prod.fst).Nodup)
    (hag : ∀ f ∈ utype, ∀ g : String × Ty, g.1 = f.1 → (g ∈ sf1 ↔ g ∈ sf2)) :
    ∀ f ∈ utype, lastField sf1 f.1 = lastField sf2 f.1 := by
  intro f hf
  apply Option.ext
  intro g
  rw [Option.mem_def, Option.mem_def, lastField_of_nodup sf1 hn1, lastField_of_nodup sf2 hn2]
  constructor
  · rintro ⟨hm, hk⟩; exact ⟨(hag f hf g hk).1 hm, hk⟩
  · rintro ⟨hm, hk⟩; exact ⟨(hag f hf g hk).2 hm, hk⟩

/-- C17 (the claim as stated fails): the two sources have the same two fields of the blank
name, a `string` and an `int`, in the two orders; for the target `Blank`, which has the field
`_ string`, `BuildBlock` fails on the one and succeeds on the other. -/
theorem BuildBlock_source_order_counterexample :
    (∀ g : String × Ty,
      g ∈ [("_", Nested.tString), ("_", Nested.tInt)]
        ↔ g ∈ [("_", Nested.tInt), ("_", Nested.tString)]) ∧
    BuildBlock Nested.info 2 jen.Return (jen.Id "source") Nested.blankStringInt
        (.Named "nested" "Blank") 0
      = some ([], some "nested.Blank._: cannot convert int to string") ∧
    BuildBlock Nested.info 2 jen.Return (jen.Id "source") Nested.blankIntString
        (.Named "nested" "Blank") 0
      = some ([.Stmt [.Var, .Id "target", .Qual "nested" "Blank"],
          .Stmt [.Id "target", .Dot "_", .Op "=", .Stmt [.Id "source", .Dot "_"]],
          .Stmt [.Return, .Id "target"]], none) :=
  ⟨fun g => by simp [or_comm], rfl, rfl⟩

/-- C17 (amended): for a named struct target `T` and two struct sources that agree, for
every name of a field of `T`, on the last field of that name (or, when the field names of
each source are pairwise distinct, that agree on all the fields whose names occur in `T`),
`BuildBlock` with the same fuel, sink and input returns the same result for both, whatever
other fields the sources have and in whatever order; or else both calls fail with the error
of a missing field, for the same field, which differs only in the printed source. -/
theorem BuildBlock_source_extras (w : TypesInfo) (fuel : Nat) (e i : Statement) (s1 s2 : Ty)
    (p nm : String) (l : Nat) (utype sf1 sf2 : List (String × Ty))
    (hu : w.underlying p nm = .Struct utype)
    (h1 : s1.Underlying w = .Struct sf1) (h2 : s2.Underlying w = .Struct sf2)
    (hag : (∀ f ∈ utype, lastField sf1 f.1 = lastField sf2 f.1) ∨
      ((sf1.map Prod.fst).Nodup ∧ (sf2.map Prod.fst).Nodup ∧
        ∀ f ∈ utype, ∀ g : String × Ty, g.1 = f.1 → (g ∈ sf1 ↔ g ∈ sf2))) :
    BuildBlock w fuel e i s1 (.Named p nm) l = BuildBlock w fuel e i s2 (.Named p nm) l ∨
      ∃ field,
        BuildBlock w fuel e i s1 (.Named p nm) l
          = some ([], some ("source " ++ w.typeString s1 ++ " does not have a field named "
              ++ field)) ∧
        BuildBlock w fuel e i s2 (.Named p nm) l
          = some ([], some ("source " ++ w.typeString s2 ++ " does not have a field named "
              ++ field)) := by
  rcases hag with hag | ⟨hn1, hn2, hag⟩
  · exact BuildBlock_agree w fuel e i s1 s2 p nm l utype sf1 sf2 hu h1 h2 hag
  · exact BuildBlock_agree w fuel e i s1 s2 p nm l utype sf1 sf2 hu h1 h2
      (lastField_agree_of_nodup utype sf1 sf2 hn1 hn2 hag)

/-- C17 (amended), at the target `Single` with the sources `Single` and
`struct{B int; A int}`, which has one more field, in front. -/
theorem BuildBlock_source_extras_witness :
    BuildBlock Nested.info 2 jen.Return (jen.Id "source") (.Named "nested" "Single")
        (.Named "nested" "Single") 0
      = BuildBlock Nested.info 2 jen.Return (jen.Id "source")
          (.Struct [("B", Nested.tInt), ("A", Nested.tInt)]) (.Named "nested" "Single") 0 ∨
      ∃ field,
        BuildBlock Nested.info 2 jen.Return (jen.Id "source") (.Named "nested" "Single")
            (.Named "nested" "Single") 0
          = some ([], some ("source " ++ Nested.info.typeString (.Named "nested" "Single")
              ++ " does not have a field named " ++ field)) ∧
        BuildBlock Nested.info 2 jen.Return (jen.Id "source")
            (.Struct [("B", Nested.tInt), ("A", Nested.tInt)]) (.Named "nested" "Single") 0
          = some ([], some ("source "
              ++ Nested.info.typeString (.Struct [("B", Nested.tInt), ("A", Nested.tInt)])
              ++ " does not have a field named " ++ field)) :=
  BuildBlock_source_extras Nested.info 2 jen.Return (jen.Id "source") (.Named "nested" "Single")
    (.Struct [("B", Nested.tInt), ("A", Nested.tInt)]) "nested" "Single" 0
    [("A", Nested.tInt)] [("A", Nested.tInt)] [("B", Nested.tInt), ("A", Nested.tInt)]
    rfl rfl rfl
    (Or.inr ⟨by decide, by decide, fun f hf g hg => by
      simp only [List.mem_singleton] at hf
      subst hf
      simp only at hg
      constructor
      · intro h
        simp only [List.mem_singleton] at h
        subst h
        simp
      · intro h
        simp only [List.mem_cons, List.mem_singleton, List.not_mem_nil, or_false] at h
        rcases h with h | h
        · subst h; simp at hg
        · subst h; simp⟩)

end Goverter
